import Mathlib

/-!
# git-activity-mirror: duration parsing and mirror adapters

Shallow embedding of `pkg/cmd/sync.go` (`parseDuration`) and of the
`MirrorCommits` paths of `pkg/platforms/github.go` and
`pkg/platforms/gitlab.go`.

Go strings are byte sequences; a byte is a `Nat`.  Go's `time.Duration` is a
signed 64-bit count of nanoseconds, embedded as an `Int` with explicit
wrap-around.
-/

namespace GitActivityMirror

/-! ## Go strings and durations -/

deriving instance DecidableEq for Except

/-- A Go string: its sequence of bytes. -/
abbrev GoString := List Nat

/-- Bytes of an ASCII literal. -/
def ascii (s : String) : GoString := s.toList.map Char.toNat

/-- Reduction of an integer into the range of Go's `int64`. -/
def wrapInt64 (x : Int) : Int := (x + 2 ^ 63) % 2 ^ 64 - 2 ^ 63

/-- Largest value of Go's `int64`. -/
def maxInt64 : Int := 2 ^ 63 - 1

/-- Product of two `time.Duration` values (an `int64` multiplication). -/
def mulDuration (a b : Int) : Int := wrapInt64 (a * b)

/-- Value of `time.Nanosecond` and its multiples up to `time.Hour`. -/
def Nanosecond : Nat := 1
def Microsecond : Nat := 1000 * Nanosecond
def Millisecond : Nat := 1000 * Microsecond
def Second : Nat := 1000 * Millisecond
def Minute : Nat := 60 * Second
def Hour : Nat := 60 * Minute

/-! ## `time.ParseDuration` (Go standard library, `time/format.go`) -/

/-- Errors of `time.ParseDuration`, by the text they start with. -/
inductive DurationError where
  | invalidDuration
  | missingUnit
  | unknownUnit (u : GoString)
  deriving DecidableEq, Repr

/-- The table `unitMap`: unit name to nanoseconds. -/
def unitMap (u : GoString) : Option Nat :=
  if u = [110, 115] then some Nanosecond            -- "ns"
  else if u = [117, 115] then some Microsecond      -- "us"
  else if u = [194, 181, 115] then some Microsecond -- "µs" (U+00B5)
  else if u = [206, 188, 115] then some Microsecond -- "μs" (U+03BC)
  else if u = [109, 115] then some Millisecond      -- "ms"
  else if u = [115] then some Second                -- "s"
  else if u = [109] then some Minute                -- "m"
  else if u = [104] then some Hour                  -- "h"
  else none

/-- The loop of `leadingInt`: consumes the leading `[0-9]*` of `s`, starting from
the accumulator `x` (a `uint64`); `none` is `errLeadingInt`. -/
def leadingIntFrom : GoString → Nat → Option (Nat × GoString)
  | [], x => some (x, [])
  | c :: cs, x =>
    if c < 48 ∨ c > 57 then some (x, c :: cs)
    else if x > 2 ^ 63 / 10 then none
    else
      let x1 := (x * 10 + c - 48) % 2 ^ 64
      if x1 > 2 ^ 63 then none else leadingIntFrom cs x1

/-- Go's `leadingInt`. -/
def leadingInt (s : GoString) : Option (Nat × GoString) := leadingIntFrom s 0

/-- The loop of `leadingFraction`, with the state `x`, `scale`, `overflow`.  The
`float64` variable `scale` only ever holds a power of ten of at most `10^19`,
which `float64` represents exactly, so it is a `Nat` here. -/
def leadingFractionFrom : GoString → Nat → Nat → Bool → Nat × Nat × GoString
  | [], x, scale, _ => (x, scale, [])
  | c :: cs, x, scale, overflow =>
    if c < 48 ∨ c > 57 then (x, scale, c :: cs)
    else if overflow then leadingFractionFrom cs x scale true
    else if x > (2 ^ 63 - 1) / 10 then leadingFractionFrom cs x scale true
    else
      let y := (x * 10 + c - 48) % 2 ^ 64
      if y > 2 ^ 63 then leadingFractionFrom cs x scale true
      else leadingFractionFrom cs y (scale * 10) false

/-- Go's `leadingFraction`. -/
def leadingFraction (s : GoString) : Nat × Nat × GoString := leadingFractionFrom s 0 1 false

/-- The unit scan of `ParseDuration`: the bytes of `s` before the first `.` or
digit, and the rest. -/
def splitUnit : GoString → GoString × GoString
  | [] => ([], [])
  | c :: cs =>
    if c = 46 ∨ (48 ≤ c ∧ c ≤ 57) then ([], c :: cs)
    else ((splitUnit cs).1.cons c, (splitUnit cs).2)

/-- The step `Consume (\.[0-9]*)?` of `ParseDuration` on the string `s1` left by
`leadingInt`: the flag `post`, the fraction `f`, its `scale`, and the rest. -/
def fractionPart (s1 : GoString) : Bool × Nat × Nat × GoString :=
  match s1 with
  | 46 :: s2 =>
    (decide (s2.length ≠ (leadingFraction s2).2.2.length), (leadingFraction s2).1,
      (leadingFraction s2).2.1, (leadingFraction s2).2.2)
  | _ => (false, 0, 1, s1)

/-- The body of the loop `for s != ""` of `ParseDuration` on a non-empty `s`: one
group `[0-9]*(\.[0-9]*)?unit`.  It returns the value `v` that the round adds to
`d`, and the rest of `s`.  `frac f unit scale` stands for the floating-point term
`uint64(float64(f) * (float64(unit) / scale))`. -/
def parseGroup (frac : Nat → Nat → Nat → Nat) (s : GoString) :
    Except DurationError (Nat × GoString) :=
  if ¬ (s.head? = some 46 ∨ ∃ c ∈ s.head?, 48 ≤ c ∧ c ≤ 57) then .error .invalidDuration
  else
    match leadingInt s with
    | none => .error .invalidDuration
    | some (v, s1) =>
      let pre := decide (s.length ≠ s1.length)
      let post := (fractionPart s1).1
      let f := (fractionPart s1).2.1
      let scale := (fractionPart s1).2.2.1
      let s4 := (fractionPart s1).2.2.2
      if !pre && !post then .error .invalidDuration
      else
        let u := (splitUnit s4).1
        let s5 := (splitUnit s4).2
        if u.length = 0 then .error .missingUnit
        else
          match unitMap u with
          | none => .error (.unknownUnit u)
          | some unit =>
            if v > 2 ^ 63 / unit then .error .invalidDuration
            else
              let v1 := (v * unit) % 2 ^ 64
              if f > 0 then
                let v2 := (v1 + frac f unit scale) % 2 ^ 64
                if v2 > 2 ^ 63 then .error .invalidDuration else .ok (v2, s5)
              else .ok (v1, s5)

/-- The loop `for s != ""` of `ParseDuration`, with the accumulator `d` (a
`uint64`).  Each round consumes at least one byte; the outer `none` is reached
only when `fuel` is less than the length of `s`. -/
def parseLoop (frac : Nat → Nat → Nat → Nat) :
    Nat → GoString → Nat → Option (Except DurationError Nat)
  | _, [], d => some (.ok d)
  | 0, _ :: _, _ => none
  | fuel + 1, c :: cs, d =>
    match parseGroup frac (c :: cs) with
    | .error e => some (.error e)
    | .ok (v, s5) =>
      let d1 := (d + v) % 2 ^ 64
      if d1 > 2 ^ 63 then some (.error .invalidDuration)
      else parseLoop frac fuel s5 d1

/-- Go's `time.ParseDuration`. -/
def ParseDuration (frac : Nat → Nat → Nat → Nat) (s : GoString) :
    Option (Except DurationError Int) :=
  let neg : Bool := match s with
    | c :: _ => decide (c = 45)
    | [] => false
  let s1 : GoString := match s with
    | c :: cs => if c = 45 ∨ c = 43 then cs else c :: cs
    | [] => []
  if s1 = [48] then some (.ok 0)
  else if s1 = [] then some (.error .invalidDuration)
  else
    match parseLoop frac s1.length s1 0 with
    | none => none
    | some (.error e) => some (.error e)
    | some (.ok d) =>
      if neg then some (.ok (wrapInt64 (- wrapInt64 d)))
      else if d > 2 ^ 63 - 1 then some (.error .invalidDuration)
      else some (.ok (wrapInt64 d))

/-! ## `parseDuration` (`pkg/cmd/sync.go`) -/

/-- The `parseDuration` of `sync.go`: the suffixes `y`, `mo`, `d`, `w` are replaced
by `h` and the parsed duration is multiplied; anything else goes to
`time.ParseDuration`. -/
def parseDuration (frac : Nat → Nat → Nat → Nat) (s : GoString) :
    Option (Except DurationError Int) :=
  if s.length > 1 ∧ s[s.length - 1]? = some 121 then
    match ParseDuration frac (s.take (s.length - 1) ++ [104]) with
    | some (.ok years) => some (.ok (mulDuration (mulDuration years 24) 365))
    | r => r
  else if s.length > 2 ∧ s.drop (s.length - 2) = [109, 111] then
    match ParseDuration frac (s.take (s.length - 2) ++ [104]) with
    | some (.ok months) => some (.ok (mulDuration (mulDuration months 24) 30))
    | r => r
  else if s.length > 1 ∧ s[s.length - 1]? = some 100 then
    match ParseDuration frac (s.take (s.length - 1) ++ [104]) with
    | some (.ok days) => some (.ok (mulDuration days 24))
    | r => r
  else if s.length > 1 ∧ s[s.length - 1]? = some 119 then
    match ParseDuration frac (s.take (s.length - 1) ++ [104]) with
    | some (.ok weeks) => some (.ok (mulDuration (mulDuration weeks 24) 7))
    | r => r
  else ParseDuration frac s

/-- Value of a string of decimal digits read from the accumulator `x`. -/
def decimalFrom (x : Nat) (ds : GoString) : Nat := ds.foldl (fun a c => a * 10 + (c - 48)) x

/-- Value of a string of decimal digits. -/
def decimalValue (ds : GoString) : Nat := decimalFrom 0 ds

/-- Every byte is one of `0` .. `9`. -/
def allDigits (ds : GoString) : Prop := ∀ c ∈ ds, 48 ≤ c ∧ c ≤ 57

instance (ds : GoString) : Decidable (allDigits ds) := by unfold allDigits; infer_instance

/-- The documented suffixes with their length in hours. -/
def unitSuffixes : List (GoString × Nat) :=
  [(ascii "h", 1), (ascii "d", 24), (ascii "w", 168), (ascii "mo", 720), (ascii "y", 8760)]

/-- A result that is an error (and not a duration). -/
def isError {α : Type} : Option (Except DurationError α) → Prop
  | some (.error _) => True
  | _ => False

/-- A result that is a duration. -/
def isOk {α : Type} : Option (Except DurationError α) → Prop
  | some (.ok _) => True
  | _ => False

instance {α : Type} (r : Option (Except DurationError α)) : Decidable (isError r) := by
  unfold isError; split <;> infer_instance

instance {α : Type} (r : Option (Except DurationError α)) : Decidable (isOk r) := by
  unfold isOk; split <;> infer_instance

/-- A byte that can occur in one number: a digit, a sign or the decimal point. -/
def isNumberByte (c : Nat) : Prop := c = 43 ∨ c = 45 ∨ c = 46 ∨ (48 ≤ c ∧ c ≤ 57)

instance (c : Nat) : Decidable (isNumberByte c) := by unfold isNumberByte; infer_instance

/-- The form `<n>h`, `<n>d`, `<n>w`, `<n>mo`, `<n>y` with `n` a single number, read
generously: `n` is any non-empty string of digits, signs and decimal points. -/
def unitForm (s : GoString) : Prop :=
  ∃ p ∈ unitSuffixes, p.1 <:+ s ∧ s.length > p.1.length ∧
    ∀ c ∈ s.take (s.length - p.1.length), isNumberByte c

instance (s : GoString) : Decidable (unitForm s) := by unfold unitForm; infer_instance

/-- The strings that `parseDuration` may hand to `time.ParseDuration` in place of
`s`: `s` with a final `y`, `mo`, `d` or `w` replaced by `h`. -/
def hourRewrites (s : GoString) : List GoString :=
  [[121], [109, 111], [100], [119]].filterMap fun suffix =>
    if suffix <:+ s ∧ s.length > suffix.length then
      some (s.take (s.length - suffix.length) ++ [104])
    else none

/-- The last byte of a string is one of `s`, `m`, `h`. -/
def endsInStdUnit (s : GoString) : Prop :=
  s.getLast? = some 115 ∨ s.getLast? = some 109 ∨ s.getLast? = some 104

/-! ## Data model (`pkg/platforms/platform.go`)

`time.Time` is a type parameter `Time`; a `TimeFormat` gives the two layouts of
`Time.Format` that the adapters use.  The `Extra` maps of the configuration are
never read and are left out. -/

/-- Go's `error` values as the adapters build them. -/
inductive GoError where
  /-- An error returned by the provider's client library, with its `Error()` text. -/
  | client (text : String)
  /-- A package-level error variable (`ErrUnsupportedPlatform`, ...). -/
  | sentinel (text : String)
  /-- The value of `fmt.Errorf(text)` without a wrapped cause. -/
  | errorf (text : String)
  /-- The value of `fmt.Errorf(text + "%w", cause)`. -/
  | wrap (text : String) (cause : GoError)
  /-- A run-time panic, the `runtime.Error` with the message `text`.  It is not
  returned: the method stops where the panic is raised and the caller unwinds. -/
  | panic (text : String)
  deriving DecidableEq, Repr

/-- The panic of a nil pointer dereference. -/
def nilDereference : GoError :=
  .panic "runtime error: invalid memory address or nil pointer dereference"

/-- Go's `errors.Is`: `target` is `e` or is on the chain of causes of `e`. -/
def GoError.is (e target : GoError) : Bool :=
  e == target ||
    match e with
    | .wrap _ cause => cause.is target
    | _ => false

def ErrUnsupportedPlatform : GoError := .sentinel "unsupported platform"
def ErrInvalidAuth : GoError := .sentinel "invalid authentication"
def ErrRepositoryNotFound : GoError := .sentinel "repository not found"
def ErrPermissionDenied : GoError := .sentinel "permission denied"
def ErrRateLimit : GoError := .sentinel "rate limit exceeded"

/-- The error variables that the package declares (`// Common errors`). -/
def commonErrors : List GoError :=
  [ErrUnsupportedPlatform, ErrInvalidAuth, ErrRepositoryNotFound, ErrPermissionDenied,
    ErrRateLimit]

/-- The layouts `"2006-01-02"` and `time.RFC3339` of `Time.Format`. -/
structure TimeFormat (Time : Type) where
  date : Time → String
  rfc3339 : Time → String

structure Author where
  Name : String
  Email : String
  deriving DecidableEq, Repr

structure Commit (Time : Type) where
  SHA : String
  Message : String
  Author : GitActivityMirror.Author
  Committer : GitActivityMirror.Author
  Date : Time
  URL : String
  Repo : String
  Platform : String
  deriving DecidableEq, Repr

structure AuthConfig where
  AuthType : String
  Token : String
  Username : String
  Password : String
  SSHKey : String
  Host : String
  deriving DecidableEq, Repr

structure MirrorConfig where
  Repository : String
  Visibility : String
  Branch : String
  Strategy : String
  deriving DecidableEq, Repr

structure PlatformConfig where
  Name : String
  Platform : String
  Host : String
  Auth : AuthConfig
  Repos : List String
  Mirror : MirrorConfig
  deriving DecidableEq, Repr

/-- The loop of `strings.Split` for a one-byte separator. -/
def splitSep (sep : Char) : List Char → List (List Char)
  | [] => [[]]
  | c :: cs =>
    if c = sep then [] :: splitSep sep cs
    else
      match splitSep sep cs with
      | [] => [[c]]
      | p :: ps => (c :: p) :: ps

/-- Go's `strings.Split(s, "/")`. -/
def stringsSplitSlash (s : String) : List String := (splitSep '/' s.toList).map String.mk

/-- What one call of an adapter method has done: how it ended, the state the
provider is left in, and the provider calls it issued, in order, each with the
response it got.  `err` is `none` when the method returned `nil`, `some (.panic _)`
when it panicked, and otherwise the `error` it returned. -/
structure Run (σ Call : Type) where
  err : Option GoError
  state : σ
  calls : List Call

/-- The method did not return: it panicked. -/
def Run.panicked {σ Call : Type} (r : Run σ Call) : Bool :=
  match r.err with
  | some (.panic _) => true
  | _ => false

/-! ## GitHub adapter (`pkg/platforms/github.go`)

The client `g.client` with its context is a record of the calls that
`MirrorCommits` makes, over an explicit provider state `σ`; a call returns the
decoded response or the text of the client's error.  The fields of a decoded
response are pointers, and a response can lack any of them; where the adapter, or
go-github before it sends a request, dereferences a nil pointer, the run ends in a
panic. -/

/-- The `GitObject` of go-github. -/
structure GitObject where
  ObjType : Option String
  SHA : Option String
  URL : Option String
  deriving DecidableEq, Repr

/-- The `Reference` of go-github; each field is a pointer, `none` when the
response does not carry it. -/
structure Reference where
  Ref : Option String
  URL : Option String
  Object : Option GitObject
  NodeID : Option String
  deriving DecidableEq, Repr

/-- The accessor `GetSHA` of go-github on the pointer `ref.Object`: the empty string
when the object or its SHA is nil. -/
def GitObject.GetSHA (object : Option GitObject) : String := (object.bind (·.SHA)).getD ""

/-- The `Tree` of go-github, of which only `SHA` is read. -/
structure Tree where
  SHA : Option String
  deriving DecidableEq, Repr

/-- The `CommitAuthor` of go-github. -/
structure CommitAuthor (Time : Type) where
  Date : Option Time
  Name : Option String
  Email : Option String
  Login : Option String
  deriving DecidableEq, Repr

/-- The `Commit` of go-github (git data API); a parent is a commit of which only
the `SHA` is set. -/
structure GitCommit (Time : Type) where
  SHA : Option String
  Author : Option (CommitAuthor Time)
  Committer : Option (CommitAuthor Time)
  Message : Option String
  Tree : Option GitActivityMirror.Tree
  Parents : List (Option String)
  deriving DecidableEq, Repr

/-- The calls of `g.client.Git` that `MirrorCommits` makes. -/
structure GitHubAPI (Time σ : Type) where
  GetRef : String → String → String → σ → Except String Reference × σ
  GetTree : String → String → String → Bool → σ → Except String Tree × σ
  CreateCommit : String → String → GitCommit Time → σ → Except String (GitCommit Time) × σ
  UpdateRef : String → String → Reference → Bool → σ → Except String Reference × σ

/-- A call to the GitHub API with its arguments and its response. -/
inductive GitHubCall (Time : Type) where
  | GetRef (owner repo ref : String) (result : Except String Reference)
  | GetTree (owner repo sha : String) (recursive : Bool) (result : Except String Tree)
  | CreateCommit (owner repo : String) (commit : GitCommit Time)
      (result : Except String (GitCommit Time))
  | UpdateRef (owner repo : String) (ref : Reference) (force : Bool)
      (result : Except String Reference)
  deriving DecidableEq, Repr

/-- The adapter `GitHubPlatform`: its configuration and owner. -/
structure GitHubPlatform where
  config : PlatformConfig
  owner : String
  deriving DecidableEq, Repr

section GitHub
variable {Time σ : Type}

/-- The branch lookup at the head of the loop body: `refs/heads/main`, then
`refs/heads/master` when the first call fails. -/
def GitHubPlatform.getHead (api : GitHubAPI Time σ) (owner repoName : String) (s : σ) :
    Except String Reference × σ × List (GitHubCall Time) :=
  let r1 := api.GetRef owner repoName "refs/heads/main" s
  match r1.1 with
  | .ok ref => (.ok ref, r1.2, [.GetRef owner repoName "refs/heads/main" r1.1])
  | .error _ =>
    let r2 := api.GetRef owner repoName "refs/heads/master" r1.2
    (r2.1, r2.2,
      [.GetRef owner repoName "refs/heads/main" r1.1,
       .GetRef owner repoName "refs/heads/master" r2.1])

/-- The commit object that the loop body builds for `commit` on the branch tip
`ref` with tree `baseTree`. -/
def GitHubPlatform.newCommit (fmt : TimeFormat Time) (g : GitHubPlatform) (commit : Commit Time)
    (ref : Reference) (baseTree : Tree) : GitCommit Time :=
  let message := "Development work - " ++ fmt.date commit.Date
  let author : CommitAuthor Time :=
    { Date := some commit.Date
      Name := some g.config.Auth.Username
      Email := some (g.config.Auth.Username ++ "@users.noreply.github.com")
      Login := none }
  let committer : CommitAuthor Time :=
    { Date := some commit.Date
      Name := some g.config.Auth.Username
      Email := some (g.config.Auth.Username ++ "@users.noreply.github.com")
      Login := none }
  { SHA := none
    Author := some author
    Committer := some committer
    Message := some message
    Tree := some { SHA := baseTree.SHA }
    Parents := [ref.Object.bind (·.SHA)] }

/-- The loop body after the branch lookup: read the tree of the tip `ref`, create
the commit, move the ref.  Three pointers are dereferenced without a check, each
after the call before it has succeeded and before the next request is sent:
`ref.Object` in `parents := []*github.Commit{{SHA: ref.Object.SHA}}`, the SHA of
the parent in `CreateCommit` of go-github (`parents[i] = *parent.SHA`), and the name
of the ref in `UpdateRef` of go-github (`strings.TrimPrefix(*ref.Ref, "refs/")`). -/
def GitHubPlatform.commitOnTip (api : GitHubAPI Time σ) (fmt : TimeFormat Time)
    (g : GitHubPlatform) (owner repoName : String) (commit : Commit Time) (ref : Reference)
    (s1 : σ) : Run σ (GitHubCall Time) :=
  let sha := GitObject.GetSHA ref.Object
  let r2 := api.GetTree owner repoName sha false s1
  let c2 : List (GitHubCall Time) := [.GetTree owner repoName sha false r2.1]
  match r2.1 with
  | .error e => ⟨some (.wrap "failed to get base tree: " (.client e)), r2.2, c2⟩
  | .ok baseTree =>
    match ref.Object with
    | none => ⟨some nilDereference, r2.2, c2⟩
    | some object =>
      match object.SHA with
      | none => ⟨some nilDereference, r2.2, c2⟩
      | some _ =>
        let new := GitHubPlatform.newCommit fmt g commit ref baseTree
        let r3 := api.CreateCommit owner repoName new r2.2
        let c3 := c2 ++ [.CreateCommit owner repoName new r3.1]
        match r3.1 with
        | .error e => ⟨some (.wrap "failed to create mirror commit: " (.client e)), r3.2, c3⟩
        | .ok createdCommit =>
          let ref1 : Reference :=
            { ref with Object := some { object with SHA := createdCommit.SHA } }
          match ref.Ref with
          | none => ⟨some nilDereference, r3.2, c3⟩
          | some _ =>
            let r4 := api.UpdateRef owner repoName ref1 false r3.2
            let c4 := c3 ++ [.UpdateRef owner repoName ref1 false r4.1]
            match r4.1 with
            | .error e => ⟨some (.wrap "failed to update ref: " (.client e)), r4.2, c4⟩
            | .ok _ => ⟨none, r4.2, c4⟩

/-- The body of the loop `for _, commit := range commits` of
`GitHubPlatform.MirrorCommits`. -/
def GitHubPlatform.mirrorCommit (api : GitHubAPI Time σ) (fmt : TimeFormat Time)
    (g : GitHubPlatform) (owner repoName : String) (commit : Commit Time) (s : σ) :
    Run σ (GitHubCall Time) :=
  match GitHubPlatform.getHead api owner repoName s with
  | (.error e, s1, c1) => ⟨some (.wrap "failed to get repository head: " (.client e)), s1, c1⟩
  | (.ok ref, s1, c1) =>
    let r := GitHubPlatform.commitOnTip api fmt g owner repoName commit ref s1
    ⟨r.err, r.state, c1 ++ r.calls⟩

/-- The loop `for _, commit := range commits` of `GitHubPlatform.MirrorCommits`: it
ends at the first commit whose body returns an error or panics. -/
def GitHubPlatform.mirrorLoop (api : GitHubAPI Time σ) (fmt : TimeFormat Time)
    (g : GitHubPlatform) (owner repoName : String) :
    List (Commit Time) → σ → Run σ (GitHubCall Time)
  | [], s => ⟨none, s, []⟩
  | commit :: rest, s =>
    let r := GitHubPlatform.mirrorCommit api fmt g owner repoName commit s
    match r.err with
    | some _ => r
    | none =>
      let r1 := GitHubPlatform.mirrorLoop api fmt g owner repoName rest r.state
      ⟨r1.err, r1.state, r.calls ++ r1.calls⟩

/-- The owner and name of the mirror repository, from `config.Mirror.Repository`. -/
def GitHubPlatform.mirrorTarget (g : GitHubPlatform) : String × String :=
  match stringsSplitSlash g.config.Mirror.Repository with
  | [owner, repoName] => (owner, repoName)
  | _ => (g.owner, g.config.Mirror.Repository)

/-- The method `GitHubPlatform.MirrorCommits`. -/
def GitHubPlatform.MirrorCommits (api : GitHubAPI Time σ) (fmt : TimeFormat Time)
    (g : GitHubPlatform) (commits : List (Commit Time)) (s : σ) : Run σ (GitHubCall Time) :=
  if commits.length = 0 then ⟨none, s, []⟩
  else
    GitHubPlatform.mirrorLoop api fmt g g.mirrorTarget.1 g.mirrorTarget.2 commits s

end GitHub

/-! ## GitLab adapter (`pkg/platforms/gitlab.go`) -/

/-- The `Project` of go-gitlab, with the fields the adapter reads. -/
structure Project (Time : Type) where
  ID : Int
  Name : String
  PathWithNamespace : String
  Description : String
  WebURL : String
  HTTPURLToRepo : String
  Visibility : String
  CreatedAt : Option Time
  LastActivityAt : Option Time
  deriving DecidableEq, Repr

/-- The `ListProjectsOptions` of go-gitlab, with the fields the adapter sets. -/
structure ListProjectsOptions where
  Page : Int
  PerPage : Int
  Owned : Option Bool
  Search : Option String
  deriving DecidableEq, Repr

/-- The `CommitActionOptions` of go-gitlab. -/
structure CommitActionOptions where
  Action : Option String
  FilePath : Option String
  PreviousPath : Option String
  Content : Option String
  Encoding : Option String
  LastCommitID : Option String
  ExecuteFilemode : Option Bool
  deriving DecidableEq, Repr

/-- The `CreateCommitOptions` of go-gitlab: every field of the request. -/
structure CreateCommitOptions where
  Branch : Option String
  CommitMessage : Option String
  StartBranch : Option String
  StartSHA : Option String
  StartProject : Option String
  Actions : List CommitActionOptions
  AuthorEmail : Option String
  AuthorName : Option String
  Stats : Option Bool
  Force : Option Bool
  deriving DecidableEq, Repr

/-- The `Commit` of go-gitlab, with the fields the adapter reads. -/
structure GitLabCommit (Time : Type) where
  ID : String
  Message : String
  AuthorName : String
  AuthorEmail : String
  CommitterName : String
  CommitterEmail : String
  AuthoredDate : Option Time
  WebURL : String
  deriving DecidableEq, Repr

/-- The value `gitlab.FileUpdate`. -/
def FileUpdate : String := "update"

/-- The calls of `g.client` that `MirrorCommits` makes. -/
structure GitLabAPI (Time σ : Type) where
  ListProjects : ListProjectsOptions → σ → Except String (List (Project Time)) × σ
  CreateCommit : Int → CreateCommitOptions → σ → Except String (GitLabCommit Time) × σ

/-- A call to the GitLab API with its arguments and its response. -/
inductive GitLabCall (Time : Type) where
  | ListProjects (opt : ListProjectsOptions) (result : Except String (List (Project Time)))
  | CreateCommit (pid : Int) (opt : CreateCommitOptions)
      (result : Except String (GitLabCommit Time))
  deriving DecidableEq, Repr

/-- The adapter `GitLabPlatform`: its configuration and user id. -/
structure GitLabPlatform where
  config : PlatformConfig
  userID : Int
  deriving DecidableEq, Repr

section GitLab
variable {Time σ : Type}

/-- The request `createCommitOpt` that the loop body builds for `commit`. -/
def GitLabPlatform.createCommitOpt (fmt : TimeFormat Time) (g : GitLabPlatform)
    (commit : Commit Time) : CreateCommitOptions :=
  let message := "Development work - " ++ fmt.date commit.Date
  let actions : List CommitActionOptions :=
    [{ Action := some FileUpdate
       FilePath := some ".activity"
       PreviousPath := none
       Content := some ("Activity recorded: " ++ fmt.rfc3339 commit.Date)
       Encoding := none
       LastCommitID := none
       ExecuteFilemode := none }]
  { Branch := some "main"
    CommitMessage := some message
    StartBranch := none
    StartSHA := none
    StartProject := none
    Actions := actions
    AuthorEmail := some (g.config.Auth.Username ++ "@users.noreply.gitlab.com")
    AuthorName := some g.config.Auth.Username
    Stats := none
    Force := none }

/-- The body of the loop `for _, commit := range commits` of
`GitLabPlatform.MirrorCommits`. -/
def GitLabPlatform.mirrorCommit (api : GitLabAPI Time σ) (fmt : TimeFormat Time)
    (g : GitLabPlatform) (projectID : Int) (commit : Commit Time) (s : σ) :
    Run σ (GitLabCall Time) :=
  let opt := GitLabPlatform.createCommitOpt fmt g commit
  let r1 := api.CreateCommit projectID opt s
  match r1.1 with
  | .ok _ => ⟨none, r1.2, [.CreateCommit projectID opt r1.1]⟩
  | .error _ =>
    let opt1 : CreateCommitOptions := { opt with Branch := some "master" }
    let r2 := api.CreateCommit projectID opt1 r1.2
    let c2 : List (GitLabCall Time) :=
      [.CreateCommit projectID opt r1.1, .CreateCommit projectID opt1 r2.1]
    match r2.1 with
    | .error e => ⟨some (.wrap "failed to create mirror commit: " (.client e)), r2.2, c2⟩
    | .ok _ => ⟨none, r2.2, c2⟩

/-- The loop `for _, commit := range commits` of `GitLabPlatform.MirrorCommits`. -/
def GitLabPlatform.mirrorLoop (api : GitLabAPI Time σ) (fmt : TimeFormat Time)
    (g : GitLabPlatform) (projectID : Int) :
    List (Commit Time) → σ → Run σ (GitLabCall Time)
  | [], s => ⟨none, s, []⟩
  | commit :: rest, s =>
    let r := GitLabPlatform.mirrorCommit api fmt g projectID commit s
    match r.err with
    | some _ => r
    | none =>
      let r1 := GitLabPlatform.mirrorLoop api fmt g projectID rest r.state
      ⟨r1.err, r1.state, r.calls ++ r1.calls⟩

/-- The method `GitLabPlatform.MirrorCommits`. -/
def GitLabPlatform.MirrorCommits (api : GitLabAPI Time σ) (fmt : TimeFormat Time)
    (g : GitLabPlatform) (commits : List (Commit Time)) (s : σ) : Run σ (GitLabCall Time) :=
  if commits.length = 0 then ⟨none, s, []⟩
  else
    let mirrorRepo := g.config.Mirror.Repository
    let opt : ListProjectsOptions :=
      { Page := 0, PerPage := 0, Owned := some true, Search := some mirrorRepo }
    let r0 := api.ListProjects opt s
    let c0 : List (GitLabCall Time) := [.ListProjects opt r0.1]
    match r0.1 with
    | .error e => ⟨some (.wrap "failed to find mirror project: " (.client e)), r0.2, c0⟩
    | .ok [] => ⟨some (.errorf ("mirror project not found: " ++ mirrorRepo)), r0.2, c0⟩
    | .ok (project :: _) =>
      let r := GitLabPlatform.mirrorLoop api fmt g project.ID commits r0.2
      ⟨r.err, r.state, c0 ++ r.calls⟩

end GitLab

/-! ## Observations on a run -/

/-- The call got a response and no error. -/
def GitHubCall.ok {Time : Type} : GitHubCall Time → Bool
  | .GetRef _ _ _ (.ok _) => true
  | .GetTree _ _ _ _ (.ok _) => true
  | .CreateCommit _ _ _ (.ok _) => true
  | .UpdateRef _ _ _ _ (.ok _) => true
  | _ => false

/-- The commit object of a create-commit request. -/
def GitHubCall.createRequest {Time : Type} : GitHubCall Time → Option (GitCommit Time)
  | .CreateCommit _ _ commit _ => some commit
  | _ => none

/-- The create-commit requests of a run, in the order they were issued. -/
def createRequests {Time : Type} (calls : List (GitHubCall Time)) : List (GitCommit Time) :=
  calls.filterMap GitHubCall.createRequest

/-- The author date and the committer date that a commit object carries. -/
def GitCommit.dates {Time : Type} (c : GitCommit Time) : Option Time × Option Time :=
  (c.Author.bind (·.Date), c.Committer.bind (·.Date))

/-- The call got a response and no error. -/
def GitLabCall.ok {Time : Type} : GitLabCall Time → Bool
  | .ListProjects _ (.ok _) => true
  | .CreateCommit _ _ (.ok _) => true
  | _ => false

/-- The options of a create-commit request. -/
def GitLabCall.createRequest {Time : Type} : GitLabCall Time → Option CreateCommitOptions
  | .CreateCommit _ opt _ => some opt
  | _ => none

/-- The options of a create-commit request that the provider carried out. -/
def GitLabCall.created {Time : Type} : GitLabCall Time → Option CreateCommitOptions
  | .CreateCommit _ opt (.ok _) => some opt
  | _ => none

/-- The options of the successful create-commit calls of a run, in order. -/
def createdOpts {Time : Type} (calls : List (GitLabCall Time)) : List CreateCommitOptions :=
  calls.filterMap GitLabCall.created

/-- The options of all create-commit requests of a run, in order. -/
def createOpts {Time : Type} (calls : List (GitLabCall Time)) : List CreateCommitOptions :=
  calls.filterMap GitLabCall.createRequest

/-- The commit object of a create-commit request that the provider carried out. -/
def GitHubCall.created {Time : Type} : GitHubCall Time → Option (GitCommit Time)
  | .CreateCommit _ _ commit (.ok _) => some commit
  | _ => none

/-- The commit objects of the successful create-commit calls of a run, in order. -/
def createdCommits {Time : Type} (calls : List (GitHubCall Time)) : List (GitCommit Time) :=
  calls.filterMap GitHubCall.created

/-- The refs that the successful ref updates of a run have moved, in order. -/
def GitHubCall.updated {Time : Type} : GitHubCall Time → Option Reference
  | .UpdateRef _ _ ref _ (.ok _) => some ref
  | _ => none

/-- The message of every mirror commit: `Development work - ` and the date of the
source commit in the layout `2006-01-02`. -/
def mirrorMessage {Time : Type} (fmt : TimeFormat Time) (commit : Commit Time) : String :=
  "Development work - " ++ fmt.date commit.Date

/-- The call is a ref lookup. -/
def GitHubCall.isGetRef {Time : Type} : GitHubCall Time → Bool
  | .GetRef _ _ _ _ => true
  | _ => false

/-! ### Providers by their branches -/

/-- Every lookup of the ref `ref` fails. -/
def GitHubAPI.lacksRef {Time σ : Type} (api : GitHubAPI Time σ) (ref : String) : Prop :=
  ∀ owner repo s, ∃ e, (api.GetRef owner repo ref s).1 = .error e

/-- The project search always finds a project. -/
def GitLabAPI.hasProject {Time σ : Type} (api : GitLabAPI Time σ) : Prop :=
  ∀ opt s, ∃ p ps, (api.ListProjects opt s).1 = .ok (p :: ps)

/-- Every create-commit request on the branch `branch` fails. -/
def GitLabAPI.lacksBranch {Time σ : Type} (api : GitLabAPI Time σ) (branch : String) : Prop :=
  ∀ pid opt s, opt.Branch = some branch → ∃ e, (api.CreateCommit pid opt s).1 = .error e

/-- The error is, or wraps, one of the error values that the package declares. -/
def isDeclaredError (e : GoError) : Bool := commonErrors.any fun target => e.is target

/-! ### Example providers -/

/-- A time for the examples: its date and its RFC 3339 text. -/
structure Stamp where
  day : String
  text : String
  deriving DecidableEq, Repr

/-- The layouts on a `Stamp`. -/
def stampFormat : TimeFormat Stamp := ⟨Stamp.day, Stamp.text⟩

/-- A GitHub repository with the refs `refs`, all at one tip; the state is the SHA
of the tip, and a created commit gets the SHA of its parent followed by `+`. -/
def demoGitHub (refs : List String) : GitHubAPI Stamp String where
  GetRef _ _ ref tip :=
    if ref ∈ refs then
      (.ok { Ref := some ref, URL := none,
             Object := some { ObjType := some "commit", SHA := some tip, URL := none },
             NodeID := none }, tip)
    else (.error "404 Not Found", tip)
  GetTree _ _ _ _ tip := (.ok { SHA := some "tree" }, tip)
  CreateCommit _ _ c tip := (.ok { c with SHA := some (tip ++ "+") }, tip)
  UpdateRef _ _ ref _ _ := (.ok ref, GitObject.GetSHA ref.Object)

/-- A GitLab instance on which the search finds `projects`, each with the branches
`branches`; the state counts the commits created. -/
def demoGitLab (projects : List (Project Stamp)) (branches : List String) :
    GitLabAPI Stamp Nat where
  ListProjects _ n := (.ok projects, n)
  CreateCommit _ opt n :=
    if opt.Branch.getD "" ∈ branches then
      (.ok { ID := "new", Message := opt.CommitMessage.getD "",
             AuthorName := opt.AuthorName.getD "", AuthorEmail := opt.AuthorEmail.getD "",
             CommitterName := "", CommitterEmail := "", AuthoredDate := none, WebURL := "" },
        n + 1)
    else (.error "400 Bad Request: branch does not exist", n)

/-- A configuration with the user `alice` and the mirror repository `repository`. -/
def demoConfig (repository : String) : PlatformConfig :=
  { Name := "target", Platform := "github", Host := "",
    Auth := { AuthType := "token", Token := "t", Username := "alice", Password := "",
              SSHKey := "", Host := "" },
    Repos := [],
    Mirror := { Repository := repository, Visibility := "public", Branch := "",
                Strategy := "" } }

/-- A source commit for the examples. -/
def demoCommit (sha message day text : String) : Commit Stamp :=
  { SHA := sha, Message := message, Author := ⟨"Alice", "alice@work.example"⟩,
    Committer := ⟨"Alice", "alice@work.example"⟩, Date := ⟨day, text⟩,
    URL := "https://git.work.example/c/" ++ sha, Repo := "work/secret", Platform := "gitlab" }

/-- The project that the example search finds. -/
def demoProject : Project Stamp :=
  { ID := 7, Name := "mirror", PathWithNamespace := "alice/mirror", Description := "",
    WebURL := "", HTTPURLToRepo := "", Visibility := "public", CreatedAt := none,
    LastActivityAt := none }

def demoGitHubPlatform : GitHubPlatform := ⟨demoConfig "alice/mirror", "alice"⟩

def demoGitLabPlatform : GitLabPlatform := ⟨demoConfig "mirror", 0⟩

/-- Two source commits of different days. -/
def demoCommits : List (Commit Stamp) :=
  [demoCommit "a1" "fix secret thing" "2024-01-15" "2024-01-15T10:30:00Z",
   demoCommit "b2" "add secret thing" "2024-02-03" "2024-02-03T08:00:00Z"]

/-- The commits of `demoCommits` under other SHAs, messages, authors, URLs and
repositories, with the same dates. -/
def demoCommitsOther : List (Commit Stamp) :=
  [{ SHA := "ffff", Message := "unrelated", Author := ⟨"Bob", "bob@other.example"⟩,
     Committer := ⟨"Carol", "carol@other.example"⟩,
     Date := ⟨"2024-01-15", "2024-01-15T10:30:00Z"⟩, URL := "", Repo := "other/repo",
     Platform := "github" },
   { SHA := "0000", Message := "", Author := ⟨"", ""⟩, Committer := ⟨"", ""⟩,
     Date := ⟨"2024-02-03", "2024-02-03T08:00:00Z"⟩, URL := "u", Repo := "r",
     Platform := "bitbucket" }]

/-- The example commits, latest first. -/
def demoCommitsLatestFirst : List (Commit Stamp) :=
  [demoCommit "b2" "add secret thing" "2024-02-03" "2024-02-03T08:00:00Z",
   demoCommit "a1" "fix secret thing" "2024-01-15" "2024-01-15T10:30:00Z"]

/-- Lexicographic order on code points. -/
def lexLe : List Nat → List Nat → Bool
  | [], _ => true
  | _ :: _, [] => false
  | a :: as, b :: bs => decide (a < b) || (a == b && lexLe as bs)

/-- Order of two texts; on RFC 3339 texts in UTC it is the order of the times. -/
def textLe (a b : String) : Bool := lexLe (a.toList.map Char.toNat) (b.toList.map Char.toNat)

/-- Order of the example times. -/
def Stamp.le (a b : Stamp) : Bool := textLe a.text b.text

/-- The author dates of the create-commit requests of a run, in order. -/
def createDates {Time : Type} (calls : List (GitHubCall Time)) : List Time :=
  (createRequests calls).filterMap fun r => r.Author.bind (·.Date)

/-- The file contents of the create-commit requests of a run, in order. -/
def createContents {Time : Type} (calls : List (GitLabCall Time)) : List String :=
  (createOpts calls).flatMap fun opt => opt.Actions.filterMap (·.Content)

/-- What a created commit is identified by on GitLab: its message and its actions. -/
def CreateCommitOptions.payload (opt : CreateCommitOptions) :
    Option String × List CommitActionOptions :=
  (opt.CommitMessage, opt.Actions)

/-- A GitHub repository like `demoGitHub refs` on which every create-commit request
is refused. -/
def demoGitHubReadOnly (refs : List String) : GitHubAPI Stamp String :=
  { demoGitHub refs with CreateCommit := fun _ _ _ tip => (.error "403 Forbidden", tip) }

/-! ### The calls of a round -/

/-- The responses of a round of the GitHub loop that returns no error: the error
of the lookup of `refs/heads/main` when that lookup has failed and
`refs/heads/master` was looked up instead, the branch tip, its tree, the created
commit, the updated ref. -/
structure Round (Time : Type) where
  mainError : Option String
  ref : Reference
  tree : Tree
  created : GitCommit Time
  updated : Reference

/-- The branch lookups of a round: `refs/heads/main` alone when it is found, else
`refs/heads/main` and then `refs/heads/master`. -/
def Round.lookups {Time : Type} (owner repoName : String) (r : Round Time) :
    List (GitHubCall Time) :=
  match r.mainError with
  | none => [.GetRef owner repoName "refs/heads/main" (.ok r.ref)]
  | some e =>
    [.GetRef owner repoName "refs/heads/main" (.error e),
     .GetRef owner repoName "refs/heads/master" (.ok r.ref)]

/-- The calls of a round of the GitHub loop for `commit` that returns no error, with
the responses `r`: the branch is looked up, the tree of its tip is read, the new
commit is created on that tree with that tip as its parent, and the ref that was
looked up is moved to the created commit. -/
def Round.calls {Time : Type} (fmt : TimeFormat Time) (g : GitHubPlatform)
    (owner repoName : String) (commit : Commit Time) (r : Round Time) :
    List (GitHubCall Time) :=
  r.lookups owner repoName ++
  [.GetTree owner repoName (GitObject.GetSHA r.ref.Object) false (.ok r.tree),
   .CreateCommit owner repoName
     { SHA := none
       Author := some { Date := some commit.Date, Name := some g.config.Auth.Username,
                        Email := some (g.config.Auth.Username ++ "@users.noreply.github.com"),
                        Login := none }
       Committer := some { Date := some commit.Date, Name := some g.config.Auth.Username,
                           Email := some (g.config.Auth.Username ++ "@users.noreply.github.com"),
                           Login := none }
       Message := some (mirrorMessage fmt commit)
       Tree := some { SHA := r.tree.SHA }
       Parents := [r.ref.Object.bind (·.SHA)] }
     (.ok r.created),
   .UpdateRef owner repoName
     { r.ref with Object := r.ref.Object.map fun object => { object with SHA := r.created.SHA } }
     false (.ok r.updated)]

/-- The calls of a run of the GitHub loop on `commits` that returns no error, with
the responses `rounds`. -/
def roundsCalls {Time : Type} (fmt : TimeFormat Time) (g : GitHubPlatform)
    (owner repoName : String) : List (Commit Time) → List (Round Time) → List (GitHubCall Time)
  | commit :: commits, r :: rounds =>
    r.calls fmt g owner repoName commit ++ roundsCalls fmt g owner repoName commits rounds
  | _, _ => []

/-- A provider that returns the updated ref on the next read, seen on the calls of
a run: every successful ref lookup after a successful ref update returns the SHA
that this update has set.  `last` is the SHA set by the last update so far. -/
def readsFollowUpdates {Time : Type} :
    Option (Option String) → List (GitHubCall Time) → Bool
  | _, [] => true
  | last, .GetRef _ _ _ (.ok ref) :: rest =>
    (match last with
      | some sha => ref.Object.bind (·.SHA) == sha
      | none => true) && readsFollowUpdates last rest
  | _, .UpdateRef _ _ ref _ (.ok _) :: rest =>
    readsFollowUpdates (some (ref.Object.bind (·.SHA))) rest
  | last, _ :: rest => readsFollowUpdates last rest

/-- The successful create-commit calls of a run, in order: the commit object sent
and the commit returned. -/
def createdPairs {Time : Type} : List (GitHubCall Time) → List (GitCommit Time × GitCommit Time)
  | [] => []
  | .CreateCommit _ _ commit (.ok created) :: rest => (commit, created) :: createdPairs rest
  | _ :: rest => createdPairs rest

/-- Each commit sent has as its single parent the commit created before it. -/
def parentsChained {Time : Type} : List (GitCommit Time × GitCommit Time) → Prop
  | [] => True
  | [_] => True
  | a :: b :: rest => b.1.Parents = [a.2.SHA] ∧ parentsChained (b :: rest)

/-! ### Incomplete references and failing requests -/

/-- The loop behind `strings.Contains`: `sub` occurs in the text. -/
def containsChars : List Char → List Char → Bool
  | [], sub => sub.isPrefixOf []
  | c :: cs, sub => sub.isPrefixOf (c :: cs) || containsChars cs sub

/-- Go's `strings.Contains`. -/
def stringsContains (s substr : String) : Bool := containsChars s.toList substr.toList

/-- Go's `strings.HasPrefix`. -/
def stringsStartsWith (s start : String) : Bool := start.toList.isPrefixOf s.toList

def PlatformGitHub : String := "github"
def PlatformGitLab : String := "gitlab"
def PlatformBitbucket : String := "bitbucket"
def PlatformAzureDevOps : String := "azuredevops"
def PlatformGenericGit : String := "generic"

def AuthToken : String := "token"
def AuthPassword : String := "password"
def AuthSSH : String := "ssh"
def AuthOAuth : String := "oauth"

/-- What a go-github client was built from: the access token of its transport
(`none` for `github.NewClient(nil)`) and the base and upload URLs that
`WithEnterpriseURLs` has set. -/
structure GitHubClient where
  token : Option String
  enterprise : Option (String × String)
  deriving DecidableEq, Repr

/-- What a go-gitlab client was built from: its token and its base URL. -/
structure GitLabClient where
  token : String
  baseURL : String
  deriving DecidableEq, Repr

/-- The function `NewGitHubPlatform`.  `enterpriseError base upload` is the error
of `client.WithEnterpriseURLs(base, upload)`, if it returns one. -/
def NewGitHubPlatform (enterpriseError : String → String → Option String)
    (config : PlatformConfig) : Except GoError (GitHubClient × GitHubPlatform) :=
  let client : GitHubClient :=
    if config.Auth.Token ≠ "" then ⟨some config.Auth.Token, none⟩ else ⟨none, none⟩
  if config.Host ≠ "" ∧ config.Host ≠ "github.com" then
    match enterpriseError ("https://" ++ config.Host ++ "/api/v3/")
        ("https://" ++ config.Host ++ "/api/uploads/") with
    | some e => .error (.wrap "failed to configure GitHub Enterprise: " (.client e))
    | none =>
      .ok ({ client with enterprise := some ("https://" ++ config.Host ++ "/api/v3/",
                "https://" ++ config.Host ++ "/api/uploads/") },
        ⟨config, config.Auth.Username⟩)
  else .ok (client, ⟨config, config.Auth.Username⟩)

/-- The method `GitHubPlatform.Connect` on an adapter with the client `client`: the
error it returns, and the client and the adapter it leaves. -/
def GitHubPlatform.Connect (client : GitHubClient) (g : GitHubPlatform) (config : AuthConfig) :
    Option GoError × GitHubClient × GitHubPlatform :=
  let g1 : GitHubPlatform := { config := { g.config with Auth := config }, owner := config.Username }
  if config.Token ≠ "" then (none, ⟨some config.Token, none⟩, g1)
  else (none, client, g1)

/-- The base URL that the GitLab adapter passes to `gitlab.WithBaseURL`. -/
def gitlabBaseURL (host : String) : String :=
  let host1 := if host = "" then "https://gitlab.com" else host
  if ¬ stringsStartsWith host1 "http" then "https://" ++ host1 else host1

/-- The call `gitlab.NewClient(token, gitlab.WithBaseURL(host))`.  `baseURLError
host` is the error it returns for the base URL, if it returns one. -/
def gitlabNewClient (baseURLError : String → Option String) (token host : String) :
    Except String GitLabClient :=
  match baseURLError host with
  | some e => .error e
  | none => .ok ⟨token, host⟩

/-- The function `NewGitLabPlatform`. -/
def NewGitLabPlatform (baseURLError : String → Option String) (config : PlatformConfig) :
    Except GoError (GitLabClient × GitLabPlatform) :=
  let host := gitlabBaseURL config.Host
  let r :=
    if config.Auth.Token ≠ "" then gitlabNewClient baseURLError config.Auth.Token host
    else gitlabNewClient baseURLError "" host
  match r with
  | .error e => .error (.wrap "failed to create GitLab client: " (.client e))
  | .ok client => .ok (client, ⟨config, 0⟩)

/-- The method `GitLabPlatform.Connect`: the error it returns, the client it leaves
(`none` when the constructor has failed) and the adapter. -/
def GitLabPlatform.Connect (baseURLError : String → Option String) (g : GitLabPlatform)
    (config : AuthConfig) : Option GoError × Option GitLabClient × GitLabPlatform :=
  let g1 : GitLabPlatform := { g with config := { g.config with Auth := config } }
  let host := gitlabBaseURL config.Host
  let r :=
    if config.Token ≠ "" then gitlabNewClient baseURLError config.Token host
    else gitlabNewClient baseURLError "" host
  match r with
  | .error e => (some (.client e), none, g1)
  | .ok client => (none, some client, g1)

/-- An adapter as `NewPlatform` returns it. -/
inductive GitPlatform where
  | github (client : GitHubClient) (g : GitHubPlatform)
  | gitlab (client : GitLabClient) (g : GitLabPlatform)
  deriving DecidableEq, Repr

/-- The function `NewPlatform`. -/
def NewPlatform (enterpriseError : String → String → Option String)
    (baseURLError : String → Option String) (platformType : String) (config : PlatformConfig) :
    Except GoError GitPlatform :=
  if platformType = PlatformGitHub then
    match NewGitHubPlatform enterpriseError config with
    | .ok (client, g) => .ok (.github client g)
    | .error e => .error e
  else if platformType = PlatformGitLab then
    match NewGitLabPlatform baseURLError config with
    | .ok (client, g) => .ok (.gitlab client g)
    | .error e => .error e
  else if platformType = PlatformBitbucket ∨ platformType = PlatformAzureDevOps
      ∨ platformType = PlatformGenericGit then
    .error (.errorf ("platform " ++ platformType ++ " not implemented yet - coming in v0.2.0"))
  else .error ErrUnsupportedPlatform

/-- A create call with its request and its result; the created object that comes
back is not read. -/
structure CreateCall (Request : Type) where
  request : Request
  result : Except String Unit
  deriving DecidableEq, Repr

/-- The fields of `github.Repository` that `InitializeMirror` sets. -/
structure RepositoryRequest where
  Name : Option String
  Description : Option String
  Private : Option Bool
  deriving DecidableEq, Repr

/-- The fields of `gitlab.CreateProjectOptions` that `InitializeMirror` sets. -/
structure CreateProjectOptions where
  Name : Option String
  Description : Option String
  Visibility : Option String
  deriving DecidableEq, Repr

def PrivateVisibility : String := "private"
def PublicVisibility : String := "public"

/-- The request `repo` of `GitHubPlatform.InitializeMirror`. -/
def GitHubPlatform.mirrorRepository (name visibility : String) : RepositoryRequest :=
  { Name := some name
    Description := some "Mirror of git activity from other platforms"
    Private := some (decide (visibility = "private")) }

/-- The method `GitHubPlatform.InitializeMirror`, over the call
`g.client.Repositories.Create(g.ctx, org, repo)`. -/
def GitHubPlatform.InitializeMirror {σ : Type}
    (Create : String → RepositoryRequest → σ → Except String Unit × σ)
    (name visibility : String) (s : σ) : Run σ (CreateCall RepositoryRequest) :=
  let repo := GitHubPlatform.mirrorRepository name visibility
  let r := Create "" repo s
  match r.1 with
  | .error e =>
    if stringsContains e "already exists" then ⟨none, r.2, [⟨repo, r.1⟩]⟩
    else ⟨some (.wrap "failed to create mirror repository: " (.client e)), r.2, [⟨repo, r.1⟩]⟩
  | .ok _ => ⟨none, r.2, [⟨repo, r.1⟩]⟩

/-- The request `project` of `GitLabPlatform.InitializeMirror`. -/
def GitLabPlatform.mirrorProject (name visibility : String) : CreateProjectOptions :=
  let vis := if visibility = "public" then PublicVisibility else PrivateVisibility
  { Name := some name
    Description := some "Mirror of git activity from other platforms"
    Visibility := some vis }

/-- The method `GitLabPlatform.InitializeMirror`, over the call
`g.client.Projects.CreateProject(project)`. -/
def GitLabPlatform.InitializeMirror {σ : Type}
    (CreateProject : CreateProjectOptions → σ → Except String Unit × σ)
    (name visibility : String) (s : σ) : Run σ (CreateCall CreateProjectOptions) :=
  let project := GitLabPlatform.mirrorProject name visibility
  let r := CreateProject project s
  match r.1 with
  | .error e =>
    if stringsContains e "already been taken" then ⟨none, r.2, [⟨project, r.1⟩]⟩
    else ⟨some (.wrap "failed to create mirror project: " (.client e)), r.2, [⟨project, r.1⟩]⟩
  | .ok _ => ⟨none, r.2, [⟨project, r.1⟩]⟩

/-- A GitHub account for the examples: the state is the list of its repositories,
and a name that is there is refused. -/
def demoCreateRepository (_ : String) (repo : RepositoryRequest) (names : List String) :
    Except String Unit × List String :=
  if repo.Name.getD "" ∈ names then
    (.error "422 Repository creation failed: name already exists on this account", names)
  else (.ok (), repo.Name.getD "" :: names)

/-- A GitLab account for the examples, like `demoCreateRepository`. -/
def demoCreateProject (project : CreateProjectOptions) (names : List String) :
    Except String Unit × List String :=
  if project.Name.getD "" ∈ names then
    (.error "400 Bad request: name has already been taken", names)
  else (.ok (), project.Name.getD "" :: names)

/-- An `AuthConfig` of type `password` for the examples. -/
def demoPasswordAuth : AuthConfig :=
  { AuthType := AuthPassword, Token := "", Username := "alice", Password := "hunter2",
    SSHKey := "", Host := "" }

/-- A configuration whose authentication is `demoPasswordAuth`. -/
def demoPasswordConfig : PlatformConfig := { demoConfig "mirror" with Auth := demoPasswordAuth }

/-! ## Listing (`ListRepositories`, `GetCommits`)

A list call returns one page and, in its `Response`, the number of the next page.
The loops `for { ... }` over the pages get fuel: one unit per request. -/

structure Repository (Time : Type) where
  ID : String
  Name : String
  FullName : String
  Description : String
  URL : String
  CloneURL : String
  Private : Bool
  CreatedAt : Time
  UpdatedAt : Time
  Platform : String
  deriving DecidableEq, Repr

/-- The `ListOptions` of the client libraries. -/
structure ListOptions where
  Page : Int
  PerPage : Int
  deriving DecidableEq, Repr

/-- The field of the `Response` of a list call that the loops read. -/
structure Response where
  NextPage : Int
  deriving DecidableEq, Repr

/-- How a method that loops over pages ends: it returns, it dereferences a nil
pointer, or the fuel of the model runs out. -/
inductive Outcome (α : Type) where
  | returned (value : α)
  | panicked
  | outOfFuel
  deriving DecidableEq, Repr

/-- What a list method returns, the slice (`[]` for `nil`) and the `error`, and the
state the provider is left in. -/
structure Listing (α σ : Type) where
  items : List α
  err : Option GoError
  state : σ
  deriving DecidableEq, Repr

/-- The verb `%d` of `fmt.Sprintf` on an integer. -/
def sprintfD (n : Int) : String := toString n

/-- A `github.Repository` as the accessors `GetID`, `GetName`, ... read it. -/
structure GitHubRepository (Time : Type) where
  ID : Int
  Name : String
  FullName : String
  Description : String
  HTMLURL : String
  CloneURL : String
  Private : Bool
  CreatedAt : Time
  UpdatedAt : Time
  deriving DecidableEq, Repr

section Listing
variable {Time σ : Type}

/-- The `Repository` that `GitHubPlatform.ListRepositories` appends for `repo`. -/
def GitHubPlatform.toRepository (repo : GitHubRepository Time) : Repository Time :=
  { ID := sprintfD repo.ID
    Name := repo.Name
    FullName := repo.FullName
    Description := repo.Description
    URL := repo.HTMLURL
    CloneURL := repo.CloneURL
    Private := repo.Private
    CreatedAt := repo.CreatedAt
    UpdatedAt := repo.UpdatedAt
    Platform := "github" }

/-- The loop `for { ... }` of `GitHubPlatform.ListRepositories`, over the call
`g.client.Repositories.List(g.ctx, owner, opt)`, at the page `page` with the
repositories `allRepos` collected so far. -/
def GitHubPlatform.listLoop
    (RepositoriesList : String → ListOptions → σ →
      Except String (List (GitHubRepository Time) × Response) × σ)
    (owner : String) :
    Nat → Int → List (Repository Time) → σ → Outcome (Listing (Repository Time) σ)
  | 0, _, _, _ => .outOfFuel
  | fuel + 1, page, allRepos, s =>
    let r := RepositoriesList owner ⟨page, 100⟩ s
    match r.1 with
    | .error e => .returned ⟨[], some (.wrap "failed to list repositories: " (.client e)), r.2⟩
    | .ok (repos, resp) =>
      let allRepos1 := allRepos ++ repos.map GitHubPlatform.toRepository
      if resp.NextPage = 0 then .returned ⟨allRepos1, none, r.2⟩
      else GitHubPlatform.listLoop RepositoriesList owner fuel resp.NextPage allRepos1 r.2

/-- The method `GitHubPlatform.ListRepositories`. -/
def GitHubPlatform.ListRepositories
    (RepositoriesList : String → ListOptions → σ →
      Except String (List (GitHubRepository Time) × Response) × σ)
    (g : GitHubPlatform) (fuel : Nat) (s : σ) : Outcome (Listing (Repository Time) σ) :=
  GitHubPlatform.listLoop RepositoriesList g.owner fuel 0 [] s

/-- The `Repository` that `GitLabPlatform.ListRepositories` appends for `project`;
`none` when `CreatedAt` or `LastActivityAt` is nil, which the code dereferences. -/
def GitLabPlatform.toRepository? (project : Project Time) : Option (Repository Time) :=
  match project.CreatedAt, project.LastActivityAt with
  | some created, some active =>
    some
      { ID := sprintfD project.ID
        Name := project.Name
        FullName := project.PathWithNamespace
        Description := project.Description
        URL := project.WebURL
        CloneURL := project.HTTPURLToRepo
        Private := decide (project.Visibility ≠ PublicVisibility)
        CreatedAt := created
        UpdatedAt := active
        Platform := "gitlab" }
  | _, _ => none

/-- The loop `for _, project := range projects` of `GitLabPlatform.ListRepositories`. -/
def GitLabPlatform.appendProjects :
    List (Repository Time) → List (Project Time) → Option (List (Repository Time))
  | allRepos, [] => some allRepos
  | allRepos, project :: rest =>
    match GitLabPlatform.toRepository? project with
    | none => none
    | some repo => GitLabPlatform.appendProjects (allRepos ++ [repo]) rest

/-- The loop `for { ... }` of `GitLabPlatform.ListRepositories`, over the call
`g.client.Projects.ListProjects(opt)` with the `Response` it returns. -/
def GitLabPlatform.listLoop
    (ListProjects : ListProjectsOptions → σ →
      Except String (List (Project Time) × Response) × σ) :
    Nat → Int → List (Repository Time) → σ → Outcome (Listing (Repository Time) σ)
  | 0, _, _, _ => .outOfFuel
  | fuel + 1, page, allRepos, s =>
    let r := ListProjects { Page := page, PerPage := 100, Owned := some true, Search := none } s
    match r.1 with
    | .error e => .returned ⟨[], some (.wrap "failed to list projects: " (.client e)), r.2⟩
    | .ok (projects, resp) =>
      match GitLabPlatform.appendProjects allRepos projects with
      | none => .panicked
      | some allRepos1 =>
        if resp.NextPage = 0 then .returned ⟨allRepos1, none, r.2⟩
        else GitLabPlatform.listLoop ListProjects fuel resp.NextPage allRepos1 r.2

/-- The method `GitLabPlatform.ListRepositories`. -/
def GitLabPlatform.ListRepositories
    (ListProjects : ListProjectsOptions → σ →
      Except String (List (Project Time) × Response) × σ)
    (fuel : Nat) (s : σ) : Outcome (Listing (Repository Time) σ) :=
  GitLabPlatform.listLoop ListProjects fuel 0 [] s

/-- The `ListCommitsOptions` of go-gitlab, with the fields the adapter sets. -/
structure ListCommitsOptions (Time : Type) where
  Page : Int
  PerPage : Int
  Since : Option Time

/-- The `Commit` that `GitLabPlatform.GetCommits` appends for `commit`; `none` when
`AuthoredDate` is nil, which the code dereferences. -/
def GitLabPlatform.toCommit? (repo : Repository Time) (commit : GitLabCommit Time) :
    Option (Commit Time) :=
  match commit.AuthoredDate with
  | some date =>
    some
      { SHA := commit.ID
        Message := commit.Message
        Author := { Name := commit.AuthorName, Email := commit.AuthorEmail }
        Committer := { Name := commit.CommitterName, Email := commit.CommitterEmail }
        Date := date
        URL := commit.WebURL
        Repo := repo.FullName
        Platform := "gitlab" }
  | none => none

/-- The loop `for _, commit := range commits` of `GitLabPlatform.GetCommits`. -/
def GitLabPlatform.appendCommits (repo : Repository Time) :
    List (Commit Time) → List (GitLabCommit Time) → Option (List (Commit Time))
  | allCommits, [] => some allCommits
  | allCommits, commit :: rest =>
    match GitLabPlatform.toCommit? repo commit with
    | none => none
    | some c => GitLabPlatform.appendCommits repo (allCommits ++ [c]) rest

/-- The loop `for { ... }` of `GitLabPlatform.GetCommits`, over the call
`g.client.Commits.ListCommits(projectID, opt)`. -/
def GitLabPlatform.commitsLoop
    (ListCommits : String → ListCommitsOptions Time → σ →
      Except String (List (GitLabCommit Time) × Response) × σ)
    (repo : Repository Time) (since : Time) :
    Nat → Int → List (Commit Time) → σ → Outcome (Listing (Commit Time) σ)
  | 0, _, _, _ => .outOfFuel
  | fuel + 1, page, allCommits, s =>
    let r := ListCommits repo.ID { Page := page, PerPage := 100, Since := some since } s
    match r.1 with
    | .error e => .returned ⟨[], some (.wrap "failed to get commits: " (.client e)), r.2⟩
    | .ok (commits, resp) =>
      match GitLabPlatform.appendCommits repo allCommits commits with
      | none => .panicked
      | some allCommits1 =>
        if resp.NextPage = 0 then .returned ⟨allCommits1, none, r.2⟩
        else GitLabPlatform.commitsLoop ListCommits repo since fuel resp.NextPage allCommits1 r.2

/-- The method `GitLabPlatform.GetCommits`.  It reads nothing of the adapter `g` but
its client: the configuration, with `Auth.Username`, is not used. -/
def GitLabPlatform.GetCommits
    (ListCommits : String → ListCommitsOptions Time → σ →
      Except String (List (GitLabCommit Time) × Response) × σ)
    (_ : GitLabPlatform) (repo : Repository Time) (since : Time) (fuel : Nat) (s : σ) :
    Outcome (Listing (Commit Time) σ) :=
  GitLabPlatform.commitsLoop ListCommits repo since fuel 0 [] s

/-- The provider serves, from the page `page` in the state `s`, the finite chain of
pages `pages`: each page names the next one, and the last names the next page 0. -/
inductive servesPages {α : Type} (request : Int → σ → Except String (List α × Response) × σ) :
    Int → σ → List (List α) → σ → Prop where
  | last (page : Int) (s : σ) (items : List α) (s1 : σ) :
      request page s = (.ok (items, ⟨0⟩), s1) → servesPages request page s [items] s1
  | next (page : Int) (s : σ) (items : List α) (next : Int) (s1 : σ) (rest : List (List α))
      (s2 : σ) :
      request page s = (.ok (items, ⟨next⟩), s1) → next ≠ 0 →
      servesPages request next s1 rest s2 → servesPages request page s (items :: rest) s2

/-- The provider serves, from the page `page` in the state `s`, the pages `pages`
and then fails the request for the page after them with the error `e`. -/
inductive failsAfter {α : Type} (request : Int → σ → Except String (List α × Response) × σ) :
    Int → σ → List (List α) → String → σ → Prop where
  | here (page : Int) (s : σ) (e : String) (s1 : σ) :
      request page s = (.error e, s1) → failsAfter request page s [] e s1
  | later (page : Int) (s : σ) (items : List α) (next : Int) (s1 : σ) (rest : List (List α))
      (e : String) (s2 : σ) :
      request page s = (.ok (items, ⟨next⟩), s1) → next ≠ 0 →
      failsAfter request next s1 rest e s2 → failsAfter request page s (items :: rest) e s2

end Listing

/-- A GitHub repository of the examples. -/
def demoRepository (id : Int) (name : String) : GitHubRepository Stamp :=
  { ID := id, Name := name, FullName := "alice/" ++ name, Description := "",
    HTMLURL := "https://github.com/alice/" ++ name,
    CloneURL := "https://github.com/alice/" ++ name ++ ".git", Private := true,
    CreatedAt := ⟨"2023-05-01", "2023-05-01T00:00:00Z"⟩,
    UpdatedAt := ⟨"2024-01-15", "2024-01-15T10:30:00Z"⟩ }

/-- A GitHub account with three repositories on two pages, page 2 after the first
page; the request for the page `failAt` fails.  The state counts the requests. -/
def demoRepositoriesList (failAt : Int) (_ : String) (opt : ListOptions) (n : Nat) :
    Except String (List (GitHubRepository Stamp) × Response) × Nat :=
  if opt.Page = failAt then (.error "502 Bad Gateway", n + 1)
  else if opt.Page = 0 then
    (.ok ([demoRepository 1 "one", demoRepository 2 "two"], ⟨2⟩), n + 1)
  else if opt.Page = 2 then (.ok ([demoRepository 3 "three"], ⟨0⟩), n + 1)
  else (.ok ([], ⟨0⟩), n + 1)

/-- A GitLab project of the examples, with its timestamps. -/
def demoListedProject (id : Int) (name : String) : Project Stamp :=
  { ID := id, Name := name, PathWithNamespace := "alice/" ++ name, Description := "",
    WebURL := "https://gitlab.com/alice/" ++ name,
    HTTPURLToRepo := "https://gitlab.com/alice/" ++ name ++ ".git", Visibility := "private",
    CreatedAt := some ⟨"2023-05-01", "2023-05-01T00:00:00Z"⟩,
    LastActivityAt := some ⟨"2024-01-15", "2024-01-15T10:30:00Z"⟩ }

/-- A GitLab account like `demoRepositoriesList`. -/
def demoListProjects (failAt : Int) (opt : ListProjectsOptions) (n : Nat) :
    Except String (List (Project Stamp) × Response) × Nat :=
  if opt.Page = failAt then (.error "502 Bad Gateway", n + 1)
  else if opt.Page = 0 then
    (.ok ([demoListedProject 1 "one", demoListedProject 2 "two"], ⟨2⟩), n + 1)
  else if opt.Page = 2 then (.ok ([demoListedProject 3 "three"], ⟨0⟩), n + 1)
  else (.ok ([], ⟨0⟩), n + 1)

/-- A GitLab account whose one page lists two projects, the second without
`created_at`.  The state counts the requests. -/
def demoListIncomplete (_ : ListProjectsOptions) (n : Nat) :
    Except String (List (Project Stamp) × Response) × Nat :=
  (.ok ([demoListedProject 1 "one", { demoListedProject 2 "two" with CreatedAt := none }], ⟨0⟩),
    n + 1)

/-- A GitLab project whose one page of commits holds a commit by Alice and a commit
by Bob. -/
def demoListCommits (_ : String) (_ : ListCommitsOptions Stamp) (n : Nat) :
    Except String (List (GitLabCommit Stamp) × Response) × Nat :=
  (.ok ([{ ID := "a1", Message := "fix secret thing", AuthorName := "alice",
           AuthorEmail := "alice@work.example", CommitterName := "alice",
           CommitterEmail := "alice@work.example",
           AuthoredDate := some ⟨"2024-01-15", "2024-01-15T10:30:00Z"⟩, WebURL := "" },
         { ID := "c3", Message := "refactor", AuthorName := "bob",
           AuthorEmail := "bob@work.example", CommitterName := "bob",
           CommitterEmail := "bob@work.example",
           AuthoredDate := some ⟨"2024-01-16", "2024-01-16T09:00:00Z"⟩, WebURL := "" }],
        ⟨0⟩), n + 1)

/-- The repository that the example commits are fetched from. -/
def demoSourceRepository : Repository Stamp :=
  { ID := "42", Name := "secret", FullName := "work/secret", Description := "", URL := "",
    CloneURL := "", Private := true, CreatedAt := ⟨"2023-05-01", "2023-05-01T00:00:00Z"⟩,
    UpdatedAt := ⟨"2024-01-16", "2024-01-16T09:00:00Z"⟩, Platform := "gitlab" }

/-! ## Theorems on `parseDuration` -/

theorem decimalFrom_mono (ds : GoString) : ∀ x, x ≤ decimalFrom x ds := by
  induction ds with
  | nil => intro x; simp [decimalFrom]
  | cons c cs ih =>
    intro x
    have h := ih (x * 10 + (c - 48))
    simp only [decimalFrom, List.foldl_cons] at h ⊢
    omega

theorem leadingIntFrom_digits (ds : GoString) (r : GoString)
    (hr : ∀ c ∈ r.head?, c < 48 ∨ c > 57) :
    ∀ x, allDigits ds → decimalFrom x ds ≤ 2 ^ 63 / 10 →
      leadingIntFrom (ds ++ r) x = some (decimalFrom x ds, r) := by
  induction ds with
  | nil =>
    intro x _ _
    cases r with
    | nil => simp [leadingIntFrom, decimalFrom]
    | cons c cs =>
      have := hr c (by simp)
      simp [leadingIntFrom, decimalFrom, this]
  | cons c cs ih =>
    intro x hd hb
    have hc : 48 ≤ c ∧ c ≤ 57 := hd c (by simp)
    have hcs : allDigits cs := fun a ha => hd a (by simp [ha])
    have hstep : decimalFrom x (c :: cs) = decimalFrom (x * 10 + (c - 48)) cs := by
      simp [decimalFrom]
    have hm := decimalFrom_mono cs (x * 10 + (c - 48))
    rw [hstep] at hb
    have hx : ¬ (x > 2 ^ 63 / 10) := by omega
    have hnd : ¬ (c < 48 ∨ c > 57) := by omega
    have e1 : (x * 10 + c - 48) % 2 ^ 64 = x * 10 + (c - 48) := by omega
    have hx1 : ¬ (x * 10 + (c - 48) > 2 ^ 63) := by omega
    rw [hstep, List.cons_append, leadingIntFrom]
    simp only [hnd, hx, if_false, e1, hx1]
    exact ih _ hcs hb

theorem wrapInt64_of_fits (x : Int) (h0 : 0 ≤ x) (h1 : x ≤ maxInt64) : wrapInt64 x = x := by
  unfold wrapInt64
  unfold maxInt64 at h1
  omega

/-- On decimal digits followed by `h`, `time.ParseDuration` returns that many hours,
as long as they fit in an `int64`. -/
theorem ParseDuration_digits_hours (frac : Nat → Nat → Nat → Nat) (ds : GoString)
    (hne : ds ≠ []) (hd : allDigits ds)
    (hfit : ((decimalValue ds * Hour : Nat) : Int) ≤ maxInt64) :
    ParseDuration frac (ds ++ [104]) = some (.ok ((decimalValue ds * Hour : Nat) : Int)) := by
  have hH : Hour = 3600000000000 := by decide
  have hfit2 : decimalValue ds * 3600000000000 ≤ 2 ^ 63 - 1 := by
    unfold maxInt64 at hfit
    rw [hH] at hfit
    omega
  have hn : decimalValue ds ≤ 2562047 := by omega
  have hli : leadingInt (ds ++ [104]) = some (decimalValue ds, [104]) := by
    unfold leadingInt decimalValue
    apply leadingIntFrom_digits ds [104] (by simp) 0 hd
    unfold decimalValue at hn
    omega
  have hpg : parseGroup frac (ds ++ [104]) = .ok (decimalValue ds * 3600000000000, []) := by
    cases ds with
    | nil => exact absurd rfl hne
    | cons c cs =>
      have hc : 48 ≤ c ∧ c ≤ 57 := hd c (by simp)
      have hv : ¬ (decimalValue (c :: cs) > 2 ^ 63 / 3600000000000) := by omega
      have hmod : (decimalValue (c :: cs) * 3600000000000) % 2 ^ 64
          = decimalValue (c :: cs) * 3600000000000 := by omega
      unfold parseGroup
      rw [hli]
      simp [splitUnit, unitMap, hH, hc, fractionPart]
      rw [if_neg (by omega)]
      rw [Nat.mod_eq_of_lt (by omega)]
  cases ds with
  | nil => exact absurd rfl hne
  | cons c cs =>
    have hc : 48 ≤ c ∧ c ≤ 57 := hd c (by simp)
    have h45b : ¬ (c = 45) := by omega
    have h43 : ¬ (c = 43) := by omega
    have hd1 : ¬ (decimalValue (c :: cs) * 3600000000000 > 2 ^ 63) := by omega
    have hd2 : ¬ (decimalValue (c :: cs) * 3600000000000 > 2 ^ 63 - 1) := by omega
    have hw := wrapInt64_of_fits ((decimalValue (c :: cs) * 3600000000000 : Nat) : Int)
      (Int.ofNat_nonneg _) (by unfold maxInt64; omega)
    rw [List.cons_append] at hpg ⊢
    have hloop : parseLoop frac (cs ++ [104]).length.succ (c :: (cs ++ [104])) 0
        = some (.ok (decimalValue (c :: cs) * 3600000000000)) := by
      rw [parseLoop, hpg]
      simp only [Nat.zero_add]
      rw [Nat.mod_eq_of_lt (by omega), if_neg hd1]
      cases (cs ++ [104]).length <;> rfl
    simp only [ParseDuration, h45b, h43, or_self, if_false, decide_False, List.length_cons, hloop]
    simp [hH]
    rw [if_neg (by omega)]
    push_cast at hw
    rw [hw]

theorem unitSuffixes_eq : unitSuffixes =
    [([104], 1), ([100], 24), ([119], 168), ([109, 111], 720), ([121], 8760)] := by decide

theorem mulDuration_of_fits (a b : Nat) (h : a * b ≤ 2 ^ 63 - 1) :
    mulDuration (a : Int) (b : Int) = ((a * b : Nat) : Int) := by
  unfold mulDuration
  rw [← Nat.cast_mul]
  exact wrapInt64_of_fits _ (Int.ofNat_nonneg _) (by unfold maxInt64; omega)

theorem getLast?_of_drop_two (s : GoString) (a b : Nat)
    (h : s.drop (s.length - 2) = [a, b]) : s.getLast? = some b := by
  have hs := List.take_append_drop (s.length - 2) s
  rw [h] at hs
  rw [← hs, List.getLast?_append_of_ne_nil _ (by simp)]
  rfl

theorem getLast?_of_getElem? (s : GoString) (b : Nat)
    (h : s[s.length - 1]? = some b) : s.getLast? = some b := by
  rw [List.getLast?_eq_getElem?]; exact h

/-- The `y` branch of the switch. -/
theorem parseDuration_y (frac : Nat → Nat → Nat → Nat) (p : GoString) (hp : p ≠ []) :
    parseDuration frac (p ++ [121]) =
      match ParseDuration frac (p ++ [104]) with
      | some (.ok years) => some (.ok (mulDuration (mulDuration years 24) 365))
      | r => r := by
  have hlen : 0 < p.length := List.length_pos.mpr hp
  unfold parseDuration
  rw [if_pos (by simp; omega)]
  simp

/-- The `mo` branch of the switch. -/
theorem parseDuration_mo (frac : Nat → Nat → Nat → Nat) (p : GoString) (hp : p ≠ []) :
    parseDuration frac (p ++ [109, 111]) =
      match ParseDuration frac (p ++ [104]) with
      | some (.ok months) => some (.ok (mulDuration (mulDuration months 24) 30))
      | r => r := by
  have hlen : 0 < p.length := List.length_pos.mpr hp
  unfold parseDuration
  rw [if_neg, if_pos (by simp; omega)]
  · simp
  · rintro ⟨_, h⟩
    have h2 := getLast?_of_getElem? _ _ h
    rw [List.getLast?_append_of_ne_nil _ (by simp)] at h2
    simp at h2

/-- The `d` branch of the switch. -/
theorem parseDuration_d (frac : Nat → Nat → Nat → Nat) (p : GoString) (hp : p ≠ []) :
    parseDuration frac (p ++ [100]) =
      match ParseDuration frac (p ++ [104]) with
      | some (.ok days) => some (.ok (mulDuration days 24))
      | r => r := by
  have hlen : 0 < p.length := List.length_pos.mpr hp
  unfold parseDuration
  rw [if_neg, if_neg, if_pos (by simp; omega)]
  · simp
  · rintro ⟨_, h⟩
    have h2 := getLast?_of_drop_two _ _ _ h
    simp at h2
  · rintro ⟨_, h⟩
    have h2 := getLast?_of_getElem? _ _ h
    simp at h2

/-- The `w` branch of the switch. -/
theorem parseDuration_w (frac : Nat → Nat → Nat → Nat) (p : GoString) (hp : p ≠ []) :
    parseDuration frac (p ++ [119]) =
      match ParseDuration frac (p ++ [104]) with
      | some (.ok weeks) => some (.ok (mulDuration (mulDuration weeks 24) 7))
      | r => r := by
  have hlen : 0 < p.length := List.length_pos.mpr hp
  unfold parseDuration
  rw [if_neg, if_neg, if_neg, if_pos (by simp; omega)]
  · simp
  · rintro ⟨_, h⟩
    have h2 := getLast?_of_getElem? _ _ h
    simp at h2
  · rintro ⟨_, h⟩
    have h2 := getLast?_of_drop_two _ _ _ h
    simp at h2
  · rintro ⟨_, h⟩
    have h2 := getLast?_of_getElem? _ _ h
    simp at h2

/-- The `default` branch of the switch: a string whose last byte is none of `y`,
`o`, `d`, `w` goes to `time.ParseDuration` unchanged. -/
theorem parseDuration_default (frac : Nat → Nat → Nat → Nat) (s : GoString)
    (h : ∀ b, s.getLast? = some b → b ≠ 121 ∧ b ≠ 111 ∧ b ≠ 100 ∧ b ≠ 119) :
    parseDuration frac s = ParseDuration frac s := by
  unfold parseDuration
  rw [if_neg, if_neg, if_neg, if_neg]
  · rintro ⟨_, h1⟩
    exact (h _ (getLast?_of_getElem? _ _ h1)).2.2.2 rfl
  · rintro ⟨_, h1⟩
    exact (h _ (getLast?_of_getElem? _ _ h1)).2.2.1 rfl
  · rintro ⟨_, h1⟩
    exact (h _ (getLast?_of_drop_two _ _ _ h1)).2.1 rfl
  · rintro ⟨_, h1⟩
    exact (h _ (getLast?_of_getElem? _ _ h1)).1 rfl

/-- C1: for every non-empty string of decimal digits `ds` with value `n` and every
documented suffix (`h` = 1 hour, `d` = 24, `w` = 168, `mo` = 720, `y` = 8760
hours), `parseDuration (ds ++ suffix)` returns `n * hours` hours and no error,
whenever that result fits in a signed 64-bit count of nanoseconds. -/
theorem parseDuration_unit_multipliers (frac : Nat → Nat → Nat → Nat) (ds suffix : GoString)
    (hours : Nat) (hs : (suffix, hours) ∈ unitSuffixes) (hne : ds ≠ []) (hd : allDigits ds)
    (hfit : ((decimalValue ds * hours * Hour : Nat) : Int) ≤ maxInt64) :
    parseDuration frac (ds ++ suffix)
      = some (.ok ((decimalValue ds * hours * Hour : Nat) : Int)) := by
  have hH : Hour = 3600000000000 := by decide
  have hbase : decimalValue ds * Hour ≤ 2 ^ 63 - 1 →
      ParseDuration frac (ds ++ [104]) = some (.ok ((decimalValue ds * Hour : Nat) : Int)) := by
    intro h
    exact ParseDuration_digits_hours frac ds hne hd (by unfold maxInt64; omega)
  rw [unitSuffixes_eq] at hs
  simp only [List.mem_cons, Prod.mk.injEq, List.mem_singleton, List.not_mem_nil, or_false] at hs
  unfold maxInt64 at hfit
  generalize decimalValue ds = n at *
  rw [hH] at *
  rcases hs with ⟨rfl, rfl⟩ | ⟨rfl, rfl⟩ | ⟨rfl, rfl⟩ | ⟨rfl, rfl⟩ | ⟨rfl, rfl⟩
  · rw [parseDuration_default frac _ (by simp), hbase (by omega)]
    rw [show n * 1 * 3600000000000 = n * 3600000000000 by omega]
  · rw [parseDuration_d frac _ hne, hbase (by omega)]
    simp only
    rw [show (24 : Int) = ((24 : Nat) : Int) from rfl, mulDuration_of_fits _ _ (by omega)]
    rw [show n * 3600000000000 * 24 = n * 24 * 3600000000000 by omega]
  · rw [parseDuration_w frac _ hne, hbase (by omega)]
    simp only
    rw [show (24 : Int) = ((24 : Nat) : Int) from rfl, mulDuration_of_fits _ _ (by omega)]
    rw [show (7 : Int) = ((7 : Nat) : Int) from rfl, mulDuration_of_fits _ _ (by omega)]
    rw [show n * 3600000000000 * 24 * 7 = n * 168 * 3600000000000 by omega]
  · rw [parseDuration_mo frac _ hne, hbase (by omega)]
    simp only
    rw [show (24 : Int) = ((24 : Nat) : Int) from rfl, mulDuration_of_fits _ _ (by omega)]
    rw [show (30 : Int) = ((30 : Nat) : Int) from rfl, mulDuration_of_fits _ _ (by omega)]
    rw [show n * 3600000000000 * 24 * 30 = n * 720 * 3600000000000 by omega]
  · rw [parseDuration_y frac _ hne, hbase (by omega)]
    simp only
    rw [show (24 : Int) = ((24 : Nat) : Int) from rfl, mulDuration_of_fits _ _ (by omega)]
    rw [show (365 : Int) = ((365 : Nat) : Int) from rfl, mulDuration_of_fits _ _ (by omega)]
    rw [show n * 3600000000000 * 24 * 365 = n * 8760 * 3600000000000 by omega]

/-- Witness of C1: the five documented examples `24h`, `7d`, `1w`, `3mo`, `1y`. -/
theorem parseDuration_unit_multipliers_witness :
    parseDuration (fun _ _ _ => 0) (ascii "24" ++ ascii "h")
        = some (.ok ((decimalValue (ascii "24") * 1 * Hour : Nat) : Int))
    ∧ parseDuration (fun _ _ _ => 0) (ascii "7" ++ ascii "d")
        = some (.ok ((decimalValue (ascii "7") * 24 * Hour : Nat) : Int))
    ∧ parseDuration (fun _ _ _ => 0) (ascii "1" ++ ascii "w")
        = some (.ok ((decimalValue (ascii "1") * 168 * Hour : Nat) : Int))
    ∧ parseDuration (fun _ _ _ => 0) (ascii "3" ++ ascii "mo")
        = some (.ok ((decimalValue (ascii "3") * 720 * Hour : Nat) : Int))
    ∧ parseDuration (fun _ _ _ => 0) (ascii "1" ++ ascii "y")
        = some (.ok ((decimalValue (ascii "1") * 8760 * Hour : Nat) : Int)) :=
  ⟨parseDuration_unit_multipliers _ (ascii "24") (ascii "h") 1 (by decide) (by decide)
      (by decide) (by decide),
   parseDuration_unit_multipliers _ (ascii "7") (ascii "d") 24 (by decide) (by decide)
      (by decide) (by decide),
   parseDuration_unit_multipliers _ (ascii "1") (ascii "w") 168 (by decide) (by decide)
      (by decide) (by decide),
   parseDuration_unit_multipliers _ (ascii "3") (ascii "mo") 720 (by decide) (by decide)
      (by decide) (by decide),
   parseDuration_unit_multipliers _ (ascii "1") (ascii "y") 8760 (by decide) (by decide)
      (by decide) (by decide)⟩

/-! ### Shape of the strings `time.ParseDuration` accepts -/

theorem leadingIntFrom_suffix (s : GoString) :
    ∀ x v r, leadingIntFrom s x = some (v, r) → r <:+ s := by
  induction s with
  | nil =>
    intro x v r h
    simp [leadingIntFrom] at h
    rw [← h.2]
  | cons c cs ih =>
    intro x v r h
    rw [leadingIntFrom] at h
    dsimp only at h
    split_ifs at h
    · simp only [Option.some.injEq, Prod.mk.injEq] at h
      rw [← h.2]
    · exact (ih _ _ _ h).trans (List.suffix_cons c cs)

theorem leadingFractionFrom_suffix (s : GoString) :
    ∀ x scale o, (leadingFractionFrom s x scale o).2.2 <:+ s := by
  induction s with
  | nil => intro x scale o; simp [leadingFractionFrom]
  | cons c cs ih =>
    intro x scale o
    rw [leadingFractionFrom]
    dsimp only
    split_ifs
    · exact List.suffix_refl _
    all_goals exact (ih _ _ _).trans (List.suffix_cons c cs)

theorem fractionPart_suffix (s1 : GoString) : (fractionPart s1).2.2.2 <:+ s1 := by
  unfold fractionPart
  split
  · rename_i s2
    exact (leadingFractionFrom_suffix s2 0 1 false).trans (List.suffix_cons 46 s2)
  · exact List.suffix_refl _

theorem splitUnit_append (s : GoString) : (splitUnit s).1 ++ (splitUnit s).2 = s := by
  induction s with
  | nil => rfl
  | cons c cs ih =>
    rw [splitUnit]
    split_ifs
    · rfl
    · simp [ih]

theorem unitMap_endsInStdUnit (u : GoString) (k : Nat) (h : unitMap u = some k) :
    endsInStdUnit u := by
  unfold unitMap at h
  unfold endsInStdUnit
  split_ifs at h with h1 h2 h3 h4 h5 h6 h7 h8 <;> subst_vars <;> simp

theorem getLast?_of_suffix (r s : GoString) (h : r <:+ s) (hr : r ≠ []) :
    s.getLast? = r.getLast? := by
  obtain ⟨t, rfl⟩ := h
  exact List.getLast?_append_of_ne_nil _ hr

/-- A successful round of the loop has consumed a group that ends in a unit of
`unitMap`, and leaves a proper suffix. -/
theorem parseGroup_ok (frac : Nat → Nat → Nat → Nat) (s : GoString) (v : Nat) (r : GoString)
    (h : parseGroup frac s = .ok (v, r)) :
    ∃ u, endsInStdUnit u ∧ (u ++ r) <:+ s := by
  unfold parseGroup at h
  split_ifs at h with h0
  split at h
  · exact absurd h (by simp)
  · rename_i v0 s1 hli
    have hs1 : s1 <:+ s := leadingIntFrom_suffix s 0 v0 s1 hli
    dsimp only at h
    by_cases h1 : (!decide (s.length ≠ s1.length) && !(fractionPart s1).1) = true
    · rw [if_pos h1] at h
      exact absurd h (by simp)
    rw [if_neg h1] at h
    by_cases h2 : (splitUnit (fractionPart s1).2.2.2).1.length = 0
    · rw [if_pos h2] at h
      exact absurd h (by simp)
    rw [if_neg h2] at h
    cases hu : unitMap (splitUnit (fractionPart s1).2.2.2).1 with
    | none =>
      rw [hu] at h
      exact absurd h (by simp)
    | some unit =>
      rw [hu] at h
      dsimp only at h
      have hend := unitMap_endsInStdUnit _ _ hu
      have hr : r = (splitUnit (fractionPart s1).2.2.2).2 := by
        split_ifs at h
        all_goals (simp only [Except.ok.injEq, Prod.mk.injEq] at h; exact h.2.symm)
      refine ⟨_, hend, ?_⟩
      rw [hr, splitUnit_append]
      exact (fractionPart_suffix s1).trans hs1

theorem endsInStdUnit_ne_nil (u : GoString) (h : endsInStdUnit u) : u ≠ [] := by
  rintro rfl
  simp [endsInStdUnit] at h

/-- The loop never runs out of fuel when started with the length of the string. -/
theorem parseLoop_total (frac : Nat → Nat → Nat → Nat) :
    ∀ fuel s d, s.length ≤ fuel → parseLoop frac fuel s d ≠ none := by
  intro fuel
  induction fuel with
  | zero =>
    intro s d hs
    cases s with
    | nil => simp [parseLoop]
    | cons c cs => simp at hs
  | succ n ih =>
    intro s d hs
    cases s with
    | nil => simp [parseLoop]
    | cons c cs =>
      rw [parseLoop]
      split
      · simp
      · rename_i v s5 hg
        obtain ⟨u, hu, hsuf⟩ := parseGroup_ok frac _ _ _ hg
        have hlen := hsuf.length_le
        have hupos : 0 < u.length := List.length_pos.mpr (endsInStdUnit_ne_nil u hu)
        simp only [List.length_append, List.length_cons] at hlen hs
        dsimp only
        split_ifs
        · simp
        · exact ih _ _ (by omega)

/-- A non-empty string on which the loop succeeds ends in `s`, `m` or `h`. -/
theorem parseLoop_ok_endsInStdUnit (frac : Nat → Nat → Nat → Nat) :
    ∀ fuel s d r, s ≠ [] → parseLoop frac fuel s d = some (.ok r) → endsInStdUnit s := by
  intro fuel
  induction fuel with
  | zero =>
    intro s d r hs h
    cases s with
    | nil => exact absurd rfl hs
    | cons c cs => simp [parseLoop] at h
  | succ n ih =>
    intro s d r hs h
    cases s with
    | nil => exact absurd rfl hs
    | cons c cs =>
      rw [parseLoop] at h
      split at h
      · simp at h
      · rename_i v s5 hg
        obtain ⟨u, hu, hsuf⟩ := parseGroup_ok frac _ _ _ hg
        have hune := endsInStdUnit_ne_nil u hu
        dsimp only at h
        split_ifs at h
        · exact absurd h (by simp)
        by_cases hs5 : s5 = []
        · subst hs5
          rw [List.append_nil] at hsuf
          unfold endsInStdUnit at hu ⊢
          rw [getLast?_of_suffix _ _ hsuf hune]
          exact hu
        · have h5 := ih s5 _ r hs5 h
          unfold endsInStdUnit at h5 ⊢
          rw [getLast?_of_suffix _ _ ((List.suffix_append u s5).trans hsuf) hs5]
          exact h5

/-- The string left once `ParseDuration` has consumed the sign `[-+]?`. -/
theorem ParseDuration_unfold (frac : Nat → Nat → Nat → Nat) (s : GoString) :
    ∃ (neg : Bool) (s1 : GoString), s1 <:+ s ∧ (s1 = [] → s = [] ∨ s = [45] ∨ s = [43]) ∧
      ParseDuration frac s =
        if s1 = [48] then some (.ok 0)
        else if s1 = [] then some (.error .invalidDuration)
        else
          match parseLoop frac s1.length s1 0 with
          | none => none
          | some (.error e) => some (.error e)
          | some (.ok d) =>
            if neg then some (.ok (wrapInt64 (- wrapInt64 d)))
            else if d > 2 ^ 63 - 1 then some (.error .invalidDuration)
            else some (.ok (wrapInt64 d)) := by
  cases s with
  | nil => exact ⟨false, [], List.suffix_refl _, fun _ => Or.inl rfl, rfl⟩
  | cons c cs =>
    by_cases hc : c = 45 ∨ c = 43
    · refine ⟨decide (c = 45), cs, List.suffix_cons c cs, ?_, ?_⟩
      · rintro rfl
        rcases hc with rfl | rfl <;> simp
      · simp only [ParseDuration, if_pos hc]
    · refine ⟨decide (c = 45), c :: cs, List.suffix_refl _, ?_, ?_⟩
      · intro h; exact absurd h (by simp)
      · simp only [ParseDuration, if_neg hc]

/-- Totality of `time.ParseDuration`: the fuel it gives its loop is enough, so it
always returns a duration or an error. -/
theorem ParseDuration_total (frac : Nat → Nat → Nat → Nat) (s : GoString) :
    isOk (ParseDuration frac s) ∨ isError (ParseDuration frac s) := by
  obtain ⟨neg, s1, _, _, h⟩ := ParseDuration_unfold frac s
  rw [h]
  by_cases h48 : s1 = [48]
  · rw [if_pos h48]; exact Or.inl trivial
  rw [if_neg h48]
  by_cases hnil : s1 = []
  · rw [if_pos hnil]; exact Or.inr trivial
  rw [if_neg hnil]
  have ht := parseLoop_total frac s1.length s1 0 (Nat.le_refl _)
  cases hl : parseLoop frac s1.length s1 0 with
  | none => exact absurd hl ht
  | some r =>
    cases r with
    | error e => exact Or.inr trivial
    | ok d =>
      dsimp only
      split_ifs
      · exact Or.inl trivial
      · exact Or.inr trivial
      · exact Or.inl trivial

/-- Every string that `time.ParseDuration` accepts ends in `0`, `s`, `m` or `h`. -/
theorem ParseDuration_ok_last (frac : Nat → Nat → Nat → Nat) (s : GoString) (d : Int)
    (h : ParseDuration frac s = some (.ok d)) :
    s.getLast? = some 48 ∨ endsInStdUnit s := by
  obtain ⟨neg, s1, hsuf, _, hP⟩ := ParseDuration_unfold frac s
  rw [hP] at h
  by_cases h48 : s1 = [48]
  · left
    rw [getLast?_of_suffix _ _ hsuf (by rw [h48]; simp), h48]
    rfl
  rw [if_neg h48] at h
  by_cases hnil : s1 = []
  · rw [if_pos hnil] at h
    exact absurd h (by simp)
  rw [if_neg hnil] at h
  right
  cases hl : parseLoop frac s1.length s1 0 with
  | none => rw [hl] at h; exact absurd h (by simp)
  | some r =>
    cases r with
    | error e => rw [hl] at h; exact absurd h (by simp)
    | ok d0 =>
      have := parseLoop_ok_endsInStdUnit frac _ _ _ _ hnil hl
      unfold endsInStdUnit at this ⊢
      rw [getLast?_of_suffix _ _ hsuf hnil]
      exact this

/-- C3: for every string `s` that `time.ParseDuration` accepts with duration `d`,
`parseDuration s` returns the same `d` with no error: none of the `y`, `mo`, `d`,
`w` branches captures a standard duration string. -/
theorem parseDuration_refines_ParseDuration (frac : Nat → Nat → Nat → Nat) (s : GoString)
    (d : Int) (h : ParseDuration frac s = some (.ok d)) :
    parseDuration frac s = some (.ok d) := by
  rw [parseDuration_default frac s, h]
  intro b hb
  rcases ParseDuration_ok_last frac s d h with h0 | h1 | h1 | h1 <;>
    · rw [hb] at *
      simp only [Option.some.injEq] at *
      omega

/-- Witness of C3: the standard duration string `1h30m`. -/
theorem parseDuration_refines_ParseDuration_witness :
    ParseDuration (fun _ _ _ => 0) (ascii "1h30m") = some (.ok (90 * Minute))
    ∧ parseDuration (fun _ _ _ => 0) (ascii "1h30m") = some (.ok (90 * Minute)) :=
  ⟨by decide, parseDuration_refines_ParseDuration _ (ascii "1h30m") (90 * Minute) (by decide)⟩

/-! ### Rejection of malformed strings -/

theorem take_append_of_getElem? (s : GoString) (b : Nat) (h : s[s.length - 1]? = some b) :
    s.take (s.length - 1) ++ [b] = s := by
  rw [← List.dropLast_eq_take]
  exact List.dropLast_append_getLast? b (by rw [List.getLast?_eq_getElem?]; exact h)

theorem isError_of_not_isOk (frac : Nat → Nat → Nat → Nat) (t : GoString)
    (h : ¬ isOk (ParseDuration frac t)) (f : Int → Int) :
    isError (match ParseDuration frac t with
      | some (.ok x) => some (.ok (f x))
      | r => r) := by
  rcases ParseDuration_total frac t with h1 | h1
  · exact absurd h1 h
  · cases hr : ParseDuration frac t with
    | none => rw [hr] at h1; exact h1.elim
    | some r =>
      cases r with
      | ok d => rw [hr] at h1; exact h1.elim
      | error e => trivial

/-- C2, as the code has it: `parseDuration` returns an error and no duration for
every string `s` such that `time.ParseDuration` accepts neither `s` nor a string
obtained from `s` by replacing a final `y`, `mo`, `d` or `w` by `h`. -/
theorem parseDuration_rejects (frac : Nat → Nat → Nat → Nat) (s : GoString)
    (h : ∀ t ∈ s :: hourRewrites s, ¬ isOk (ParseDuration frac t)) :
    isError (parseDuration frac s) := by
  have hs : ¬ isOk (ParseDuration frac s) := h s (by simp)
  unfold parseDuration
  split_ifs with hy hmo hd hw
  · refine isError_of_not_isOk frac _ (h _ ?_) (fun x => mulDuration (mulDuration x 24) 365)
    have hsuf : [121] <:+ s := ⟨_, take_append_of_getElem? s 121 hy.2⟩
    simp [hourRewrites, hsuf, hy.1]
  · refine isError_of_not_isOk frac _ (h _ ?_) (fun x => mulDuration (mulDuration x 24) 30)
    have hsuf : [109, 111] <:+ s := ⟨s.take (s.length - 2), by
      rw [← hmo.2]; exact List.take_append_drop _ _⟩
    simp [hourRewrites, hsuf, hmo.1]
  · refine isError_of_not_isOk frac _ (h _ ?_) (fun x => mulDuration x 24)
    have hsuf : [100] <:+ s := ⟨_, take_append_of_getElem? s 100 hd.2⟩
    simp [hourRewrites, hsuf, hd.1]
  · refine isError_of_not_isOk frac _ (h _ ?_) (fun x => mulDuration (mulDuration x 24) 7)
    have hsuf : [119] <:+ s := ⟨_, take_append_of_getElem? s 119 hw.2⟩
    simp [hourRewrites, hsuf, hw.1]
  · rcases ParseDuration_total frac s with h1 | h1
    · exact absurd h1 hs
    · exact h1

/-- Witness of C2 as amended: `bogus`, and with it the empty string, `d` and `mo`. -/
theorem parseDuration_rejects_witness :
    isError (parseDuration (fun _ _ _ => 0) (ascii "bogus"))
    ∧ isError (parseDuration (fun _ _ _ => 0) (ascii ""))
    ∧ isError (parseDuration (fun _ _ _ => 0) (ascii "d"))
    ∧ isError (parseDuration (fun _ _ _ => 0) (ascii "mo")) :=
  ⟨parseDuration_rejects _ (ascii "bogus") (by decide),
   parseDuration_rejects _ (ascii "") (by decide),
   parseDuration_rejects _ (ascii "d") (by decide),
   parseDuration_rejects _ (ascii "mo") (by decide)⟩

/-- C2 as stated fails: `1h2d` is neither of the form `<n><unit>` with `n` a single
number nor a standard duration string, and `parseDuration` accepts it, as 72
hours. -/
theorem parseDuration_accepts_malformed :
    ¬ ∀ (frac : Nat → Nat → Nat → Nat) (s : GoString),
        ¬ unitForm s → ¬ isOk (ParseDuration frac s) → isError (parseDuration frac s) := by
  intro h
  exact absurd (h (fun _ _ _ => 0) (ascii "1h2d") (by decide) (by decide)) (by decide)

/-! ### Overflow of the multiplication -/

/-- C20, the code at `300y`: `time.ParseDuration` returns 300 hours, and the `int64`
product `years * 24 * 365` wraps around, so `parseDuration` returns the negative
duration -8985944073709551616 ns and no error, where the exact product is
9460800000000000000 ns. -/
theorem parseDuration_300y_is_negative (frac : Nat → Nat → Nat → Nat) :
    parseDuration frac (ascii "300y") = some (.ok (-8985944073709551616))
    ∧ ((decimalValue (ascii "300") * 8760 * Hour : Nat) : Int) = 9460800000000000000 := by
  constructor
  · have h300 : ascii "300y" = ascii "300" ++ [121] := by decide
    rw [h300, parseDuration_y frac _ (by decide),
      ParseDuration_digits_hours frac (ascii "300") (by decide) (by decide) (by decide)]
    decide
  · decide

/-! ## Theorems on `MirrorCommits` -/

section Mirror
variable {Time σ : Type}

theorem github_commitOnTip_of_ok (api : GitHubAPI Time σ) (fmt : TimeFormat Time)
    (g : GitHubPlatform) (owner repoName : String) (commit : Commit Time) (ref : Reference)
    (s : σ)
    (herr : (GitHubPlatform.commitOnTip api fmt g owner repoName commit ref s).err = none) :
    ∃ object sha name tree created updated,
      ref.Object = some object ∧ object.SHA = some sha ∧ ref.Ref = some name ∧
      (GitHubPlatform.commitOnTip api fmt g owner repoName commit ref s).calls =
        [.GetTree owner repoName (GitObject.GetSHA ref.Object) false (.ok tree),
         .CreateCommit owner repoName (GitHubPlatform.newCommit fmt g commit ref tree)
           (.ok created),
         .UpdateRef owner repoName
           { ref with Object := some { object with SHA := created.SHA } } false
           (.ok updated)] := by
  unfold GitHubPlatform.commitOnTip at herr ⊢
  dsimp only at herr ⊢
  cases h2 : (api.GetTree owner repoName (GitObject.GetSHA ref.Object) false s).1 with
  | error e => simp [h2] at herr
  | ok baseTree =>
    simp only [h2] at herr ⊢
    cases ho : ref.Object with
    | none => simp [ho] at herr
    | some object =>
      simp only [ho] at herr ⊢
      cases hs : object.SHA with
      | none => simp [hs] at herr
      | some sha =>
        simp only [hs] at herr ⊢
        cases h3 : (api.CreateCommit owner repoName
            (GitHubPlatform.newCommit fmt g commit ref baseTree)
            (api.GetTree owner repoName (GitObject.GetSHA (some object)) false s).2).1 with
        | error e => simp [h3] at herr
        | ok created =>
          simp only [h3] at herr ⊢
          cases hn : ref.Ref with
          | none => simp [hn] at herr
          | some name =>
            simp only [hn] at herr ⊢
            split at herr
            · simp at herr
            · rename_i updated h4
              exact ⟨object, sha, name, baseTree, created, updated, rfl, hs, rfl, by simp [h4]⟩


theorem github_mirrorCommit_of_ok (api : GitHubAPI Time σ) (fmt : TimeFormat Time)
    (g : GitHubPlatform) (owner repoName : String) (commit : Commit Time) (s : σ)
    (herr : (GitHubPlatform.mirrorCommit api fmt g owner repoName commit s).err = none) :
    ∃ r : Round Time,
      (GitHubPlatform.mirrorCommit api fmt g owner repoName commit s).calls
        = r.calls fmt g owner repoName commit ∧
      (∃ sha, r.ref.Object.bind (·.SHA) = some sha) ∧ (∃ name, r.ref.Ref = some name) ∧
      (r.mainError = none ↔ ∃ ref, (api.GetRef owner repoName "refs/heads/main" s).1 = .ok ref) := by
  cases h1 : (api.GetRef owner repoName "refs/heads/main" s).1 with
  | ok ref =>
    have hg : GitHubPlatform.getHead api owner repoName s =
        (.ok ref, (api.GetRef owner repoName "refs/heads/main" s).2,
          [.GetRef owner repoName "refs/heads/main" (.ok ref)]) := by
      unfold GitHubPlatform.getHead
      simp [h1]
    unfold GitHubPlatform.mirrorCommit at herr ⊢
    rw [hg] at herr ⊢
    dsimp only at herr ⊢
    obtain ⟨object, sha, name, tree, created, updated, ho, hs, hn, hcalls⟩ :=
      github_commitOnTip_of_ok api fmt g owner repoName commit ref _ herr
    refine ⟨⟨none, ref, tree, created, updated⟩, ?_, ⟨sha, by simp [ho, hs]⟩, ⟨name, hn⟩, by simp⟩
    rw [hcalls]
    simp [Round.calls, Round.lookups, GitHubPlatform.newCommit, mirrorMessage, ho]
  | error e =>
    cases h2 : (api.GetRef owner repoName "refs/heads/master"
        (api.GetRef owner repoName "refs/heads/main" s).2).1 with
    | error e2 =>
      have hg : GitHubPlatform.getHead api owner repoName s =
          (.error e2, (api.GetRef owner repoName "refs/heads/master"
              (api.GetRef owner repoName "refs/heads/main" s).2).2,
            [.GetRef owner repoName "refs/heads/main" (.error e),
             .GetRef owner repoName "refs/heads/master" (.error e2)]) := by
        unfold GitHubPlatform.getHead
        simp [h1, h2]
      unfold GitHubPlatform.mirrorCommit at herr
      rw [hg] at herr
      simp at herr
    | ok ref =>
      have hg : GitHubPlatform.getHead api owner repoName s =
          (.ok ref, (api.GetRef owner repoName "refs/heads/master"
              (api.GetRef owner repoName "refs/heads/main" s).2).2,
            [.GetRef owner repoName "refs/heads/main" (.error e),
             .GetRef owner repoName "refs/heads/master" (.ok ref)]) := by
        unfold GitHubPlatform.getHead
        simp [h1, h2]
      unfold GitHubPlatform.mirrorCommit at herr ⊢
      rw [hg] at herr ⊢
      dsimp only at herr ⊢
      obtain ⟨object, sha, name, tree, created, updated, ho, hs, hn, hcalls⟩ :=
        github_commitOnTip_of_ok api fmt g owner repoName commit ref _ herr
      refine ⟨⟨some e, ref, tree, created, updated⟩, ?_, ⟨sha, by simp [ho, hs]⟩, ⟨name, hn⟩,
        by simp⟩
      rw [hcalls]
      simp [Round.calls, Round.lookups, GitHubPlatform.newCommit, mirrorMessage, ho]

/-! ### What the requests depend on -/

theorem github_getHead_filterMap {β : Type} (f : GitHubCall Time → Option β)
    (hf : ∀ owner repo ref res, f (.GetRef owner repo ref res) = none)
    (api : GitHubAPI Time σ) (owner repoName : String) (s : σ) :
    (GitHubPlatform.getHead api owner repoName s).2.2.filterMap f = [] := by
  unfold GitHubPlatform.getHead
  dsimp only
  split <;> simp [hf]

theorem github_commitOnTip_createRequests (api : GitHubAPI Time σ)
    (fmt : TimeFormat Time) (g : GitHubPlatform) (owner repoName : String)
    (commit : Commit Time) (ref : Reference) (s : σ) :
    ∀ r ∈ createRequests (GitHubPlatform.commitOnTip api fmt g owner repoName commit ref s).calls,
      ∃ tree, r = GitHubPlatform.newCommit fmt g commit ref tree := by
  unfold GitHubPlatform.commitOnTip createRequests
  dsimp only
  repeat' split
  all_goals simp [GitHubCall.createRequest]

theorem github_mirrorCommit_createRequests (api : GitHubAPI Time σ)
    (fmt : TimeFormat Time) (g : GitHubPlatform) (owner repoName : String)
    (commit : Commit Time) (s : σ) :
    ∀ r ∈ createRequests (GitHubPlatform.mirrorCommit api fmt g owner repoName commit s).calls,
      ∃ ref tree, r = GitHubPlatform.newCommit fmt g commit ref tree := by
  intro r hr
  have hhead := github_getHead_filterMap GitHubCall.createRequest
    (fun _ _ _ _ => rfl) api owner repoName s
  unfold GitHubPlatform.mirrorCommit at hr
  split at hr
  · rename_i heq
    rw [heq] at hhead
    rw [createRequests] at hr
    dsimp only at hr hhead
    rw [hhead] at hr
    exact absurd hr (by simp)
  · rename_i ref s1 c1 heq
    rw [heq] at hhead
    dsimp only at hr hhead
    rw [createRequests, List.filterMap_append, hhead, List.nil_append] at hr
    obtain ⟨tree, ht⟩ := github_commitOnTip_createRequests api fmt g owner repoName
      commit ref s1 r hr
    exact ⟨ref, tree, ht⟩

theorem github_mirrorLoop_createRequests (api : GitHubAPI Time σ)
    (fmt : TimeFormat Time) (g : GitHubPlatform) (owner repoName : String)
    (commits : List (Commit Time)) :
    ∀ s, ∀ r ∈ createRequests (GitHubPlatform.mirrorLoop api fmt g owner repoName commits s).calls,
      ∃ commit ∈ commits, ∃ ref tree, r = GitHubPlatform.newCommit fmt g commit ref tree := by
  induction commits with
  | nil => intro s r hr; simp [GitHubPlatform.mirrorLoop, createRequests] at hr
  | cons commit rest ih =>
    intro s r hr
    rw [GitHubPlatform.mirrorLoop] at hr
    dsimp only at hr
    split at hr
    · obtain ⟨ref, tree, h⟩ := github_mirrorCommit_createRequests api fmt g owner
        repoName commit s r hr
      exact ⟨commit, by simp, ref, tree, h⟩
    · dsimp only at hr
      rw [createRequests, List.filterMap_append, List.mem_append] at hr
      rcases hr with hr | hr
      · obtain ⟨ref, tree, h⟩ := github_mirrorCommit_createRequests api fmt g owner
          repoName commit s r hr
        exact ⟨commit, by simp, ref, tree, h⟩
      · obtain ⟨c, hc, ref, tree, h⟩ := ih _ r hr
        exact ⟨c, by simp [hc], ref, tree, h⟩

theorem github_mirrorCommit_congr (api : GitHubAPI Time σ) (fmt : TimeFormat Time)
    (g : GitHubPlatform) (owner repoName : String) (c1 c2 : Commit Time)
    (h : c1.Date = c2.Date) (s : σ) :
    GitHubPlatform.mirrorCommit api fmt g owner repoName c1 s
      = GitHubPlatform.mirrorCommit api fmt g owner repoName c2 s := by
  have hn : GitHubPlatform.newCommit fmt g c1 = GitHubPlatform.newCommit fmt g c2 := by
    funext ref tree
    simp [GitHubPlatform.newCommit, h]
  unfold GitHubPlatform.mirrorCommit GitHubPlatform.commitOnTip
  simp only [hn]

theorem github_mirrorLoop_congr (api : GitHubAPI Time σ) (fmt : TimeFormat Time)
    (g : GitHubPlatform) (owner repoName : String) (cs1 : List (Commit Time)) :
    ∀ (cs2 : List (Commit Time)), cs1.map (·.Date) = cs2.map (·.Date) → ∀ s,
      GitHubPlatform.mirrorLoop api fmt g owner repoName cs1 s
        = GitHubPlatform.mirrorLoop api fmt g owner repoName cs2 s := by
  induction cs1 with
  | nil =>
    intro cs2 h s
    cases cs2 with
    | nil => rfl
    | cons c cs => simp at h
  | cons c1 rest1 ih =>
    intro cs2 h s
    cases cs2 with
    | nil => simp at h
    | cons c2 rest2 =>
      simp only [List.map_cons, List.cons.injEq] at h
      rw [GitHubPlatform.mirrorLoop, GitHubPlatform.mirrorLoop,
        github_mirrorCommit_congr api fmt g owner repoName c1 c2 h.1]
      dsimp only
      split
      · rfl
      · rw [ih rest2 h.2]

theorem gitlab_mirrorCommit_createOpts (api : GitLabAPI Time σ) (fmt : TimeFormat Time)
    (g : GitLabPlatform) (projectID : Int) (commit : Commit Time) (s : σ) :
    ∀ opt ∈ createOpts (GitLabPlatform.mirrorCommit api fmt g projectID commit s).calls,
      opt = GitLabPlatform.createCommitOpt fmt g commit ∨
      opt = { GitLabPlatform.createCommitOpt fmt g commit with Branch := some "master" } := by
  unfold GitLabPlatform.mirrorCommit createOpts
  dsimp only
  split
  · simp [GitLabCall.createRequest]
  · split <;> simp [GitLabCall.createRequest]

theorem gitlab_mirrorLoop_createOpts (api : GitLabAPI Time σ) (fmt : TimeFormat Time)
    (g : GitLabPlatform) (projectID : Int) (commits : List (Commit Time)) :
    ∀ s, ∀ opt ∈ createOpts (GitLabPlatform.mirrorLoop api fmt g projectID commits s).calls,
      ∃ commit ∈ commits, opt = GitLabPlatform.createCommitOpt fmt g commit ∨
        opt = { GitLabPlatform.createCommitOpt fmt g commit with Branch := some "master" } := by
  induction commits with
  | nil => intro s r hr; simp [GitLabPlatform.mirrorLoop, createOpts] at hr
  | cons commit rest ih =>
    intro s r hr
    rw [GitLabPlatform.mirrorLoop] at hr
    dsimp only at hr
    split at hr
    · exact ⟨commit, by simp,
        gitlab_mirrorCommit_createOpts api fmt g projectID commit s r hr⟩
    · dsimp only at hr
      rw [createOpts, List.filterMap_append, List.mem_append] at hr
      rcases hr with hr | hr
      · exact ⟨commit, by simp,
          gitlab_mirrorCommit_createOpts api fmt g projectID commit s r hr⟩
      · obtain ⟨c, hc, h⟩ := ih _ r hr
        exact ⟨c, by simp [hc], h⟩

theorem gitlab_mirrorCommit_congr (api : GitLabAPI Time σ) (fmt : TimeFormat Time)
    (g : GitLabPlatform) (projectID : Int) (c1 c2 : Commit Time)
    (h : c1.Date = c2.Date) (s : σ) :
    GitLabPlatform.mirrorCommit api fmt g projectID c1 s
      = GitLabPlatform.mirrorCommit api fmt g projectID c2 s := by
  have hn : GitLabPlatform.createCommitOpt fmt g c1 = GitLabPlatform.createCommitOpt fmt g c2 := by
    simp [GitLabPlatform.createCommitOpt, h]
  unfold GitLabPlatform.mirrorCommit
  simp only [hn]

theorem gitlab_mirrorLoop_congr (api : GitLabAPI Time σ) (fmt : TimeFormat Time)
    (g : GitLabPlatform) (projectID : Int) (cs1 : List (Commit Time)) :
    ∀ (cs2 : List (Commit Time)), cs1.map (·.Date) = cs2.map (·.Date) → ∀ s,
      GitLabPlatform.mirrorLoop api fmt g projectID cs1 s
        = GitLabPlatform.mirrorLoop api fmt g projectID cs2 s := by
  induction cs1 with
  | nil =>
    intro cs2 h s
    cases cs2 with
    | nil => rfl
    | cons c cs => simp at h
  | cons c1 rest1 ih =>
    intro cs2 h s
    cases cs2 with
    | nil => simp at h
    | cons c2 rest2 =>
      simp only [List.map_cons, List.cons.injEq] at h
      rw [GitLabPlatform.mirrorLoop, GitLabPlatform.mirrorLoop,
        gitlab_mirrorCommit_congr api fmt g projectID c1 c2 h.1]
      dsimp only
      split
      · rfl
      · rw [ih rest2 h.2]

/-- C6: privacy as non-interference, for both adapters.  Two commit lists that
agree position by position on `Date` give, on the same configuration and the same
provider, the same run of `MirrorCommits`: the same requests in the same order
with the same responses, the same result and the same final state.  And the
message of every create-commit request is `Development work - ` followed by the
date of an input commit in the layout `2006-01-02`. -/
theorem mirror_noninterference {τ : Type} (apiH : GitHubAPI Time σ) (apiL : GitLabAPI Time τ)
    (fmt : TimeFormat Time) (gh : GitHubPlatform) (gl : GitLabPlatform)
    (cs1 cs2 : List (Commit Time)) (s : σ) (t : τ)
    (h : cs1.map (·.Date) = cs2.map (·.Date)) :
    gh.MirrorCommits apiH fmt cs1 s = gh.MirrorCommits apiH fmt cs2 s
    ∧ gl.MirrorCommits apiL fmt cs1 t = gl.MirrorCommits apiL fmt cs2 t
    ∧ (∀ r ∈ createRequests (gh.MirrorCommits apiH fmt cs1 s).calls,
        ∃ c ∈ cs1, r.Message = some (mirrorMessage fmt c))
    ∧ (∀ opt ∈ createOpts (gl.MirrorCommits apiL fmt cs1 t).calls,
        ∃ c ∈ cs1, opt.CommitMessage = some (mirrorMessage fmt c)) := by
  have hlen : cs1.length = cs2.length := by
    have := congrArg List.length h
    simpa using this
  refine ⟨?_, ?_, ?_, ?_⟩
  · unfold GitHubPlatform.MirrorCommits
    rw [hlen, github_mirrorLoop_congr apiH fmt gh _ _ cs1 cs2 h]
  · unfold GitLabPlatform.MirrorCommits
    rw [hlen]
    dsimp only
    split_ifs
    · rfl
    · split
      · rfl
      · rfl
      · rw [gitlab_mirrorLoop_congr apiL fmt gl _ cs1 cs2 h]
  · intro r hr
    unfold GitHubPlatform.MirrorCommits at hr
    split_ifs at hr
    · simp [createRequests] at hr
    · obtain ⟨c, hc, ref, tree, rfl⟩ :=
        github_mirrorLoop_createRequests apiH fmt gh _ _ cs1 s r hr
      exact ⟨c, hc, rfl⟩
  · intro opt hopt
    unfold GitLabPlatform.MirrorCommits at hopt
    dsimp only at hopt
    split_ifs at hopt
    · simp [createOpts] at hopt
    · split at hopt
      · simp [createOpts, GitLabCall.createRequest] at hopt
      · simp [createOpts, GitLabCall.createRequest] at hopt
      · rename_i project _ _
        rw [createOpts, List.filterMap_append] at hopt
        simp only [List.filterMap_cons, GitLabCall.createRequest, List.filterMap_nil,
          List.nil_append] at hopt
        obtain ⟨c, hc, rfl | rfl⟩ :=
          gitlab_mirrorLoop_createOpts apiL fmt gl _ cs1 _ opt hopt
        · exact ⟨c, hc, rfl⟩
        · exact ⟨c, hc, rfl⟩

/-- Witness of C6: the two example lists differ in everything but the dates. -/
theorem mirror_noninterference_witness :
    demoCommits.map (·.Date) = demoCommitsOther.map (·.Date)
    ∧ demoCommits.map (·.Message) ≠ demoCommitsOther.map (·.Message)
    ∧ demoGitHubPlatform.MirrorCommits (demoGitHub ["refs/heads/main"]) stampFormat
        demoCommits "tip"
      = demoGitHubPlatform.MirrorCommits (demoGitHub ["refs/heads/main"]) stampFormat
        demoCommitsOther "tip"
    ∧ demoGitLabPlatform.MirrorCommits (demoGitLab [demoProject] ["main"]) stampFormat
        demoCommits 0
      = demoGitLabPlatform.MirrorCommits (demoGitLab [demoProject] ["main"]) stampFormat
        demoCommitsOther 0 :=
  ⟨by decide, by decide,
   (mirror_noninterference (demoGitHub ["refs/heads/main"]) (demoGitLab [demoProject] ["main"])
      stampFormat demoGitHubPlatform demoGitLabPlatform demoCommits demoCommitsOther "tip" 0
      (by decide)).1,
   (mirror_noninterference (demoGitHub ["refs/heads/main"]) (demoGitLab [demoProject] ["main"])
      stampFormat demoGitHubPlatform demoGitLabPlatform demoCommits demoCommitsOther "tip" 0
      (by decide)).2.1⟩

/-- C5, the code at one commit dated 2024-01-15T10:30:00Z: the single create-commit
request of `GitLabPlatform.MirrorCommits`.  The date is text in the message and in
the content of `.activity`; no field of the request dates the new commit. -/
theorem gitlab_create_request_has_no_timestamp :
    createOpts (demoGitLabPlatform.MirrorCommits (demoGitLab [demoProject] ["main"]) stampFormat
      [demoCommit "a1" "fix secret thing" "2024-01-15" "2024-01-15T10:30:00Z"] 0).calls
    = [{ Branch := some "main"
         CommitMessage := some "Development work - 2024-01-15"
         StartBranch := none
         StartSHA := none
         StartProject := none
         Actions := [{ Action := some "update"
                       FilePath := some ".activity"
                       PreviousPath := none
                       Content := some "Activity recorded: 2024-01-15T10:30:00Z"
                       Encoding := none
                       LastCommitID := none
                       ExecuteFilemode := none }]
         AuthorEmail := some "alice@users.noreply.gitlab.com"
         AuthorName := some "alice"
         Stats := none
         Force := none }] := by
  decide

/-- C8: on the empty commit list `MirrorCommits` returns no error, issues no
provider call and leaves the provider as it is, for both adapters, every
configuration and every provider. -/
theorem mirror_empty_is_noop {τ : Type} (apiH : GitHubAPI Time σ) (apiL : GitLabAPI Time τ)
    (fmt : TimeFormat Time) (gh : GitHubPlatform) (gl : GitLabPlatform) (s : σ) (t : τ) :
    (gh.MirrorCommits apiH fmt [] s).err = none
    ∧ (gh.MirrorCommits apiH fmt [] s).calls = []
    ∧ (gh.MirrorCommits apiH fmt [] s).state = s
    ∧ (gl.MirrorCommits apiL fmt [] t).err = none
    ∧ (gl.MirrorCommits apiL fmt [] t).calls = []
    ∧ (gl.MirrorCommits apiL fmt [] t).state = t := by
  simp [GitHubPlatform.MirrorCommits, GitLabPlatform.MirrorCommits]

/-! ### The loops, call by call -/

theorem github_mirrorLoop_filterMap {β γ : Type} (f : GitHubCall Time → Option β)
    (k : β → γ) (v : γ) (api : GitHubAPI Time σ) (fmt : TimeFormat Time) (g : GitHubPlatform)
    (owner repoName : String)
    (hstep : ∀ commit s,
      (GitHubPlatform.mirrorCommit api fmt g owner repoName commit s).err = none →
      ((GitHubPlatform.mirrorCommit api fmt g owner repoName commit s).calls.filterMap f).map k
        = [v])
    (commits : List (Commit Time)) :
    ∀ s, (GitHubPlatform.mirrorLoop api fmt g owner repoName commits s).err = none →
      ((GitHubPlatform.mirrorLoop api fmt g owner repoName commits s).calls.filterMap f).map k
        = List.replicate commits.length v := by
  induction commits with
  | nil => intro s _; simp [GitHubPlatform.mirrorLoop]
  | cons commit rest ih =>
    intro s herr
    rw [GitHubPlatform.mirrorLoop] at herr ⊢
    dsimp only at herr ⊢
    cases h1 : (GitHubPlatform.mirrorCommit api fmt g owner repoName commit s).err with
    | some e => rw [h1] at herr; dsimp only at herr; rw [h1] at herr; exact absurd herr (by simp)
    | none =>
      rw [h1] at herr
      dsimp only at herr ⊢
      rw [List.filterMap_append, List.map_append, hstep commit s h1, ih _ herr]
      rfl

theorem github_mirrorLoop_forall (P : GitHubCall Time → Prop) (api : GitHubAPI Time σ)
    (fmt : TimeFormat Time) (g : GitHubPlatform) (owner repoName : String)
    (hstep : ∀ commit s,
      ∀ c ∈ (GitHubPlatform.mirrorCommit api fmt g owner repoName commit s).calls, P c)
    (commits : List (Commit Time)) :
    ∀ s, ∀ c ∈ (GitHubPlatform.mirrorLoop api fmt g owner repoName commits s).calls, P c := by
  induction commits with
  | nil => intro s c hc; simp [GitHubPlatform.mirrorLoop] at hc
  | cons commit rest ih =>
    intro s c hc
    rw [GitHubPlatform.mirrorLoop] at hc
    dsimp only at hc
    split at hc
    · exact hstep commit s c hc
    · dsimp only at hc
      rcases List.mem_append.mp hc with h | h
      · exact hstep commit s c h
      · exact ih _ c h

theorem gitlab_mirrorLoop_filterMap {β γ : Type} (f : GitLabCall Time → Option β)
    (k : β → γ) (v : γ) (api : GitLabAPI Time σ) (fmt : TimeFormat Time) (g : GitLabPlatform)
    (projectID : Int)
    (hstep : ∀ commit s,
      (GitLabPlatform.mirrorCommit api fmt g projectID commit s).err = none →
      ((GitLabPlatform.mirrorCommit api fmt g projectID commit s).calls.filterMap f).map k
        = [v])
    (commits : List (Commit Time)) :
    ∀ s, (GitLabPlatform.mirrorLoop api fmt g projectID commits s).err = none →
      ((GitLabPlatform.mirrorLoop api fmt g projectID commits s).calls.filterMap f).map k
        = List.replicate commits.length v := by
  induction commits with
  | nil => intro s _; simp [GitLabPlatform.mirrorLoop]
  | cons commit rest ih =>
    intro s herr
    rw [GitLabPlatform.mirrorLoop] at herr ⊢
    dsimp only at herr ⊢
    cases h1 : (GitLabPlatform.mirrorCommit api fmt g projectID commit s).err with
    | some e => rw [h1] at herr; dsimp only at herr; rw [h1] at herr; exact absurd herr (by simp)
    | none =>
      rw [h1] at herr
      dsimp only at herr ⊢
      rw [List.filterMap_append, List.map_append, hstep commit s h1, ih _ herr]
      rfl

theorem gitlab_mirrorLoop_err_none (api : GitLabAPI Time σ) (fmt : TimeFormat Time)
    (g : GitLabPlatform) (projectID : Int)
    (hstep : ∀ commit s, (GitLabPlatform.mirrorCommit api fmt g projectID commit s).err = none)
    (commits : List (Commit Time)) :
    ∀ s, (GitLabPlatform.mirrorLoop api fmt g projectID commits s).err = none := by
  induction commits with
  | nil => intro s; rfl
  | cons commit rest ih =>
    intro s
    rw [GitLabPlatform.mirrorLoop]
    dsimp only
    rw [hstep commit s]
    exact ih _

theorem gitlab_mirrorLoop_forall (P : GitLabCall Time → Prop) (api : GitLabAPI Time σ)
    (fmt : TimeFormat Time) (g : GitLabPlatform) (projectID : Int)
    (hstep : ∀ commit s,
      ∀ c ∈ (GitLabPlatform.mirrorCommit api fmt g projectID commit s).calls, P c)
    (commits : List (Commit Time)) :
    ∀ s, ∀ c ∈ (GitLabPlatform.mirrorLoop api fmt g projectID commits s).calls, P c := by
  induction commits with
  | nil => intro s c hc; simp [GitLabPlatform.mirrorLoop] at hc
  | cons commit rest ih =>
    intro s c hc
    rw [GitLabPlatform.mirrorLoop] at hc
    dsimp only at hc
    split at hc
    · exact hstep commit s c hc
    · dsimp only at hc
      rcases List.mem_append.mp hc with h | h
      · exact hstep commit s c h
      · exact ih _ c h

/-- A round of the GitHub loop that returns no error has created one commit. -/
theorem github_mirrorCommit_created (api : GitHubAPI Time σ) (fmt : TimeFormat Time)
    (g : GitHubPlatform) (owner repoName : String) (commit : Commit Time) (s : σ)
    (herr : (GitHubPlatform.mirrorCommit api fmt g owner repoName commit s).err = none) :
    ((GitHubPlatform.mirrorCommit api fmt g owner repoName commit s).calls.filterMap
      GitHubCall.created).map (fun _ => ()) = [()] := by
  obtain ⟨r, hcalls, -, -, -⟩ := github_mirrorCommit_of_ok api fmt g owner repoName commit s herr
  rw [hcalls]
  cases hm : r.mainError <;> simp [Round.calls, Round.lookups, hm, GitHubCall.created]

/-- A round of the GitLab loop that returns no error has created one commit. -/
theorem gitlab_mirrorCommit_created (api : GitLabAPI Time σ) (fmt : TimeFormat Time)
    (g : GitLabPlatform) (projectID : Int) (commit : Commit Time) (s : σ)
    (herr : (GitLabPlatform.mirrorCommit api fmt g projectID commit s).err = none) :
    ((GitLabPlatform.mirrorCommit api fmt g projectID commit s).calls.filterMap
      GitLabCall.created).map (fun _ => ()) = [()] := by
  unfold GitLabPlatform.mirrorCommit at herr ⊢
  dsimp only at herr ⊢
  split at herr
  · rename_i h1
    simp [GitLabCall.created, h1]
  · rename_i h1
    split at herr
    · exact absurd herr (by simp)
    · rename_i h2
      simp [GitLabCall.created, h1, h2]

theorem github_MirrorCommits_created (api : GitHubAPI Time σ) (fmt : TimeFormat Time)
    (g : GitHubPlatform) (commits : List (Commit Time)) (s : σ)
    (herr : (g.MirrorCommits api fmt commits s).err = none) :
    (createdCommits (g.MirrorCommits api fmt commits s).calls).length = commits.length := by
  unfold GitHubPlatform.MirrorCommits at herr ⊢
  split_ifs at herr ⊢ with h0
  · simp [createdCommits, h0]
  · have := github_mirrorLoop_filterMap GitHubCall.created (fun _ => ()) () api fmt g
      g.mirrorTarget.1 g.mirrorTarget.2
      (fun commit s => github_mirrorCommit_created api fmt g _ _ commit s) commits s herr
    have hl := congrArg List.length this
    simpa [createdCommits] using hl

theorem gitlab_MirrorCommits_created (api : GitLabAPI Time σ) (fmt : TimeFormat Time)
    (g : GitLabPlatform) (commits : List (Commit Time)) (s : σ)
    (herr : (g.MirrorCommits api fmt commits s).err = none) :
    (createdOpts (g.MirrorCommits api fmt commits s).calls).length = commits.length := by
  unfold GitLabPlatform.MirrorCommits at herr ⊢
  dsimp only at herr ⊢
  split_ifs at herr ⊢ with h0
  · simp [createdOpts, h0]
  · split at herr
    · exact absurd herr (by simp)
    · exact absurd herr (by simp)
    · rename_i project rest hlist
      dsimp only at herr
      rw [hlist]
      dsimp only
      have := gitlab_mirrorLoop_filterMap GitLabCall.created (fun _ => ()) () api fmt g
        project.ID
        (fun commit s => gitlab_mirrorCommit_created api fmt g _ commit s) commits _ herr
      have hl := congrArg List.length this
      simp only [List.length_map, List.length_replicate] at hl
      rw [createdOpts, List.filterMap_append]
      simpa [GitLabCall.created] using hl

/-- C7, as the code has it: `MirrorCommits` keeps no record of the commits it has
mirrored.  For both adapters, a second call with the same list against the same
target, whenever it returns no error, has again created one commit per input
commit. -/
theorem mirror_second_call_creates_again {τ : Type} (apiH : GitHubAPI Time σ)
    (apiL : GitLabAPI Time τ) (fmt : TimeFormat Time) (gh : GitHubPlatform)
    (gl : GitLabPlatform) (commits : List (Commit Time)) (s : σ) (t : τ)
    (hH : (gh.MirrorCommits apiH fmt commits (gh.MirrorCommits apiH fmt commits s).state).err
      = none)
    (hL : (gl.MirrorCommits apiL fmt commits (gl.MirrorCommits apiL fmt commits t).state).err
      = none) :
    (createdCommits
      (gh.MirrorCommits apiH fmt commits (gh.MirrorCommits apiH fmt commits s).state).calls).length
      = commits.length
    ∧ (createdOpts
      (gl.MirrorCommits apiL fmt commits (gl.MirrorCommits apiL fmt commits t).state).calls).length
      = commits.length :=
  ⟨github_MirrorCommits_created apiH fmt gh commits _ hH,
   gitlab_MirrorCommits_created apiL fmt gl commits _ hL⟩

/-- Witness of C7 as amended: the two example commits, mirrored twice. -/
theorem mirror_second_call_creates_again_witness :
    (createdCommits
      (demoGitHubPlatform.MirrorCommits (demoGitHub ["refs/heads/main"]) stampFormat demoCommits
        (demoGitHubPlatform.MirrorCommits (demoGitHub ["refs/heads/main"]) stampFormat
          demoCommits "tip").state).calls).length = demoCommits.length
    ∧ (createdOpts
      (demoGitLabPlatform.MirrorCommits (demoGitLab [demoProject] ["main"]) stampFormat
        demoCommits
        (demoGitLabPlatform.MirrorCommits (demoGitLab [demoProject] ["main"]) stampFormat
          demoCommits 0).state).calls).length = demoCommits.length :=
  mirror_second_call_creates_again (demoGitHub ["refs/heads/main"])
    (demoGitLab [demoProject] ["main"]) stampFormat demoGitHubPlatform demoGitLabPlatform
    demoCommits "tip" 0 (by decide) (by decide)

/-- C7 as stated fails for both adapters: on the example repositories the second
call of `MirrorCommits` with the same two commits issues create-commit requests
again. -/
theorem mirror_twice_is_not_idempotent :
    ¬ (∀ (api : GitHubAPI Stamp String) (fmt : TimeFormat Stamp) (g : GitHubPlatform)
        (commits : List (Commit Stamp)) (s : String),
        createRequests
          (g.MirrorCommits api fmt commits (g.MirrorCommits api fmt commits s).state).calls = [])
    ∧ ¬ (∀ (api : GitLabAPI Stamp Nat) (fmt : TimeFormat Stamp) (g : GitLabPlatform)
        (commits : List (Commit Stamp)) (s : Nat),
        createOpts
          (g.MirrorCommits api fmt commits (g.MirrorCommits api fmt commits s).state).calls = []) := by
  constructor
  · intro h
    exact absurd (h (demoGitHub ["refs/heads/main"]) stampFormat demoGitHubPlatform demoCommits
      "tip") (by decide)
  · intro h
    exact absurd (h (demoGitLab [demoProject] ["main"]) stampFormat demoGitLabPlatform demoCommits
      0) (by decide)

/-! ### Branch fallback -/

theorem github_mirrorCommits_eq_loop (api : GitHubAPI Time σ) (fmt : TimeFormat Time)
    (g : GitHubPlatform) (commits : List (Commit Time)) (s : σ) :
    g.MirrorCommits api fmt commits s
      = GitHubPlatform.mirrorLoop api fmt g g.mirrorTarget.1 g.mirrorTarget.2 commits s := by
  unfold GitHubPlatform.MirrorCommits
  split_ifs with h0
  · rw [List.length_eq_zero] at h0
    subst h0
    rfl
  · rfl

/-- The rounds of a run of the GitHub loop that returns no error. -/
theorem github_mirrorLoop_rounds (P : Round Time → Prop) (api : GitHubAPI Time σ)
    (fmt : TimeFormat Time) (g : GitHubPlatform) (owner repoName : String)
    (hstep : ∀ commit s,
      (GitHubPlatform.mirrorCommit api fmt g owner repoName commit s).err = none →
      ∃ r : Round Time,
        (GitHubPlatform.mirrorCommit api fmt g owner repoName commit s).calls
          = r.calls fmt g owner repoName commit ∧ P r)
    (commits : List (Commit Time)) :
    ∀ s, (GitHubPlatform.mirrorLoop api fmt g owner repoName commits s).err = none →
      ∃ rounds : List (Round Time), rounds.length = commits.length ∧
        (GitHubPlatform.mirrorLoop api fmt g owner repoName commits s).calls =
          roundsCalls fmt g owner repoName commits rounds ∧
        ∀ r ∈ rounds, P r := by
  induction commits with
  | nil => intro s _; exact ⟨[], rfl, by simp [GitHubPlatform.mirrorLoop, roundsCalls], by simp⟩
  | cons commit rest ih =>
    intro s herr
    rw [GitHubPlatform.mirrorLoop] at herr ⊢
    dsimp only at herr ⊢
    cases h1 : (GitHubPlatform.mirrorCommit api fmt g owner repoName commit s).err with
    | some e => rw [h1] at herr; dsimp only at herr; rw [h1] at herr; exact absurd herr (by simp)
    | none =>
      rw [h1] at herr
      dsimp only at herr ⊢
      obtain ⟨r, hr, hP⟩ := hstep commit s h1
      obtain ⟨rounds, hlen, hrest, hall⟩ := ih _ herr
      refine ⟨r :: rounds, by simp [hlen], by rw [hr, hrest, roundsCalls], ?_⟩
      intro r1 hr1
      rcases List.mem_cons.mp hr1 with h | h
      · rw [h]; exact hP
      · exact hall r1 h

theorem github_mirrorCommit_no_branch (api : GitHubAPI Time σ) (fmt : TimeFormat Time)
    (g : GitHubPlatform) (owner repoName : String) (commit : Commit Time) (s : σ)
    (h1 : api.lacksRef "refs/heads/main") (h2 : api.lacksRef "refs/heads/master") :
    (∃ e, (GitHubPlatform.mirrorCommit api fmt g owner repoName commit s).err
      = some (.wrap "failed to get repository head: " (.client e)))
    ∧ ∀ c ∈ (GitHubPlatform.mirrorCommit api fmt g owner repoName commit s).calls,
      c.isGetRef = true := by
  obtain ⟨e1, he1⟩ := h1 owner repoName s
  obtain ⟨e2, he2⟩ := h2 owner repoName (api.GetRef owner repoName "refs/heads/main" s).2
  unfold GitHubPlatform.mirrorCommit GitHubPlatform.getHead
  simp [he1, he2, GitHubCall.isGetRef]

theorem gitlab_mirrorCommit_no_branch (api : GitLabAPI Time σ) (fmt : TimeFormat Time)
    (g : GitLabPlatform) (projectID : Int) (commit : Commit Time) (s : σ)
    (h1 : api.lacksBranch "main") (h2 : api.lacksBranch "master") :
    (∃ e, (GitLabPlatform.mirrorCommit api fmt g projectID commit s).err
      = some (.wrap "failed to create mirror commit: " (.client e)))
    ∧ (GitLabPlatform.mirrorCommit api fmt g projectID commit s).calls.filterMap
      GitLabCall.created = [] := by
  obtain ⟨e1, he1⟩ := h1 projectID (GitLabPlatform.createCommitOpt fmt g commit) s rfl
  obtain ⟨e2, he2⟩ := h2 projectID
    { GitLabPlatform.createCommitOpt fmt g commit with Branch := some "master" }
    (api.CreateCommit projectID (GitLabPlatform.createCommitOpt fmt g commit) s).2 rfl
  unfold GitLabPlatform.mirrorCommit
  simp [he1, he2, GitLabCall.created]

theorem github_mirrorLoop_of_err (api : GitHubAPI Time σ) (fmt : TimeFormat Time)
    (g : GitHubPlatform) (owner repoName : String) (commit : Commit Time)
    (rest : List (Commit Time)) (s : σ) (e : GoError)
    (h : (GitHubPlatform.mirrorCommit api fmt g owner repoName commit s).err = some e) :
    GitHubPlatform.mirrorLoop api fmt g owner repoName (commit :: rest) s
      = GitHubPlatform.mirrorCommit api fmt g owner repoName commit s := by
  rw [GitHubPlatform.mirrorLoop]
  simp [h]

theorem gitlab_mirrorLoop_of_err (api : GitLabAPI Time σ) (fmt : TimeFormat Time)
    (g : GitLabPlatform) (projectID : Int) (commit : Commit Time)
    (rest : List (Commit Time)) (s : σ) (e : GoError)
    (h : (GitLabPlatform.mirrorCommit api fmt g projectID commit s).err = some e) :
    GitLabPlatform.mirrorLoop api fmt g projectID (commit :: rest) s
      = GitLabPlatform.mirrorCommit api fmt g projectID commit s := by
  rw [GitLabPlatform.mirrorLoop]
  simp [h]

/-- C10, as the code has it: for both adapters and every non-empty commit list, if
neither `main` nor `master` exists on the target repository, `MirrorCommits` fails
with the provider's error wrapped as `failed to get repository head: ...` (GitHub)
or `failed to create mirror commit: ...` (GitLab); on GitHub it has only looked up
refs, so it has created no commit and moved no ref, and on GitLab no create-commit
request has succeeded. -/
theorem no_default_branch_fails {τ : Type} (apiH : GitHubAPI Time σ) (apiL : GitLabAPI Time τ)
    (fmt : TimeFormat Time) (gh : GitHubPlatform) (gl : GitLabPlatform)
    (commits : List (Commit Time)) (s : σ) (t : τ) (hne : commits ≠ [])
    (hH1 : apiH.lacksRef "refs/heads/main") (hH2 : apiH.lacksRef "refs/heads/master")
    (hL0 : apiL.hasProject) (hL1 : apiL.lacksBranch "main") (hL2 : apiL.lacksBranch "master") :
    (∃ e, (gh.MirrorCommits apiH fmt commits s).err
        = some (.wrap "failed to get repository head: " (.client e)))
    ∧ (∀ c ∈ (gh.MirrorCommits apiH fmt commits s).calls, c.isGetRef = true)
    ∧ (∃ e, (gl.MirrorCommits apiL fmt commits t).err
        = some (.wrap "failed to create mirror commit: " (.client e)))
    ∧ createdOpts (gl.MirrorCommits apiL fmt commits t).calls = [] := by
  cases commits with
  | nil => exact absurd rfl hne
  | cons commit rest =>
    obtain ⟨⟨e, he⟩, hcalls⟩ := github_mirrorCommit_no_branch apiH fmt gh
      gh.mirrorTarget.1 gh.mirrorTarget.2 commit s hH1 hH2
    have hloopH := github_mirrorLoop_of_err apiH fmt gh _ _ commit rest s _ he
    obtain ⟨p, ps, hlist⟩ := hL0
      { Page := 0, PerPage := 0, Owned := some true, Search := some gl.config.Mirror.Repository }
      t
    obtain ⟨⟨e3, he3⟩, hcreated⟩ := gitlab_mirrorCommit_no_branch apiL fmt gl p.ID commit
      (apiL.ListProjects
        { Page := 0, PerPage := 0, Owned := some true,
          Search := some gl.config.Mirror.Repository } t).2 hL1 hL2
    have hloopL := gitlab_mirrorLoop_of_err apiL fmt gl _ commit rest _ _ he3
    have hH : gh.MirrorCommits apiH fmt (commit :: rest) s
        = GitHubPlatform.mirrorCommit apiH fmt gh gh.mirrorTarget.1 gh.mirrorTarget.2 commit s := by
      unfold GitHubPlatform.MirrorCommits
      rw [if_neg (by simp), hloopH]
    refine ⟨⟨e, by rw [hH, he]⟩, by rw [hH]; exact hcalls, ?_, ?_⟩
    · refine ⟨e3, ?_⟩
      unfold GitLabPlatform.MirrorCommits
      rw [if_neg (by simp)]
      simp only [hlist, hloopL, he3]
    · unfold GitLabPlatform.MirrorCommits
      rw [if_neg (by simp)]
      simp only [hlist, hloopL]
      rw [createdOpts, List.filterMap_append, hcreated]
      simp [GitLabCall.created]

/-- Witness of C10 as amended: the two example commits on repositories without
branches. -/
theorem no_default_branch_fails_witness :
    (∃ e, (demoGitHubPlatform.MirrorCommits (demoGitHub []) stampFormat demoCommits "tip").err
        = some (.wrap "failed to get repository head: " (.client e)))
    ∧ (∀ c ∈ (demoGitHubPlatform.MirrorCommits (demoGitHub []) stampFormat demoCommits
        "tip").calls, c.isGetRef = true)
    ∧ (∃ e, (demoGitLabPlatform.MirrorCommits (demoGitLab [demoProject] []) stampFormat
        demoCommits 0).err = some (.wrap "failed to create mirror commit: " (.client e)))
    ∧ createdOpts (demoGitLabPlatform.MirrorCommits (demoGitLab [demoProject] []) stampFormat
        demoCommits 0).calls = [] :=
  no_default_branch_fails (demoGitHub []) (demoGitLab [demoProject] []) stampFormat
    demoGitHubPlatform demoGitLabPlatform demoCommits "tip" 0 (by decide)
    (fun _ _ _ => ⟨_, rfl⟩) (fun _ _ _ => ⟨_, rfl⟩) (fun _ _ => ⟨demoProject, [], rfl⟩)
    (fun _ _ _ _ => ⟨_, rfl⟩) (fun _ _ _ _ => ⟨_, rfl⟩)

/-- C10 as stated fails for both adapters: on the example repositories without
branches `MirrorCommits` returns the provider's error under a fixed prefix
(GitHub: `failed to get repository head: 404 Not Found`), and that error is none
of the error values that the package declares; the code has no `NoDefaultBranch`
error. -/
theorem no_default_branch_error_is_untyped :
    ¬ (∀ (api : GitHubAPI Stamp String) (fmt : TimeFormat Stamp) (g : GitHubPlatform)
        (commits : List (Commit Stamp)) (s : String), commits ≠ [] →
        api.lacksRef "refs/heads/main" → api.lacksRef "refs/heads/master" →
        ∃ e, (g.MirrorCommits api fmt commits s).err = some e ∧ isDeclaredError e = true)
    ∧ ¬ (∀ (api : GitLabAPI Stamp Nat) (fmt : TimeFormat Stamp) (g : GitLabPlatform)
        (commits : List (Commit Stamp)) (s : Nat), commits ≠ [] →
        api.hasProject → api.lacksBranch "main" → api.lacksBranch "master" →
        ∃ e, (g.MirrorCommits api fmt commits s).err = some e ∧ isDeclaredError e = true) := by
  constructor
  · intro h
    obtain ⟨e, he, hd⟩ := h (demoGitHub []) stampFormat demoGitHubPlatform demoCommits "tip"
      (by decide) (fun _ _ _ => ⟨_, rfl⟩) (fun _ _ _ => ⟨_, rfl⟩)
    have hrun : (demoGitHubPlatform.MirrorCommits (demoGitHub []) stampFormat demoCommits
        "tip").err = some (.wrap "failed to get repository head: " (.client "404 Not Found")) := by
      decide
    rw [hrun] at he
    injection he with he
    subst he
    exact absurd hd (by decide)
  · intro h
    obtain ⟨e, he, hd⟩ := h (demoGitLab [demoProject] []) stampFormat demoGitLabPlatform
      demoCommits 0 (by decide) (fun _ _ => ⟨demoProject, [], rfl⟩) (fun _ _ _ _ => ⟨_, rfl⟩)
      (fun _ _ _ _ => ⟨_, rfl⟩)
    have hrun : (demoGitLabPlatform.MirrorCommits (demoGitLab [demoProject] []) stampFormat
        demoCommits 0).err = some (.wrap "failed to create mirror commit: "
          (.client "400 Bad Request: branch does not exist")) := by
      decide
    rw [hrun] at he
    injection he with he
    subst he
    exact absurd hd (by decide)

/-! ### Order of the requests -/

theorem github_mirrorLoop_observe {γ : Type} (obs : List (GitHubCall Time) → List γ)
    (hnil : obs [] = []) (happ : ∀ a b, obs (a ++ b) = obs a ++ obs b) (f : Commit Time → γ)
    (api : GitHubAPI Time σ) (fmt : TimeFormat Time) (g : GitHubPlatform)
    (owner repoName : String)
    (hstep : ∀ commit s,
      (obs (GitHubPlatform.mirrorCommit api fmt g owner repoName commit s).calls = [] ∨
        obs (GitHubPlatform.mirrorCommit api fmt g owner repoName commit s).calls = [f commit]) ∧
      ((GitHubPlatform.mirrorCommit api fmt g owner repoName commit s).err = none →
        obs (GitHubPlatform.mirrorCommit api fmt g owner repoName commit s).calls = [f commit]))
    (commits : List (Commit Time)) :
    ∀ s, obs (GitHubPlatform.mirrorLoop api fmt g owner repoName commits s).calls
        <+: commits.map f ∧
      ((GitHubPlatform.mirrorLoop api fmt g owner repoName commits s).err = none →
        obs (GitHubPlatform.mirrorLoop api fmt g owner repoName commits s).calls
          = commits.map f) := by
  induction commits with
  | nil => intro s; simp [GitHubPlatform.mirrorLoop, hnil]
  | cons commit rest ih =>
    intro s
    rw [GitHubPlatform.mirrorLoop]
    dsimp only
    cases h1 : (GitHubPlatform.mirrorCommit api fmt g owner repoName commit s).err with
    | some e =>
      dsimp only
      rw [h1]
      refine ⟨?_, fun h => absurd h (by simp)⟩
      rcases (hstep commit s).1 with h | h <;> rw [h] <;> simp
    | none =>
      dsimp only
      rw [happ, (hstep commit s).2 h1, List.map_cons]
      refine ⟨?_, fun h => ?_⟩
      · exact (List.prefix_cons_inj _).mpr (ih _).1
      · rw [(ih _).2 h]
        rfl

theorem gitlab_mirrorLoop_observe {γ : Type} (obs : List (GitLabCall Time) → List γ)
    (hnil : obs [] = []) (happ : ∀ a b, obs (a ++ b) = obs a ++ obs b) (f : Commit Time → γ)
    (api : GitLabAPI Time σ) (fmt : TimeFormat Time) (g : GitLabPlatform) (projectID : Int)
    (hstep : ∀ commit s,
      (obs (GitLabPlatform.mirrorCommit api fmt g projectID commit s).calls = [] ∨
        obs (GitLabPlatform.mirrorCommit api fmt g projectID commit s).calls = [f commit]) ∧
      ((GitLabPlatform.mirrorCommit api fmt g projectID commit s).err = none →
        obs (GitLabPlatform.mirrorCommit api fmt g projectID commit s).calls = [f commit]))
    (commits : List (Commit Time)) :
    ∀ s, obs (GitLabPlatform.mirrorLoop api fmt g projectID commits s).calls
        <+: commits.map f ∧
      ((GitLabPlatform.mirrorLoop api fmt g projectID commits s).err = none →
        obs (GitLabPlatform.mirrorLoop api fmt g projectID commits s).calls
          = commits.map f) := by
  induction commits with
  | nil => intro s; simp [GitLabPlatform.mirrorLoop, hnil]
  | cons commit rest ih =>
    intro s
    rw [GitLabPlatform.mirrorLoop]
    dsimp only
    cases h1 : (GitLabPlatform.mirrorCommit api fmt g projectID commit s).err with
    | some e =>
      dsimp only
      rw [h1]
      refine ⟨?_, fun h => absurd h (by simp)⟩
      rcases (hstep commit s).1 with h | h <;> rw [h] <;> simp
    | none =>
      dsimp only
      rw [happ, (hstep commit s).2 h1, List.map_cons]
      refine ⟨?_, fun h => ?_⟩
      · exact (List.prefix_cons_inj _).mpr (ih _).1
      · rw [(ih _).2 h]
        rfl

theorem github_mirrorCommit_dates (api : GitHubAPI Time σ) (fmt : TimeFormat Time)
    (g : GitHubPlatform) (owner repoName : String) (commit : Commit Time) (s : σ) :
    ((createRequests (GitHubPlatform.mirrorCommit api fmt g owner repoName commit s).calls).map
        GitCommit.dates = [] ∨
      (createRequests (GitHubPlatform.mirrorCommit api fmt g owner repoName commit s).calls).map
        GitCommit.dates = [(some commit.Date, some commit.Date)]) ∧
    ((GitHubPlatform.mirrorCommit api fmt g owner repoName commit s).err = none →
      (createRequests (GitHubPlatform.mirrorCommit api fmt g owner repoName commit s).calls).map
        GitCommit.dates = [(some commit.Date, some commit.Date)]) := by
  constructor
  · have hhead := github_getHead_filterMap GitHubCall.createRequest
      (fun _ _ _ _ => rfl) api owner repoName s
    unfold GitHubPlatform.mirrorCommit
    split
    · rename_i heq
      rw [heq] at hhead
      dsimp only at hhead ⊢
      rw [createRequests, hhead]
      simp
    · rename_i ref s1 c1 heq
      rw [heq] at hhead
      dsimp only at hhead ⊢
      rw [createRequests, List.filterMap_append, hhead, List.nil_append]
      unfold GitHubPlatform.commitOnTip
      dsimp only
      repeat' split
      all_goals simp [GitHubCall.createRequest, GitCommit.dates, GitHubPlatform.newCommit]
  · intro herr
    obtain ⟨r, hcalls, -⟩ := github_mirrorCommit_of_ok api fmt g owner repoName commit s herr
    rw [hcalls]
    cases hm : r.mainError <;>
      simp [createRequests, Round.calls, Round.lookups, hm, GitHubCall.createRequest,
        GitCommit.dates]

theorem gitlab_mirrorCommit_payload (api : GitLabAPI Time σ) (fmt : TimeFormat Time)
    (g : GitLabPlatform) (projectID : Int) (commit : Commit Time) (s : σ) :
    ((createdOpts (GitLabPlatform.mirrorCommit api fmt g projectID commit s).calls).map
        CreateCommitOptions.payload = [] ∨
      (createdOpts (GitLabPlatform.mirrorCommit api fmt g projectID commit s).calls).map
        CreateCommitOptions.payload = [(GitLabPlatform.createCommitOpt fmt g commit).payload]) ∧
    ((GitLabPlatform.mirrorCommit api fmt g projectID commit s).err = none →
      (createdOpts (GitLabPlatform.mirrorCommit api fmt g projectID commit s).calls).map
        CreateCommitOptions.payload = [(GitLabPlatform.createCommitOpt fmt g commit).payload]) := by
  unfold GitLabPlatform.mirrorCommit createdOpts
  dsimp only
  split
  · rename_i h1
    simp [GitLabCall.created, h1]
  · rename_i h1
    split
    · rename_i h2
      simp [GitLabCall.created, h1, h2]
    · rename_i h2
      simp [GitLabCall.created, h1, h2, CreateCommitOptions.payload]

/-- C14, as the code has it: `MirrorCommits` does not sort; it works through the
commits in the order of the input list.  On GitHub the dates of the create-commit
requests are those of an initial segment of the input list, in input order, and of
the whole list when the call returns no error; on GitLab the same holds for the
message and the file content of the commits created. -/
theorem mirror_creates_in_input_order {τ : Type} (apiH : GitHubAPI Time σ)
    (apiL : GitLabAPI Time τ) (fmt : TimeFormat Time) (gh : GitHubPlatform)
    (gl : GitLabPlatform) (commits : List (Commit Time)) (s : σ) (t : τ) :
    ((createRequests (gh.MirrorCommits apiH fmt commits s).calls).map GitCommit.dates
        <+: commits.map fun c => (some c.Date, some c.Date))
    ∧ ((gh.MirrorCommits apiH fmt commits s).err = none →
        (createRequests (gh.MirrorCommits apiH fmt commits s).calls).map GitCommit.dates
          = commits.map fun c => (some c.Date, some c.Date))
    ∧ ((createdOpts (gl.MirrorCommits apiL fmt commits t).calls).map CreateCommitOptions.payload
        <+: commits.map fun c => (GitLabPlatform.createCommitOpt fmt gl c).payload)
    ∧ ((gl.MirrorCommits apiL fmt commits t).err = none →
        (createdOpts (gl.MirrorCommits apiL fmt commits t).calls).map CreateCommitOptions.payload
          = commits.map fun c => (GitLabPlatform.createCommitOpt fmt gl c).payload) := by
  have hH := github_mirrorLoop_observe
    (fun calls => (createRequests calls).map GitCommit.dates) rfl
    (fun a b => by simp [createRequests])
    (fun c : Commit Time => (some c.Date, some c.Date)) apiH fmt gh
    gh.mirrorTarget.1 gh.mirrorTarget.2
    (fun commit s => github_mirrorCommit_dates apiH fmt gh _ _ commit s) commits s
  have hL := fun pid t1 => gitlab_mirrorLoop_observe
    (fun calls => (createdOpts calls).map CreateCommitOptions.payload) rfl
    (fun a b => by simp [createdOpts])
    (fun c : Commit Time => (GitLabPlatform.createCommitOpt fmt gl c).payload) apiL fmt gl pid
    (fun commit s => gitlab_mirrorCommit_payload apiL fmt gl pid commit s) commits t1
  have hHH : ((createRequests (gh.MirrorCommits apiH fmt commits s).calls).map GitCommit.dates
        <+: commits.map fun c => (some c.Date, some c.Date))
      ∧ ((gh.MirrorCommits apiH fmt commits s).err = none →
        (createRequests (gh.MirrorCommits apiH fmt commits s).calls).map GitCommit.dates
          = commits.map fun c => (some c.Date, some c.Date)) := by
    unfold GitHubPlatform.MirrorCommits
    split_ifs with h0
    · rw [List.length_eq_zero] at h0
      subst h0
      simp [createRequests]
    · exact hH
  have hLL : ((createdOpts (gl.MirrorCommits apiL fmt commits t).calls).map
        CreateCommitOptions.payload
        <+: commits.map fun c => (GitLabPlatform.createCommitOpt fmt gl c).payload)
      ∧ ((gl.MirrorCommits apiL fmt commits t).err = none →
        (createdOpts (gl.MirrorCommits apiL fmt commits t).calls).map CreateCommitOptions.payload
          = commits.map fun c => (GitLabPlatform.createCommitOpt fmt gl c).payload) := by
    unfold GitLabPlatform.MirrorCommits
    dsimp only
    split_ifs with h0
    · rw [List.length_eq_zero] at h0
      subst h0
      simp [createdOpts]
    · split
      · simp [createdOpts, GitLabCall.created]
      · simp [createdOpts, GitLabCall.created]
      · rename_i project _ _
        dsimp only
        have := hL project.ID (apiL.ListProjects
          { Page := 0, PerPage := 0, Owned := some true,
            Search := some gl.config.Mirror.Repository } t).2
        rw [createdOpts, List.filterMap_append]
        simpa [GitLabCall.created, createdOpts] using this
  exact ⟨hHH.1, hHH.2, hLL.1, hLL.2⟩

/-- Witness of C14 as amended: the example commits given latest first are mirrored
latest first. -/
theorem mirror_creates_in_input_order_witness :
    (createDates (demoGitHubPlatform.MirrorCommits (demoGitHub ["refs/heads/main"]) stampFormat
        demoCommitsLatestFirst "tip").calls).map (·.text)
      = ["2024-02-03T08:00:00Z", "2024-01-15T10:30:00Z"]
    ∧ (createRequests (demoGitHubPlatform.MirrorCommits (demoGitHub ["refs/heads/main"])
        stampFormat demoCommitsLatestFirst "tip").calls).map GitCommit.dates
      = demoCommitsLatestFirst.map fun c => (some c.Date, some c.Date) :=
  ⟨by decide,
   (mirror_creates_in_input_order (demoGitHub ["refs/heads/main"])
      (demoGitLab [demoProject] ["main"]) stampFormat demoGitHubPlatform demoGitLabPlatform
      demoCommitsLatestFirst "tip" 0).2.1 (by decide)⟩

/-- C14 as stated fails for both adapters: given the two example commits latest
first, `MirrorCommits` issues the request for 2024-02-03 before the request for
2024-01-15. -/
theorem mirror_does_not_sort :
    ¬ (∀ (api : GitHubAPI Stamp String) (fmt : TimeFormat Stamp) (g : GitHubPlatform)
        (commits : List (Commit Stamp)) (s : String),
        List.Pairwise (fun a b => Stamp.le a b = true)
          (createDates (g.MirrorCommits api fmt commits s).calls))
    ∧ ¬ (∀ (api : GitLabAPI Stamp Nat) (fmt : TimeFormat Stamp) (g : GitLabPlatform)
        (commits : List (Commit Stamp)) (s : Nat),
        List.Pairwise (fun a b => textLe a b = true)
          (createContents (g.MirrorCommits api fmt commits s).calls)) := by
  constructor
  · intro h
    exact absurd (h (demoGitHub ["refs/heads/main"]) stampFormat demoGitHubPlatform
      demoCommitsLatestFirst "tip") (by decide)
  · intro h
    exact absurd (h (demoGitLab [demoProject] ["main"]) stampFormat demoGitLabPlatform
      demoCommitsLatestFirst 0) (by decide)

/-! ### A failing commit -/

theorem github_mirrorLoop_append_of_err (api : GitHubAPI Time σ) (fmt : TimeFormat Time)
    (g : GitHubPlatform) (owner repoName : String) (post : List (Commit Time))
    (commits : List (Commit Time)) :
    ∀ s, (GitHubPlatform.mirrorLoop api fmt g owner repoName commits s).err ≠ none →
      GitHubPlatform.mirrorLoop api fmt g owner repoName (commits ++ post) s
        = GitHubPlatform.mirrorLoop api fmt g owner repoName commits s := by
  induction commits with
  | nil => intro s h; exact absurd rfl h
  | cons commit rest ih =>
    intro s h
    rw [List.cons_append, GitHubPlatform.mirrorLoop, GitHubPlatform.mirrorLoop]
    rw [GitHubPlatform.mirrorLoop] at h
    dsimp only at h ⊢
    cases h1 : (GitHubPlatform.mirrorCommit api fmt g owner repoName commit s).err with
    | some e => rfl
    | none =>
      rw [h1] at h
      dsimp only at h ⊢
      rw [ih _ h]

theorem gitlab_mirrorLoop_append_of_err (api : GitLabAPI Time σ) (fmt : TimeFormat Time)
    (g : GitLabPlatform) (projectID : Int) (post : List (Commit Time))
    (commits : List (Commit Time)) :
    ∀ s, (GitLabPlatform.mirrorLoop api fmt g projectID commits s).err ≠ none →
      GitLabPlatform.mirrorLoop api fmt g projectID (commits ++ post) s
        = GitLabPlatform.mirrorLoop api fmt g projectID commits s := by
  induction commits with
  | nil => intro s h; exact absurd rfl h
  | cons commit rest ih =>
    intro s h
    rw [List.cons_append, GitLabPlatform.mirrorLoop, GitLabPlatform.mirrorLoop]
    rw [GitLabPlatform.mirrorLoop] at h
    dsimp only at h ⊢
    cases h1 : (GitLabPlatform.mirrorCommit api fmt g projectID commit s).err with
    | some e => rfl
    | none =>
      rw [h1] at h
      dsimp only at h ⊢
      rw [ih _ h]

/-- C15, as the code has it: a failure at one commit ends the batch.  For both
adapters, when `MirrorCommits` on a list returns an error, then on that list
followed by any further commits it does exactly the same: the same calls, the same
final state and the same error, which is all it returns.  So no call is made for a
commit after the failing one, and the result does not tell which commits were
mirrored. -/
theorem mirror_stops_at_first_failure {τ : Type} (apiH : GitHubAPI Time σ)
    (apiL : GitLabAPI Time τ) (fmt : TimeFormat Time) (gh : GitHubPlatform)
    (gl : GitLabPlatform) (commits post : List (Commit Time)) (s : σ) (t : τ)
    (hH : (gh.MirrorCommits apiH fmt commits s).err ≠ none)
    (hL : (gl.MirrorCommits apiL fmt commits t).err ≠ none) :
    gh.MirrorCommits apiH fmt (commits ++ post) s = gh.MirrorCommits apiH fmt commits s
    ∧ gl.MirrorCommits apiL fmt (commits ++ post) t = gl.MirrorCommits apiL fmt commits t := by
  have hne : commits ≠ [] := by
    rintro rfl
    exact hH rfl
  have hlen : ¬ commits.length = 0 := by
    rw [List.length_eq_zero]; exact hne
  have hlen2 : ¬ (commits ++ post).length = 0 := by
    rw [List.length_append]; omega
  constructor
  · unfold GitHubPlatform.MirrorCommits at hH ⊢
    rw [if_neg hlen] at hH ⊢
    rw [if_neg hlen2]
    exact github_mirrorLoop_append_of_err apiH fmt gh _ _ post commits s hH
  · unfold GitLabPlatform.MirrorCommits at hL ⊢
    dsimp only at hL ⊢
    rw [if_neg hlen] at hL ⊢
    rw [if_neg hlen2]
    split
    · rfl
    · rfl
    · rename_i project _ hlist
      rw [hlist] at hL
      dsimp only at hL ⊢
      rw [gitlab_mirrorLoop_append_of_err apiL fmt gl _ post commits _ hL]

/-- Witness of C15 as amended: the first example commit is refused, with and
without the second one after it. -/
theorem mirror_stops_at_first_failure_witness :
    demoGitHubPlatform.MirrorCommits (demoGitHubReadOnly ["refs/heads/main"]) stampFormat
        ([demoCommit "a1" "fix secret thing" "2024-01-15" "2024-01-15T10:30:00Z"]
          ++ [demoCommit "b2" "add secret thing" "2024-02-03" "2024-02-03T08:00:00Z"]) "tip"
      = demoGitHubPlatform.MirrorCommits (demoGitHubReadOnly ["refs/heads/main"]) stampFormat
        [demoCommit "a1" "fix secret thing" "2024-01-15" "2024-01-15T10:30:00Z"] "tip"
    ∧ demoGitLabPlatform.MirrorCommits (demoGitLab [demoProject] []) stampFormat
        ([demoCommit "a1" "fix secret thing" "2024-01-15" "2024-01-15T10:30:00Z"]
          ++ [demoCommit "b2" "add secret thing" "2024-02-03" "2024-02-03T08:00:00Z"]) 0
      = demoGitLabPlatform.MirrorCommits (demoGitLab [demoProject] []) stampFormat
        [demoCommit "a1" "fix secret thing" "2024-01-15" "2024-01-15T10:30:00Z"] 0 :=
  mirror_stops_at_first_failure (demoGitHubReadOnly ["refs/heads/main"])
    (demoGitLab [demoProject] []) stampFormat demoGitHubPlatform demoGitLabPlatform
    [demoCommit "a1" "fix secret thing" "2024-01-15" "2024-01-15T10:30:00Z"]
    [demoCommit "b2" "add secret thing" "2024-02-03" "2024-02-03T08:00:00Z"] "tip" 0
    (by decide) (by decide)

/-- C15 as stated fails for both adapters: on the example repositories that refuse
the commit for 2024-01-15, `MirrorCommits` issues no create-commit request for the
commit of 2024-02-03 that follows it. -/
theorem mirror_failure_aborts_batch :
    ¬ (∀ (api : GitHubAPI Stamp String) (fmt : TimeFormat Stamp) (g : GitHubPlatform)
        (pre post : List (Commit Stamp)) (c : Commit Stamp) (s : String),
        (g.MirrorCommits api fmt pre s).err = none →
        (g.MirrorCommits api fmt (pre ++ [c]) s).err ≠ none →
        ∀ c1 ∈ post, ∃ r ∈ createRequests (g.MirrorCommits api fmt (pre ++ c :: post) s).calls,
          r.Message = some (mirrorMessage fmt c1))
    ∧ ¬ (∀ (api : GitLabAPI Stamp Nat) (fmt : TimeFormat Stamp) (g : GitLabPlatform)
        (pre post : List (Commit Stamp)) (c : Commit Stamp) (s : Nat),
        (g.MirrorCommits api fmt pre s).err = none →
        (g.MirrorCommits api fmt (pre ++ [c]) s).err ≠ none →
        ∀ c1 ∈ post, ∃ opt ∈ createOpts (g.MirrorCommits api fmt (pre ++ c :: post) s).calls,
          opt.CommitMessage = some (mirrorMessage fmt c1)) := by
  constructor
  · intro h
    exact absurd (h (demoGitHubReadOnly ["refs/heads/main"]) stampFormat demoGitHubPlatform []
      [demoCommit "b2" "add secret thing" "2024-02-03" "2024-02-03T08:00:00Z"]
      (demoCommit "a1" "fix secret thing" "2024-01-15" "2024-01-15T10:30:00Z") "tip"
      (by decide) (by decide)) (by decide)
  · intro h
    exact absurd (h (demoGitLab [demoProject] []) stampFormat demoGitLabPlatform []
      [demoCommit "b2" "add secret thing" "2024-02-03" "2024-02-03T08:00:00Z"]
      (demoCommit "a1" "fix secret thing" "2024-01-15" "2024-01-15T10:30:00Z") 0
      (by decide) (by decide)) (by decide)

/-! ### A missing repository -/

/-- C19, as the code has it: a missing target repository is an error, and
`MirrorCommits` never creates it.  For every non-empty commit list, when the GitLab
project search returns no project, `MirrorCommits` returns the error
`mirror project not found: ` followed by the configured name, having made that one
search and no other call; and when the ref lookups of the GitHub adapter fail, as
they do on a repository that does not exist, it returns the client's error wrapped
as `failed to get repository head: ...`, having made ref lookups only. -/
theorem mirror_missing_repository_fails {τ : Type} (apiH : GitHubAPI Time σ)
    (apiL : GitLabAPI Time τ) (fmt : TimeFormat Time) (gh : GitHubPlatform)
    (gl : GitLabPlatform) (commits : List (Commit Time)) (s : σ) (t : τ) (hne : commits ≠ [])
    (hH1 : apiH.lacksRef "refs/heads/main") (hH2 : apiH.lacksRef "refs/heads/master")
    (hL : (apiL.ListProjects
      { Page := 0, PerPage := 0, Owned := some true, Search := some gl.config.Mirror.Repository }
      t).1 = .ok []) :
    (gl.MirrorCommits apiL fmt commits t).err
        = some (.errorf ("mirror project not found: " ++ gl.config.Mirror.Repository))
    ∧ (gl.MirrorCommits apiL fmt commits t).calls
        = [.ListProjects
            { Page := 0, PerPage := 0, Owned := some true,
              Search := some gl.config.Mirror.Repository } (.ok [])]
    ∧ (∃ e, (gh.MirrorCommits apiH fmt commits s).err
        = some (.wrap "failed to get repository head: " (.client e)))
    ∧ (∀ c ∈ (gh.MirrorCommits apiH fmt commits s).calls, c.isGetRef = true) := by
  have hlen : ¬ commits.length = 0 := by
    rw [List.length_eq_zero]; exact hne
  refine ⟨?_, ?_, ?_⟩
  · unfold GitLabPlatform.MirrorCommits
    dsimp only
    rw [if_neg hlen]
    simp only [hL]
  · unfold GitLabPlatform.MirrorCommits
    dsimp only
    rw [if_neg hlen]
    simp only [hL]
  · cases commits with
    | nil => exact absurd rfl hne
    | cons commit rest =>
      obtain ⟨⟨e, he⟩, hcalls⟩ := github_mirrorCommit_no_branch apiH fmt gh
        gh.mirrorTarget.1 gh.mirrorTarget.2 commit s hH1 hH2
      have hloop := github_mirrorLoop_of_err apiH fmt gh _ _ commit rest s _ he
      have hrun : gh.MirrorCommits apiH fmt (commit :: rest) s
          = GitHubPlatform.mirrorCommit apiH fmt gh gh.mirrorTarget.1 gh.mirrorTarget.2
            commit s := by
        unfold GitHubPlatform.MirrorCommits
        rw [if_neg (by simp), hloop]
      exact ⟨⟨e, by rw [hrun, he]⟩, by rw [hrun]; exact hcalls⟩

/-- Witness of C19 as amended: the example commits on a GitLab instance without the
project and on a GitHub repository without refs. -/
theorem mirror_missing_repository_fails_witness :
    (demoGitLabPlatform.MirrorCommits (demoGitLab [] ["main"]) stampFormat demoCommits 0).err
        = some (.errorf ("mirror project not found: " ++ "mirror"))
    ∧ (demoGitLabPlatform.MirrorCommits (demoGitLab [] ["main"]) stampFormat demoCommits 0).calls
        = [.ListProjects
            { Page := 0, PerPage := 0, Owned := some true, Search := some "mirror" } (.ok [])]
    ∧ (∃ e, (demoGitHubPlatform.MirrorCommits (demoGitHub []) stampFormat demoCommits "tip").err
        = some (.wrap "failed to get repository head: " (.client e)))
    ∧ (∀ c ∈ (demoGitHubPlatform.MirrorCommits (demoGitHub []) stampFormat demoCommits
        "tip").calls, c.isGetRef = true) :=
  mirror_missing_repository_fails (demoGitHub []) (demoGitLab [] ["main"]) stampFormat
    demoGitHubPlatform demoGitLabPlatform demoCommits "tip" 0 (by decide)
    (fun _ _ _ => ⟨_, rfl⟩) (fun _ _ _ => ⟨_, rfl⟩) rfl

/-- C19 as stated fails for both adapters: with the project (GitLab) or the
repository's refs (GitHub) missing, `MirrorCommits` on the example commits returns
an error. -/
theorem mirror_missing_repository_is_error :
    ¬ (∀ (api : GitLabAPI Stamp Nat) (fmt : TimeFormat Stamp) (g : GitLabPlatform)
        (commits : List (Commit Stamp)) (s : Nat), commits ≠ [] →
        (api.ListProjects
          { Page := 0, PerPage := 0, Owned := some true,
            Search := some g.config.Mirror.Repository } s).1 = .ok [] →
        (g.MirrorCommits api fmt commits s).err = none)
    ∧ ¬ (∀ (api : GitHubAPI Stamp String) (fmt : TimeFormat Stamp) (g : GitHubPlatform)
        (commits : List (Commit Stamp)) (s : String), commits ≠ [] →
        api.lacksRef "refs/heads/main" → api.lacksRef "refs/heads/master" →
        (g.MirrorCommits api fmt commits s).err = none) := by
  constructor
  · intro h
    exact absurd (h (demoGitLab [] ["main"]) stampFormat demoGitLabPlatform demoCommits 0
      (by decide) rfl) (by decide)
  · intro h
    exact absurd (h (demoGitHub []) stampFormat demoGitHubPlatform demoCommits "tip"
      (by decide) (fun _ _ _ => ⟨_, rfl⟩) (fun _ _ _ => ⟨_, rfl⟩)) (by decide)

/-! ### Content-free, chained commits -/

theorem readsFollowUpdates_round (fmt : TimeFormat Time) (g : GitHubPlatform)
    (owner repoName : String) (c : Commit Time) (r : Round Time) (object : GitObject)
    (ho : r.ref.Object = some object) (last : Option (Option String))
    (rest : List (GitHubCall Time)) :
    readsFollowUpdates last (r.calls fmt g owner repoName c ++ rest)
      = ((match last with
          | some sha => r.ref.Object.bind (·.SHA) == sha
          | none => true) && readsFollowUpdates (some r.created.SHA) rest) := by
  cases hm : r.mainError <;>
    simp [Round.calls, Round.lookups, hm, readsFollowUpdates, ho]

theorem createdPairs_round (fmt : TimeFormat Time) (g : GitHubPlatform)
    (owner repoName : String) (c : Commit Time) (r : Round Time)
    (rest : List (GitHubCall Time)) :
    ∃ sent : GitCommit Time, sent.Parents = [r.ref.Object.bind (·.SHA)] ∧
      createdPairs (r.calls fmt g owner repoName c ++ rest)
        = (sent, r.created) :: createdPairs rest := by
  refine ⟨GitHubPlatform.newCommit fmt g c r.ref r.tree, rfl, ?_⟩
  cases hm : r.mainError <;>
    simp [Round.calls, Round.lookups, hm, createdPairs, GitHubPlatform.newCommit, mirrorMessage]

theorem roundsCalls_chained (fmt : TimeFormat Time) (g : GitHubPlatform)
    (owner repoName : String) (rounds : List (Round Time))
    (hall : ∀ r ∈ rounds, ∃ sha, r.ref.Object.bind (·.SHA) = some sha) :
    ∀ (commits : List (Commit Time)) (last : Option (Option String)),
      readsFollowUpdates last (roundsCalls fmt g owner repoName commits rounds) = true →
      (∀ sha, last = some sha → ∀ c ∈ commits.head?, ∀ r ∈ rounds.head?,
        r.ref.Object.bind (·.SHA) = sha) ∧
      parentsChained (createdPairs (roundsCalls fmt g owner repoName commits rounds)) := by
  induction rounds with
  | nil =>
    intro commits last _
    cases commits <;> simp [roundsCalls, createdPairs, parentsChained]
  | cons r rs ih =>
    intro commits last h
    cases commits with
    | nil => simp [roundsCalls, createdPairs, parentsChained]
    | cons c cs =>
      obtain ⟨sha0, hsha0⟩ := hall r (by simp)
      obtain ⟨object, ho⟩ : ∃ object, r.ref.Object = some object := by
        cases hobj : r.ref.Object with
        | none => simp [hobj] at hsha0
        | some object => exact ⟨object, rfl⟩
      rw [roundsCalls, readsFollowUpdates_round fmt g owner repoName c r object ho,
        Bool.and_eq_true] at h
      obtain ⟨hhead, hrest⟩ := h
      obtain ⟨hnext, hchain⟩ := ih (fun r1 h1 => hall r1 (by simp [h1])) cs
        (some r.created.SHA) hrest
      constructor
      · intro sha hl c1 _ r1 hr1
        subst hl
        simp only [List.head?_cons, Option.mem_def, Option.some.injEq] at hr1
        subst hr1
        simpa using hhead
      · obtain ⟨sent, hsent, hpairs⟩ := createdPairs_round fmt g owner repoName c r
          (roundsCalls fmt g owner repoName cs rs)
        rw [roundsCalls, hpairs]
        cases cs with
        | nil => simp [roundsCalls, createdPairs, parentsChained]
        | cons c2 cs2 =>
          cases rs with
          | nil => simp [roundsCalls, createdPairs, parentsChained]
          | cons r2 rs2 =>
            have h2 := hnext _ rfl c2 (by simp) r2 (by simp)
            obtain ⟨sent2, hsent2, hpairs2⟩ := createdPairs_round fmt g owner repoName c2 r2
              (roundsCalls fmt g owner repoName cs2 rs2)
            rw [roundsCalls, hpairs2] at hchain ⊢
            exact ⟨by rw [hsent2, h2], hchain⟩

/-- A run of `GitHubPlatform.MirrorCommits` that returns no error consists of one
round per commit with the calls of `Round.calls`, whichever branch each round has
found; and when every ref lookup returns what the ref update before it has set,
each commit sent has as its parent the commit created before it. -/
theorem github_rounds_chained (api : GitHubAPI Time σ) (fmt : TimeFormat Time)
    (g : GitHubPlatform) (commits : List (Commit Time)) (s : σ)
    (herr : (g.MirrorCommits api fmt commits s).err = none) :
    ∃ rounds : List (Round Time), rounds.length = commits.length ∧
      (g.MirrorCommits api fmt commits s).calls
        = roundsCalls fmt g g.mirrorTarget.1 g.mirrorTarget.2 commits rounds ∧
      (readsFollowUpdates none (g.MirrorCommits api fmt commits s).calls = true →
        parentsChained (createdPairs (g.MirrorCommits api fmt commits s).calls)) := by
  rw [github_mirrorCommits_eq_loop] at herr ⊢
  obtain ⟨rounds, hlen, hcalls, hall⟩ := github_mirrorLoop_rounds
    (fun r => ∃ sha, r.ref.Object.bind (·.SHA) = some sha) api fmt g _ _
    (fun commit s h => by
      obtain ⟨r, hr, hsha, -⟩ := github_mirrorCommit_of_ok api fmt g _ _ commit s h
      exact ⟨r, hr, hsha⟩) commits s herr
  refine ⟨rounds, hlen, hcalls, ?_⟩
  rw [hcalls]
  intro h
  exact (roundsCalls_chained fmt g _ _ rounds hall commits none h).2

end Mirror

/-! ## Theorems on `InitializeMirror`, `NewPlatform` and the constructors -/

/-- C11: `InitializeMirror` is idempotent, on both adapters, for every name and
visibility.  When the provider answers the create request with an error whose text
contains `already exists` (GitHub) or `already been taken` (GitLab), or with
success, `InitializeMirror` returns no error; for every other error of the provider
it returns that error, wrapped. -/
theorem initialize_mirror_idempotent {σ τ : Type}
    (Create : String → RepositoryRequest → σ → Except String Unit × σ)
    (CreateProject : CreateProjectOptions → τ → Except String Unit × τ)
    (name visibility : String) (s : σ) (t : τ) :
    (∀ e, (Create "" (GitHubPlatform.mirrorRepository name visibility) s).1 = .error e →
      stringsContains e "already exists" = true →
      (GitHubPlatform.InitializeMirror Create name visibility s).err = none)
    ∧ (∀ u, (Create "" (GitHubPlatform.mirrorRepository name visibility) s).1 = .ok u →
      (GitHubPlatform.InitializeMirror Create name visibility s).err = none)
    ∧ (∀ e, (Create "" (GitHubPlatform.mirrorRepository name visibility) s).1 = .error e →
      stringsContains e "already exists" = false →
      (GitHubPlatform.InitializeMirror Create name visibility s).err
        = some (.wrap "failed to create mirror repository: " (.client e)))
    ∧ (∀ e, (CreateProject (GitLabPlatform.mirrorProject name visibility) t).1 = .error e →
      stringsContains e "already been taken" = true →
      (GitLabPlatform.InitializeMirror CreateProject name visibility t).err = none)
    ∧ (∀ u, (CreateProject (GitLabPlatform.mirrorProject name visibility) t).1 = .ok u →
      (GitLabPlatform.InitializeMirror CreateProject name visibility t).err = none)
    ∧ (∀ e, (CreateProject (GitLabPlatform.mirrorProject name visibility) t).1 = .error e →
      stringsContains e "already been taken" = false →
      (GitLabPlatform.InitializeMirror CreateProject name visibility t).err
        = some (.wrap "failed to create mirror project: " (.client e))) := by
  refine ⟨?_, ?_, ?_, ?_, ?_, ?_⟩
  all_goals
    intro e he
    first
      | (intro hc
         simp [GitHubPlatform.InitializeMirror, GitLabPlatform.InitializeMirror, he, hc])
      | simp [GitHubPlatform.InitializeMirror, GitLabPlatform.InitializeMirror, he]

/-- Witness of C11: on the example accounts a second `InitializeMirror` after a
first that succeeded gets the provider's `already exists` answer and returns no
error. -/
theorem initialize_mirror_idempotent_witness :
    (GitHubPlatform.InitializeMirror demoCreateRepository "mirror" "public" []).err = none
    ∧ (GitHubPlatform.InitializeMirror demoCreateRepository "mirror" "public"
        (GitHubPlatform.InitializeMirror demoCreateRepository "mirror" "public" []).state).calls
      = [⟨GitHubPlatform.mirrorRepository "mirror" "public",
          .error "422 Repository creation failed: name already exists on this account"⟩]
    ∧ (GitHubPlatform.InitializeMirror demoCreateRepository "mirror" "public"
        (GitHubPlatform.InitializeMirror demoCreateRepository "mirror" "public" []).state).err
      = none
    ∧ (GitLabPlatform.InitializeMirror demoCreateProject "mirror" "public"
        (GitLabPlatform.InitializeMirror demoCreateProject "mirror" "public" []).state).err
      = none :=
  ⟨by decide, by decide,
   (initialize_mirror_idempotent demoCreateRepository demoCreateProject "mirror" "public"
      (GitHubPlatform.InitializeMirror demoCreateRepository "mirror" "public" []).state
      (GitLabPlatform.InitializeMirror demoCreateProject "mirror" "public" []).state).1
      "422 Repository creation failed: name already exists on this account"
      (by decide) (by decide),
   (initialize_mirror_idempotent demoCreateRepository demoCreateProject "mirror" "public"
      (GitHubPlatform.InitializeMirror demoCreateRepository "mirror" "public" []).state
      (GitLabPlatform.InitializeMirror demoCreateProject "mirror" "public" []).state).2.2.2.1
      "400 Bad request: name has already been taken" (by decide) (by decide)⟩

/-- C12: for every configuration, `NewPlatform` on `bitbucket`, `azuredevops` or
`generic` returns no adapter and the error `platform <t> not implemented yet -
coming in v0.2.0`, which names the type and is not `ErrUnsupportedPlatform`; on
every string that is none of the five declared types it returns
`ErrUnsupportedPlatform`; and it returns an adapter only on `github` and
`gitlab`. -/
theorem newPlatform_unimplemented (enterpriseError : String → String → Option String)
    (baseURLError : String → Option String) (t : String) (config : PlatformConfig) :
    (t ∈ [PlatformBitbucket, PlatformAzureDevOps, PlatformGenericGit] →
      NewPlatform enterpriseError baseURLError t config
        = .error (.errorf ("platform " ++ t ++ " not implemented yet - coming in v0.2.0"))
      ∧ GoError.is (.errorf ("platform " ++ t ++ " not implemented yet - coming in v0.2.0"))
          ErrUnsupportedPlatform = false)
    ∧ (t ∉ [PlatformGitHub, PlatformGitLab, PlatformBitbucket, PlatformAzureDevOps,
          PlatformGenericGit] →
      NewPlatform enterpriseError baseURLError t config = .error ErrUnsupportedPlatform)
    ∧ (∀ a, NewPlatform enterpriseError baseURLError t config = .ok a →
      t = PlatformGitHub ∨ t = PlatformGitLab) := by
  refine ⟨?_, ?_, ?_⟩
  · intro ht
    constructor
    · simp only [List.mem_cons, List.mem_singleton, List.not_mem_nil, or_false] at ht
      have h1 : t ≠ PlatformGitHub := by
        rcases ht with h | h | h <;> rw [h] <;> decide
      have h2 : t ≠ PlatformGitLab := by
        rcases ht with h | h | h <;> rw [h] <;> decide
      unfold NewPlatform
      rw [if_neg h1, if_neg h2, if_pos ht]
    · simp [GoError.is, ErrUnsupportedPlatform]
  · intro ht
    simp only [List.mem_cons, List.mem_singleton, List.not_mem_nil, or_false, not_or] at ht
    unfold NewPlatform
    rw [if_neg ht.1, if_neg ht.2.1, if_neg (by tauto)]
  · intro a ha
    by_contra hne
    rw [not_or] at hne
    unfold NewPlatform at ha
    rw [if_neg hne.1, if_neg hne.2] at ha
    split_ifs at ha

/-- Witness of C12: the three declared, unimplemented types and an undeclared one. -/
theorem newPlatform_unimplemented_witness :
    NewPlatform (fun _ _ => none) (fun _ => none) "bitbucket" (demoConfig "mirror")
      = .error (.errorf "platform bitbucket not implemented yet - coming in v0.2.0")
    ∧ NewPlatform (fun _ _ => none) (fun _ => none) "azuredevops" (demoConfig "mirror")
      = .error (.errorf "platform azuredevops not implemented yet - coming in v0.2.0")
    ∧ NewPlatform (fun _ _ => none) (fun _ => none) "generic" (demoConfig "mirror")
      = .error (.errorf "platform generic not implemented yet - coming in v0.2.0")
    ∧ NewPlatform (fun _ _ => none) (fun _ => none) "sourcehut" (demoConfig "mirror")
      = .error ErrUnsupportedPlatform :=
  ⟨((newPlatform_unimplemented (fun _ _ => none) (fun _ => none) "bitbucket"
      (demoConfig "mirror")).1 (by decide)).1,
   ((newPlatform_unimplemented (fun _ _ => none) (fun _ => none) "azuredevops"
      (demoConfig "mirror")).1 (by decide)).1,
   ((newPlatform_unimplemented (fun _ _ => none) (fun _ => none) "generic"
      (demoConfig "mirror")).1 (by decide)).1,
   (newPlatform_unimplemented (fun _ _ => none) (fun _ => none) "sourcehut"
      (demoConfig "mirror")).2.1 (by decide)⟩

/-- C13, as the code has it: the reference adapters never read the type of an
`AuthConfig`; whatever the type is set to, the constructors and `Connect` give the
same result.  `NewGitHubPlatform` builds a client with the token when `Token` is
not empty and an unauthenticated client otherwise, and fails only with the error
of `WithEnterpriseURLs` on a host other than `github.com`.  `NewGitLabPlatform`
builds a client with `Token`, empty or not, on the base URL of the host, and fails
only with the error of `gitlab.NewClient`.  `GitHubPlatform.Connect` replaces the
client by a client with the token when `Token` is not empty, keeps the client it
has otherwise, and returns no error.  `GitLabPlatform.Connect` builds a client
with `Token` and returns the error of `gitlab.NewClient`, unwrapped. -/
theorem auth_type_is_not_read (enterpriseError : String → String → Option String)
    (baseURLError : String → Option String) (config : PlatformConfig) (auth : AuthConfig)
    (t : String) (client : GitHubClient) (gh : GitHubPlatform) (gl : GitLabPlatform) :
    (NewGitHubPlatform enterpriseError { config with Auth := { config.Auth with AuthType := t } }
        ).map Prod.fst = (NewGitHubPlatform enterpriseError config).map Prod.fst
    ∧ (NewGitLabPlatform baseURLError { config with Auth := { config.Auth with AuthType := t } }
        ).map Prod.fst = (NewGitLabPlatform baseURLError config).map Prod.fst
    ∧ (∀ r, NewGitHubPlatform enterpriseError config = .ok r →
        r.1.token = (if config.Auth.Token ≠ "" then some config.Auth.Token else none))
    ∧ (∀ e, NewGitHubPlatform enterpriseError config = .error e →
        config.Host ≠ "" ∧ config.Host ≠ "github.com" ∧
        ∃ text, enterpriseError ("https://" ++ config.Host ++ "/api/v3/")
            ("https://" ++ config.Host ++ "/api/uploads/") = some text ∧
          e = .wrap "failed to configure GitHub Enterprise: " (.client text))
    ∧ (∀ r, NewGitLabPlatform baseURLError config = .ok r →
        r.1 = ⟨config.Auth.Token, gitlabBaseURL config.Host⟩)
    ∧ (∀ e, NewGitLabPlatform baseURLError config = .error e →
        ∃ text, baseURLError (gitlabBaseURL config.Host) = some text ∧
          e = .wrap "failed to create GitLab client: " (.client text))
    ∧ GitHubPlatform.Connect client gh { auth with AuthType := t }
        = (none, if auth.Token ≠ "" then ⟨some auth.Token, none⟩ else client,
            ⟨{ gh.config with Auth := { auth with AuthType := t } }, auth.Username⟩)
    ∧ (GitLabPlatform.Connect baseURLError gl { auth with AuthType := t }).1
        = (baseURLError (gitlabBaseURL auth.Host)).map GoError.client
    ∧ (GitLabPlatform.Connect baseURLError gl { auth with AuthType := t }).2.1
        = (match baseURLError (gitlabBaseURL auth.Host) with
          | some _ => none
          | none => some ⟨auth.Token, gitlabBaseURL auth.Host⟩) := by
  refine ⟨?_, ?_, ?_, ?_, ?_, ?_, ?_, ?_, ?_⟩
  · unfold NewGitHubPlatform
    dsimp only
    split_ifs <;> first | rfl | (split <;> rfl)
  · unfold NewGitLabPlatform
    dsimp only
    split <;> rfl
  · intro r hr
    unfold NewGitHubPlatform at hr
    dsimp only at hr
    by_cases hH : config.Host ≠ "" ∧ config.Host ≠ "github.com"
    · rw [if_pos hH] at hr
      split at hr
      · exact absurd hr (by simp)
      · injection hr with hr
        subst hr
        by_cases hT : config.Auth.Token = "" <;> simp [hT]
    · rw [if_neg hH] at hr
      injection hr with hr
      subst hr
      by_cases hT : config.Auth.Token = "" <;> simp [hT]
  · intro e he
    unfold NewGitHubPlatform at he
    dsimp only at he
    by_cases hH : config.Host ≠ "" ∧ config.Host ≠ "github.com"
    · rw [if_pos hH] at he
      split at he
      · rename_i text htext
        injection he with he
        exact ⟨hH.1, hH.2, text, htext, he.symm⟩
      · exact absurd he (by simp)
    · rw [if_neg hH] at he
      exact absurd he (by simp)
  · intro r hr
    unfold NewGitLabPlatform gitlabNewClient at hr
    dsimp only at hr
    cases hb : baseURLError (gitlabBaseURL config.Host) with
    | some text => simp [hb] at hr
    | none =>
      by_cases hT : config.Auth.Token = ""
      · simp [hb, hT] at hr
        rw [← hr, hT]
      · simp [hb, hT] at hr
        rw [← hr]
  · intro e he
    unfold NewGitLabPlatform gitlabNewClient at he
    dsimp only at he
    cases hb : baseURLError (gitlabBaseURL config.Host) with
    | some text =>
      simp [hb] at he
      exact ⟨text, rfl, he.symm⟩
    | none => by_cases hT : config.Auth.Token = "" <;> simp [hb, hT] at he
  · unfold GitHubPlatform.Connect
    dsimp only
    split_ifs <;> rfl
  · unfold GitLabPlatform.Connect gitlabNewClient
    dsimp only
    split_ifs <;> (cases baseURLError (gitlabBaseURL auth.Host) <;> rfl)
  · unfold GitLabPlatform.Connect gitlabNewClient
    dsimp only
    by_cases hT : auth.Token = "" <;>
      (cases baseURLError (gitlabBaseURL auth.Host) <;> simp [hT])

/-- Witness of C13 as amended: an adapter whose client holds the token `old`,
connected with the example `AuthConfig` of type `password` and no token, keeps that
client and returns no error. -/
theorem auth_type_is_not_read_witness :
    GitHubPlatform.Connect ⟨some "old", none⟩ demoGitHubPlatform
        { demoPasswordAuth with AuthType := AuthPassword }
      = (none, ⟨some "old", none⟩,
          ⟨{ demoGitHubPlatform.config with Auth := demoPasswordAuth }, "alice"⟩) :=
  (auth_type_is_not_read (fun _ _ => none) (fun _ => none) demoPasswordConfig demoPasswordAuth
    AuthPassword ⟨some "old", none⟩ demoGitHubPlatform demoGitLabPlatform).2.2.2.2.2.2.1

/-- C13 as stated fails: both constructors and both `Connect` methods accept the
example `AuthConfig` of type `password` and return no error. -/
theorem password_auth_is_accepted :
    ¬ (∀ (enterpriseError : String → String → Option String) (config : PlatformConfig),
        config.Auth.AuthType ∈ [AuthPassword, AuthSSH, AuthOAuth] →
        ∃ e, NewGitHubPlatform enterpriseError config = .error e)
    ∧ ¬ (∀ (baseURLError : String → Option String) (config : PlatformConfig),
        config.Auth.AuthType ∈ [AuthPassword, AuthSSH, AuthOAuth] →
        ∃ e, NewGitLabPlatform baseURLError config = .error e)
    ∧ ¬ (∀ (client : GitHubClient) (g : GitHubPlatform) (auth : AuthConfig),
        auth.AuthType ∈ [AuthPassword, AuthSSH, AuthOAuth] →
        (GitHubPlatform.Connect client g auth).1 ≠ none)
    ∧ ¬ (∀ (baseURLError : String → Option String) (g : GitLabPlatform) (auth : AuthConfig),
        auth.AuthType ∈ [AuthPassword, AuthSSH, AuthOAuth] →
        (GitLabPlatform.Connect baseURLError g auth).1 ≠ none) := by
  refine ⟨?_, ?_, ?_, ?_⟩
  · intro h
    obtain ⟨e, he⟩ := h (fun _ _ => none) demoPasswordConfig (by decide)
    rw [show NewGitHubPlatform (fun _ _ => none) demoPasswordConfig
      = .ok (⟨none, none⟩, ⟨demoPasswordConfig, "alice"⟩) from by decide] at he
    exact absurd he (by simp)
  · intro h
    obtain ⟨e, he⟩ := h (fun _ => none) demoPasswordConfig (by decide)
    rw [show NewGitLabPlatform (fun _ => none) demoPasswordConfig
      = .ok (⟨"", "https://gitlab.com"⟩, ⟨demoPasswordConfig, 0⟩) from by decide] at he
    exact absurd he (by simp)
  · intro h
    exact absurd (h ⟨none, none⟩ demoGitHubPlatform demoPasswordAuth (by decide)) (by decide)
  · intro h
    exact absurd (h (fun _ => none) demoGitLabPlatform demoPasswordAuth (by decide)) (by decide)

/-- C21: the visibility mapping of `InitializeMirror`.  For every name and
visibility string each adapter makes exactly one create call.  On GitHub the
request asks for a private repository (`Private` is `true`) if and only if the
visibility string is exactly `private`; on GitLab it asks for a public project
(`Visibility` is `public`) if and only if the visibility string is exactly
`public`, and for a private project otherwise.  Hence for every visibility string
other than `private` and `public` the GitHub request is for a public repository
and the GitLab request for a private project. -/
theorem initialize_mirror_visibility {σ τ : Type}
    (Create : String → RepositoryRequest → σ → Except String Unit × σ)
    (CreateProject : CreateProjectOptions → τ → Except String Unit × τ)
    (name visibility : String) (s : σ) (t : τ) :
    (∃ b v,
      (GitHubPlatform.InitializeMirror Create name visibility s).calls.map (fun c => c.request)
        = [{ Name := some name, Description := some "Mirror of git activity from other platforms",
             Private := some b }]
      ∧ (b = true ↔ visibility = "private")
      ∧ (GitLabPlatform.InitializeMirror CreateProject name visibility t).calls.map
          (fun c => c.request)
        = [{ Name := some name, Description := some "Mirror of git activity from other platforms",
             Visibility := some v }]
      ∧ (v = PublicVisibility ↔ visibility = "public")
      ∧ (v = PrivateVisibility ↔ visibility ≠ "public"))
    ∧ (visibility ≠ "private" → visibility ≠ "public" →
      (GitHubPlatform.InitializeMirror Create name visibility s).calls.map (fun c => c.request)
        = [{ Name := some name, Description := some "Mirror of git activity from other platforms",
             Private := some false }]
      ∧ (GitLabPlatform.InitializeMirror CreateProject name visibility t).calls.map
          (fun c => c.request)
        = [{ Name := some name, Description := some "Mirror of git activity from other platforms",
             Visibility := some PrivateVisibility }]) := by
  have hH : (GitHubPlatform.InitializeMirror Create name visibility s).calls.map
      (fun c => c.request) = [GitHubPlatform.mirrorRepository name visibility] := by
    unfold GitHubPlatform.InitializeMirror
    dsimp only
    split
    · split_ifs <;> rfl
    · rfl
  have hL : (GitLabPlatform.InitializeMirror CreateProject name visibility t).calls.map
      (fun c => c.request) = [GitLabPlatform.mirrorProject name visibility] := by
    unfold GitLabPlatform.InitializeMirror
    dsimp only
    split
    · split_ifs <;> rfl
    · rfl
  rw [hH, hL]
  refine ⟨⟨decide (visibility = "private"),
    if visibility = "public" then PublicVisibility else PrivateVisibility, rfl, by simp, rfl,
    ?_, ?_⟩, ?_⟩
  · by_cases h : visibility = "public"
    · simp [h]
    · simp [h, PublicVisibility, PrivateVisibility]
  · by_cases h : visibility = "public"
    · simp [h, PublicVisibility, PrivateVisibility]
    · simp [h]
  · intro h1 h2
    simp [GitHubPlatform.mirrorRepository, GitLabPlatform.mirrorProject, h1, h2]

/-- Witness of C21: with the empty visibility string and with `Private`, on the
example accounts, the GitHub request is for a public repository and the GitLab
request for a private project. -/
theorem initialize_mirror_visibility_witness :
    ((GitHubPlatform.InitializeMirror demoCreateRepository "mirror" "" []).calls.map
        (fun c => c.request)
      = [{ Name := some "mirror", Description := some "Mirror of git activity from other platforms",
           Private := some false }]
    ∧ (GitLabPlatform.InitializeMirror demoCreateProject "mirror" "" []).calls.map
        (fun c => c.request)
      = [{ Name := some "mirror", Description := some "Mirror of git activity from other platforms",
           Visibility := some PrivateVisibility }])
    ∧ ((GitHubPlatform.InitializeMirror demoCreateRepository "mirror" "Private" []).calls.map
        (fun c => c.request)
      = [{ Name := some "mirror", Description := some "Mirror of git activity from other platforms",
           Private := some false }]
    ∧ (GitLabPlatform.InitializeMirror demoCreateProject "mirror" "Private" []).calls.map
        (fun c => c.request)
      = [{ Name := some "mirror", Description := some "Mirror of git activity from other platforms",
           Visibility := some PrivateVisibility }]) :=
  ⟨(initialize_mirror_visibility demoCreateRepository demoCreateProject "mirror" "" [] []).2
      (by decide) (by decide),
   (initialize_mirror_visibility demoCreateRepository demoCreateProject "mirror" "Private" []
      []).2 (by decide) (by decide)⟩

/-! ## Theorems on the listing methods -/

section ListingTheorems
variable {Time σ : Type}

theorem github_listLoop_serves
    (RepositoriesList : String → ListOptions → σ →
      Except String (List (GitHubRepository Time) × Response) × σ)
    (owner : String) (page : Int) (s : σ) (pages : List (List (GitHubRepository Time))) (s1 : σ)
    (h : servesPages (fun page s => RepositoriesList owner ⟨page, 100⟩ s) page s pages s1) :
    ∀ (allRepos : List (Repository Time)) (fuel : Nat), pages.length ≤ fuel →
      GitHubPlatform.listLoop RepositoriesList owner fuel page allRepos s
        = .returned ⟨allRepos ++ pages.flatten.map GitHubPlatform.toRepository, none, s1⟩ := by
  induction h with
  | last page s items s1 hreq =>
    intro allRepos fuel hfuel
    cases fuel with
    | zero => simp at hfuel
    | succ n =>
      simp [GitHubPlatform.listLoop, hreq]
  | next page s items next s1 rest s2 hreq hnext _ ih =>
    intro allRepos fuel hfuel
    cases fuel with
    | zero => simp at hfuel
    | succ n =>
      simp only [List.length_cons, Nat.add_le_add_iff_right] at hfuel
      rw [GitHubPlatform.listLoop]
      simp only [hreq, if_neg hnext]
      rw [ih _ n hfuel]
      simp

theorem github_listLoop_fails
    (RepositoriesList : String → ListOptions → σ →
      Except String (List (GitHubRepository Time) × Response) × σ)
    (owner : String) (page : Int) (s : σ) (pages : List (List (GitHubRepository Time)))
    (e : String) (s1 : σ)
    (h : failsAfter (fun page s => RepositoriesList owner ⟨page, 100⟩ s) page s pages e s1) :
    ∀ (allRepos : List (Repository Time)) (fuel : Nat), pages.length < fuel →
      GitHubPlatform.listLoop RepositoriesList owner fuel page allRepos s
        = .returned ⟨[], some (.wrap "failed to list repositories: " (.client e)), s1⟩ := by
  induction h with
  | here page s e s1 hreq =>
    intro allRepos fuel hfuel
    cases fuel with
    | zero => simp at hfuel
    | succ n =>
      simp [GitHubPlatform.listLoop, hreq]
  | later page s items next s1 rest e s2 hreq hnext _ ih =>
    intro allRepos fuel hfuel
    cases fuel with
    | zero => simp at hfuel
    | succ n =>
      simp only [List.length_cons, Nat.add_lt_add_iff_right] at hfuel
      rw [GitHubPlatform.listLoop]
      simp only [hreq, if_neg hnext]
      exact ih _ n hfuel

theorem gitlab_appendProjects_some (projects : List (Project Time))
    (h : ∀ p ∈ projects, p.CreatedAt ≠ none ∧ p.LastActivityAt ≠ none) :
    ∀ allRepos : List (Repository Time),
      GitLabPlatform.appendProjects allRepos projects
        = some (allRepos ++ projects.filterMap GitLabPlatform.toRepository?) ∧
      projects.map GitLabPlatform.toRepository?
        = (projects.filterMap GitLabPlatform.toRepository?).map some := by
  induction projects with
  | nil => intro allRepos; simp [GitLabPlatform.appendProjects]
  | cons p rest ih =>
    intro allRepos
    obtain ⟨hc, ha⟩ := h p (by simp)
    obtain ⟨created, hcreated⟩ := Option.ne_none_iff_exists'.mp hc
    obtain ⟨active, hactive⟩ := Option.ne_none_iff_exists'.mp ha
    have hp : ∃ r, GitLabPlatform.toRepository? p = some r := by
      simp [GitLabPlatform.toRepository?, hcreated, hactive]
    obtain ⟨r, hr⟩ := hp
    have hrest := ih (fun q hq => h q (by simp [hq]))
    rw [GitLabPlatform.appendProjects]
    simp only [hr, List.filterMap_cons, List.map_cons]
    refine ⟨?_, ?_⟩
    · rw [(hrest _).1]
      simp
    · rw [(hrest allRepos).2]

theorem gitlab_listLoop_serves
    (ListProjects : ListProjectsOptions → σ →
      Except String (List (Project Time) × Response) × σ)
    (page : Int) (s : σ) (pages : List (List (Project Time))) (s1 : σ)
    (h : servesPages (fun page s =>
      ListProjects { Page := page, PerPage := 100, Owned := some true, Search := none } s)
      page s pages s1) :
    (∀ p ∈ pages.flatten, p.CreatedAt ≠ none ∧ p.LastActivityAt ≠ none) →
    ∀ (allRepos : List (Repository Time)) (fuel : Nat), pages.length ≤ fuel →
      GitLabPlatform.listLoop ListProjects fuel page allRepos s
        = .returned ⟨allRepos ++ pages.flatten.filterMap GitLabPlatform.toRepository?, none,
            s1⟩ := by
  induction h with
  | last page s items s1 hreq =>
    intro hts allRepos fuel hfuel
    cases fuel with
    | zero => simp at hfuel
    | succ n =>
      have hitems := (gitlab_appendProjects_some items
        (fun p hp => hts p (by simp [hp])) allRepos).1
      simp [GitLabPlatform.listLoop, hreq, hitems]
  | next page s items next s1 rest s2 hreq hnext _ ih =>
    intro hts allRepos fuel hfuel
    cases fuel with
    | zero => simp at hfuel
    | succ n =>
      simp only [List.length_cons, Nat.add_le_add_iff_right] at hfuel
      have hitems := (gitlab_appendProjects_some items
        (fun p hp => hts p (by simp [hp])) allRepos).1
      rw [GitLabPlatform.listLoop]
      simp only [hreq, hitems, if_neg hnext]
      rw [ih (fun p hp => hts p (by simp [hp])) _ n hfuel]
      simp

theorem gitlab_listLoop_fails
    (ListProjects : ListProjectsOptions → σ →
      Except String (List (Project Time) × Response) × σ)
    (page : Int) (s : σ) (pages : List (List (Project Time))) (e : String) (s1 : σ)
    (h : failsAfter (fun page s =>
      ListProjects { Page := page, PerPage := 100, Owned := some true, Search := none } s)
      page s pages e s1) :
    (∀ p ∈ pages.flatten, p.CreatedAt ≠ none ∧ p.LastActivityAt ≠ none) →
    ∀ (allRepos : List (Repository Time)) (fuel : Nat), pages.length < fuel →
      GitLabPlatform.listLoop ListProjects fuel page allRepos s
        = .returned ⟨[], some (.wrap "failed to list projects: " (.client e)), s1⟩ := by
  induction h with
  | here page s e s1 hreq =>
    intro _ allRepos fuel hfuel
    cases fuel with
    | zero => simp at hfuel
    | succ n =>
      simp [GitLabPlatform.listLoop, hreq]
  | later page s items next s1 rest e s2 hreq hnext _ ih =>
    intro hts allRepos fuel hfuel
    cases fuel with
    | zero => simp at hfuel
    | succ n =>
      simp only [List.length_cons, Nat.add_lt_add_iff_right] at hfuel
      have hitems := (gitlab_appendProjects_some items
        (fun p hp => hts p (by simp [hp])) allRepos).1
      rw [GitLabPlatform.listLoop]
      simp only [hreq, hitems, if_neg hnext]
      exact ih (fun p hp => hts p (by simp [hp])) _ n hfuel

/-- Pagination on both adapters.  When the provider serves a finite chain of pages,
`ListRepositories`, given one unit of fuel per page, returns no error and the
repositories of all pages in page order, one `Repository` per listed item; when the
request for a page fails after some pages were served, it returns the wrapped error
and no repository.  On GitLab this is for listed projects that carry their
`CreatedAt` and `LastActivityAt`, which the code dereferences. -/
theorem list_repositories_follows_pages {τ : Type}
    (RepositoriesList : String → ListOptions → σ →
      Except String (List (GitHubRepository Time) × Response) × σ)
    (ListProjects : ListProjectsOptions → τ →
      Except String (List (Project Time) × Response) × τ)
    (gh : GitHubPlatform) :
    (∀ s pages s1,
      servesPages (fun page s => RepositoriesList gh.owner ⟨page, 100⟩ s) 0 s pages s1 →
      ∀ fuel, pages.length ≤ fuel →
        gh.ListRepositories RepositoriesList fuel s
          = .returned ⟨pages.flatten.map GitHubPlatform.toRepository, none, s1⟩)
    ∧ (∀ s pages e s1,
      failsAfter (fun page s => RepositoriesList gh.owner ⟨page, 100⟩ s) 0 s pages e s1 →
      ∀ fuel, pages.length < fuel →
        gh.ListRepositories RepositoriesList fuel s
          = .returned ⟨[], some (.wrap "failed to list repositories: " (.client e)), s1⟩)
    ∧ (∀ t pages t1,
      servesPages (fun page s =>
        ListProjects { Page := page, PerPage := 100, Owned := some true, Search := none } s)
        0 t pages t1 →
      (∀ p ∈ pages.flatten, p.CreatedAt ≠ none ∧ p.LastActivityAt ≠ none) →
      ∀ fuel, pages.length ≤ fuel →
        ∃ repos, GitLabPlatform.ListRepositories ListProjects fuel t = .returned ⟨repos, none, t1⟩
          ∧ pages.flatten.map GitLabPlatform.toRepository? = repos.map some)
    ∧ (∀ t pages e t1,
      failsAfter (fun page s =>
        ListProjects { Page := page, PerPage := 100, Owned := some true, Search := none } s)
        0 t pages e t1 →
      (∀ p ∈ pages.flatten, p.CreatedAt ≠ none ∧ p.LastActivityAt ≠ none) →
      ∀ fuel, pages.length < fuel →
        GitLabPlatform.ListRepositories ListProjects fuel t
          = .returned ⟨[], some (.wrap "failed to list projects: " (.client e)), t1⟩) := by
  refine ⟨?_, ?_, ?_, ?_⟩
  · intro s pages s1 h fuel hfuel
    have := github_listLoop_serves RepositoriesList gh.owner 0 s pages s1 h [] fuel hfuel
    simpa [GitHubPlatform.ListRepositories] using this
  · intro s pages e s1 h fuel hfuel
    exact github_listLoop_fails RepositoriesList gh.owner 0 s pages e s1 h [] fuel hfuel
  · intro t pages t1 h hts fuel hfuel
    have := gitlab_listLoop_serves ListProjects 0 t pages t1 h hts [] fuel hfuel
    refine ⟨pages.flatten.filterMap GitLabPlatform.toRepository?, ?_, ?_⟩
    · simpa [GitLabPlatform.ListRepositories] using this
    · exact (gitlab_appendProjects_some pages.flatten hts []).2
  · intro t pages e t1 h hts fuel hfuel
    exact gitlab_listLoop_fails ListProjects 0 t pages e t1 h hts [] fuel hfuel

end ListingTheorems

/-- The example accounts with three repositories on two pages, listed in full, and
with the request for the second page failing, listed not at all. -/
theorem list_repositories_follows_pages_witness :
    GitHubPlatform.ListRepositories (demoRepositoriesList (-1)) demoGitHubPlatform 2 0
      = .returned ⟨[[demoRepository 1 "one", demoRepository 2 "two"],
          [demoRepository 3 "three"]].flatten.map GitHubPlatform.toRepository, none, 2⟩
    ∧ GitHubPlatform.ListRepositories (demoRepositoriesList 2) demoGitHubPlatform 2 0
      = .returned ⟨[], some (.wrap "failed to list repositories: " (.client "502 Bad Gateway")),
          2⟩
    ∧ (∃ repos, GitLabPlatform.ListRepositories (demoListProjects (-1)) 2 0
        = .returned ⟨repos, none, 2⟩
      ∧ [[demoListedProject 1 "one", demoListedProject 2 "two"],
          [demoListedProject 3 "three"]].flatten.map GitLabPlatform.toRepository?
        = repos.map some)
    ∧ GitLabPlatform.ListRepositories (demoListProjects 2) 2 0
      = .returned ⟨[], some (.wrap "failed to list projects: " (.client "502 Bad Gateway")), 2⟩ :=
  ⟨(list_repositories_follows_pages (demoRepositoriesList (-1)) (demoListProjects (-1))
      demoGitHubPlatform).1 0 _ 2
      (.next 0 0 _ 2 1 _ 2 rfl (by decide) (.last 2 1 _ 2 rfl)) 2 (by decide),
   (list_repositories_follows_pages (demoRepositoriesList 2) (demoListProjects 2)
      demoGitHubPlatform).2.1 0 [[demoRepository 1 "one", demoRepository 2 "two"]] _ 2
      (.later 0 0 _ 2 1 _ _ 2 rfl (by decide) (.here 2 1 _ 2 rfl)) 2 (by decide),
   (list_repositories_follows_pages (demoRepositoriesList (-1)) (demoListProjects (-1))
      demoGitHubPlatform).2.2.1 0
      [[demoListedProject 1 "one", demoListedProject 2 "two"], [demoListedProject 3 "three"]] 2
      (.next 0 0 _ 2 1 _ 2 (by decide) (by decide) (.last 2 1 _ 2 (by decide))) (by decide) 2
      (by decide),
   (list_repositories_follows_pages (demoRepositoriesList 2) (demoListProjects 2)
      demoGitHubPlatform).2.2.2 0 [[demoListedProject 1 "one", demoListedProject 2 "two"]] _ 2
      (.later 0 0 _ 2 1 _ _ 2 (by decide) (by decide) (.here 2 1 _ 2 (by decide))) (by decide) 2
      (by decide)⟩

/-- C16, the code at a GitLab account that serves one page, the last, with two
projects of which the second has no `created_at`.  The page is served without
error, and `GitLabPlatform.ListRepositories` does not return its repositories: it
dereferences the nil `CreatedAt` and panics, with one unit of fuel and with more. -/
theorem gitlab_list_panics_on_incomplete_project :
    demoListIncomplete { Page := 0, PerPage := 100, Owned := some true, Search := none } 0
      = (.ok ([demoListedProject 1 "one",
          { demoListedProject 2 "two" with CreatedAt := none }], ⟨0⟩), 1)
    ∧ GitLabPlatform.ListRepositories demoListIncomplete 1 0 = .panicked
    ∧ ∀ fuel, GitLabPlatform.ListRepositories demoListIncomplete (fuel + 1) 0 = .panicked :=
  ⟨by decide, by decide, fun _ => rfl⟩

/-- C17, the code at a repository whose commits are one by Alice and one by Bob,
with `Auth.Username` set to `alice`: `GitLabPlatform.GetCommits` returns both
commits, the one by Bob included. -/
theorem gitlab_getCommits_does_not_filter :
    demoGitLabPlatform.config.Auth.Username = "alice"
    ∧ (match GitLabPlatform.GetCommits demoListCommits demoGitLabPlatform demoSourceRepository
          ⟨"2024-01-01", "2024-01-01T00:00:00Z"⟩ 1 0 with
        | .returned listing => listing.items.map fun c => (c.SHA, c.Author)
        | _ => [])
      = [("a1", ⟨"alice", "alice@work.example"⟩), ("c3", ⟨"bob", "bob@work.example"⟩)] := by
  decide

end GitActivityMirror
